import Mathlib

/-!
# Scorelang compiler core: a shallow embedding with verified properties

This development embeds the Scorelang pipeline (lexer, parser with measure
partitioning, validator, MusicXML transpiler, formatter) as executable Lean
definitions, translated function-by-function from the TypeScript source
(`score-lexer` / `score-parser.ts` / `score-validator.ts` /
`score-musicxml.ts` / the formatter module), and proves properties of those
definitions.

Conventions of the embedding:
* JavaScript strings are Lean `String`s; scanning works on `List Char`.
* JavaScript numbers that hold beat counts are embedded as `ℚ` (all values
  that occur are dyadic rationals, on which JS doubles are exact).
* `undefined` / absent optional fields are `Option.none`.
* Loops of the recursive-descent parser take an explicit fuel argument;
  callers pass fuel that exceeds the token count, so the fallback is dead.
-/

namespace Scorelang

/-- Token kinds (`TokenType` in the lexer module).  The parser also tests a
`YAML_CONTENT` kind coming from a newer lexer revision, so it is part of the
type; the lexer embedded here never emits it. -/
inductive TokenType where
  | contextDelim
  | yamlContent
  | contextKey
  | contextValue
  | staveDecl
  | staveBodyStart
  | staveBodyEnd
  | annotationBlockStart
  | annotationBlockEnd
  | note
  | rest
  | duration
  | octaveMod
  | fingering
  | chordStart
  | chordEnd
  | beamStart
  | parenOpen
  | parenClose
  | slur
  | tie
  | pedal
  | func
  | number
  | range
  | comma
  | str
  | lyric
  | repeatStart
  | repeatEnd
  | volta
  | grace
  | comment
  | newline
  | whitespace
  | eof
  | unknown
  deriving DecidableEq

/-- A lexer token (`Token` in the source): kind, raw text, 1-based line and
column, and byte span `startPos`/`endPos` (`start`/`end` in the source;
renamed because `end` is a Lean keyword). -/
structure Token where
  type : TokenType
  value : String
  line : Nat
  column : Nat
  startPos : Nat
  endPos : Nat
  deriving DecidableEq

structure LexerError where
  message : String
  line : Nat
  column : Nat
  deriving DecidableEq

structure LexerResult where
  tokens : List Token
  errors : List LexerError
  deriving DecidableEq

/-- The lexer's table of known function names (`FUNCTIONS` in the source). -/
def FUNCTIONS : List String :=
  ["ppp", "pp", "p", "mp", "mf", "f", "ff", "fff",
   "cresc", "decresc",
   "st", "tn", "ac", "mc", "fm", "tr",
   "tie", "slur", "pedal",
   "oct", "dur", "finger",
   "oct_up", "oct_up2", "oct_down", "oct_down2",
   "oct_0", "oct_1", "oct_2", "oct_3", "oct_4", "oct_5", "oct_6", "oct_7", "oct_8",
   "dur_1", "dur_2", "dur_4", "dur_8", "dur_16", "dur_32",
   "dot", "sharp", "flat",
   "finger_1", "finger_2", "finger_3", "finger_4", "finger_5",
   "beam", "tuplet", "grace",
   "text", "8va", "8vb"]

/-- JS `\w` (ASCII word character). -/
def isWordChar (c : Char) : Bool :=
  (decide ('A' ≤ c) && decide (c ≤ 'Z')) ||
  (decide ('a' ≤ c) && decide (c ≤ 'z')) ||
  (decide ('0' ≤ c) && decide (c ≤ '9')) || c = '_'

def isDigitChar (c : Char) : Bool :=
  decide ('0' ≤ c) && decide (c ≤ '9')

/-- `[A-G]` for the `NOTE` pattern. -/
def isUpperAG (c : Char) : Bool :=
  decide ('A' ≤ c) && decide (c ≤ 'G')

/-- `/[a-z_]/`, the identifier start class. -/
def isIdentStart (c : Char) : Bool :=
  (decide ('a' ≤ c) && decide (c ≤ 'z')) || c = '_'

/-- `/[a-z_0-9]/`, the identifier continuation class. -/
def isIdentCont (c : Char) : Bool :=
  isIdentStart c || isDigitChar c

/-- `/[ \t\r]/`, the lexer's in-line whitespace class. -/
def isSpaceTabCR (c : Char) : Bool :=
  c = ' ' || c = '\t' || c = '\r'

/-- ASCII subset of JS `\s` (used in `/[:\s]/` and by `String.trim`). -/
def isJsSpace (c : Char) : Bool :=
  c = ' ' || c = '\t' || c = '\n' || c = '\r' ||
  c = '\x0b' || c = '\x0c'

/-- Backtick character (grace-note marker). -/
def backtickChar : Char := '\x60'

/-- Opening curly brace. -/
def lbrace : Char := '\x7b'

/-- Closing curly brace. -/
def rbrace : Char := '\x7d'

/-- Apostrophe character. -/
def aposChar : Char := '\x27'

/-- `(#{1,2}|b{1,2})?` of the `NOTE` pattern (greedy). -/
def takeAccidentalChars : List Char → List Char × List Char
  | '#' :: '#' :: r => (['#', '#'], r)
  | '#' :: r => (['#'], r)
  | 'b' :: 'b' :: r => (['b', 'b'], r)
  | 'b' :: r => (['b'], r)
  | r => ([], r)

/-- `(\d)?`. -/
def takeOptDigit : List Char → List Char × List Char
  | c :: r => if isDigitChar c then ([c], r) else ([], c :: r)
  | [] => ([], [])

/-- `(\.{1,2})?` (greedy, at most two dots). -/
def takeDots2 : List Char → List Char × List Char
  | '.' :: '.' :: r => (['.', '.'], r)
  | '.' :: r => (['.'], r)
  | r => ([], r)

/-- `NOTE_PATTERN = /^([A-G])(#{1,2}|b{1,2})?(\d)?/`; returns the matched
characters and the rest. -/
def matchNote (l : List Char) : Option (List Char × List Char) :=
  match l with
  | c :: r =>
    if isUpperAG c then
      some (c :: ((takeAccidentalChars r).1 ++ (takeOptDigit (takeAccidentalChars r).2).1),
        (takeOptDigit (takeAccidentalChars r).2).2)
    else none
  | [] => none

/-- `DURATION_PATTERN = /^\/(32|16|8|4|2|1)(\.{1,2})?/` (alternatives tried
in source order). -/
def matchDuration : List Char → Option (List Char × List Char)
  | '/' :: '3' :: '2' :: r2 =>
    some ('/' :: '3' :: '2' :: (takeDots2 r2).1, (takeDots2 r2).2)
  | '/' :: '1' :: '6' :: r2 =>
    some ('/' :: '1' :: '6' :: (takeDots2 r2).1, (takeDots2 r2).2)
  | '/' :: '8' :: r2 =>
    some ('/' :: '8' :: (takeDots2 r2).1, (takeDots2 r2).2)
  | '/' :: '4' :: r2 =>
    some ('/' :: '4' :: (takeDots2 r2).1, (takeDots2 r2).2)
  | '/' :: '2' :: r2 =>
    some ('/' :: '2' :: (takeDots2 r2).1, (takeDots2 r2).2)
  | '/' :: '1' :: r2 =>
    some ('/' :: '1' :: (takeDots2 r2).1, (takeDots2 r2).2)
  | _ => none

/-- `OCTAVE_MOD_PATTERN = /^(\+\+?|--?)/`. -/
def matchOctaveMod : List Char → Option (List Char × List Char)
  | '+' :: '+' :: r => some (['+', '+'], r)
  | '+' :: r => some (['+'], r)
  | '-' :: '-' :: r => some (['-', '-'], r)
  | '-' :: r => some (['-'], r)
  | _ => none

/-- `FINGERING_PATTERN = /^@([1-5])/`. -/
def matchFingering : List Char → Option (List Char × List Char)
  | '@' :: c :: r =>
    if decide ('1' ≤ c) && decide (c ≤ '5') then some (['@', c], r) else none
  | _ => none

/-- `STAVE_PATTERN = /^&(\w+)(\+\w+)?/`. -/
def matchStave (l : List Char) : Option (List Char × List Char) :=
  match l with
  | '&' :: r =>
    if (r.takeWhile isWordChar).isEmpty then none
    else
      match r.dropWhile isWordChar with
      | '+' :: r2 =>
        if (r2.takeWhile isWordChar).isEmpty then
          some ('&' :: r.takeWhile isWordChar, '+' :: r2)
        else
          some ('&' :: (r.takeWhile isWordChar ++ '+' :: r2.takeWhile isWordChar),
            r2.dropWhile isWordChar)
      | r1 => some ('&' :: r.takeWhile isWordChar, r1)
  | _ => none

/-- `CONTEXT_KEY_PATTERN = /^(\w+):\s*/`; the lexer only consumes the key
characters, so just those are returned. -/
def matchContextKey (l : List Char) : Option (List Char × List Char) :=
  if (l.takeWhile isWordChar).isEmpty then none
  else
    match l.dropWhile isWordChar with
    | ':' :: r => some (l.takeWhile isWordChar, ':' :: r)
    | _ => none

/-- `RANGE_PATTERN = /^(\d+)-(\d+)/`. -/
def matchRange (l : List Char) : Option (List Char × List Char) :=
  if (l.takeWhile isDigitChar).isEmpty then none
  else
    match l.dropWhile isDigitChar with
    | '-' :: r =>
      if (r.takeWhile isDigitChar).isEmpty then none
      else some (l.takeWhile isDigitChar ++ '-' :: r.takeWhile isDigitChar,
        r.dropWhile isDigitChar)
    | _ => none

/-- `NUMBER_PATTERN = /^(\d+)/`. -/
def matchNumber (l : List Char) : Option (List Char × List Char) :=
  if (l.takeWhile isDigitChar).isEmpty then none
  else some (l.takeWhile isDigitChar, l.dropWhile isDigitChar)

/-- `STRING_PATTERN = /^"([^"]*)"/`. -/
def matchStringLit (l : List Char) : Option (List Char × List Char) :=
  match l with
  | '"' :: r =>
    match r.dropWhile (fun c => !(c = '"')) with
    | '"' :: r2 => some ('"' :: (r.takeWhile (fun c => !(c = '"')) ++ ['"']), r2)
    | _ => none
  | _ => none

/-- Volta pattern `/^\[(\d+)\./`. -/
def matchVolta (l : List Char) : Option (List Char × List Char) :=
  match l with
  | '[' :: r =>
    if (r.takeWhile isDigitChar).isEmpty then none
    else
      match r.dropWhile isDigitChar with
      | '.' :: r2 => some ('[' :: (r.takeWhile isDigitChar ++ ['.']), r2)
      | _ => none
  | _ => none

def listStartsWith (pre l : List Char) : Bool := pre.isPrefixOf l

/-- Mutable scanner state of `ScoreLexer` (besides `pos` and the token
accumulator, which are threaded separately). -/
structure LexSt where
  inContext : Bool
  staveDepth : Nat
  expectAnnotationBlock : Bool
  inAnnotationBlock : Bool
  line : Nat
  column : Nat
  deriving DecidableEq

def LexSt.initial : LexSt :=
  { inContext := false, staveDepth := 0, expectAnnotationBlock := false,
    inAnnotationBlock := false, line := 1, column := 1 }

def mkTok (ty : TokenType) (v : String) (line col s e : Nat) : Token :=
  { type := ty, value := v, line := line, column := col, startPos := s, endPos := e }

/-- Body loop of the multi-line comment scan: consume until `*/` or end of
input, tracking line/column exactly as the source does.  Returns the inner
characters, the updated line and column, and whether `*/` was found. -/
def blockCommentGo (l : List Char) (line col : Nat) : List Char × Nat × Nat × Bool :=
  match l with
  | [] => ([], line, col, false)
  | '*' :: '/' :: _ => ([], line, col, true)
  | c :: r =>
    if c = '\n' then
      let rec' := blockCommentGo r (line + 1) 1
      (c :: rec'.1, rec'.2.1, rec'.2.2.1, rec'.2.2.2)
    else
      let rec' := blockCommentGo r line (col + 1)
      (c :: rec'.1, rec'.2.1, rec'.2.2.1, rec'.2.2.2)

/-- `scanContextContent`: one scanning step while inside a `---` block.
Returns the emitted tokens, the updated state and the number of characters
consumed. -/
def scanContextOne (st : LexSt) (rem : List Char) (pos : Nat) :
    List Token × LexSt × Nat :=
  let sl := st.line
  let sc := st.column
  match rem with
  | [] => ([], st, 1)
  | c :: _ =>
    if c = '\n' then
      ([mkTok .newline "\n" sl sc pos (pos + 1)],
       { st with line := st.line + 1, column := 1 }, 1)
    else if isSpaceTabCR c then
      let ws := rem.takeWhile isSpaceTabCR
      ([mkTok .whitespace (String.mk ws) sl sc pos (pos + ws.length)],
       { st with column := st.column + ws.length }, ws.length)
    else
      match matchStave rem with
      | some (m, _) =>
        ([mkTok .staveDecl (String.mk m) sl sc pos (pos + m.length)],
         { st with column := st.column + m.length }, m.length)
      | none =>
        match matchContextKey rem with
        | some (w, _) =>
          let wlen := w.length
          let afterKey := rem.drop wlen
          let skip := (afterKey.takeWhile
            (fun ch => (ch = ':' || isJsSpace ch) && !(ch = '\n'))).length
          let afterSkip := afterKey.drop skip
          let v := afterSkip.takeWhile (fun ch => !(ch = '\n'))
          let vlen := v.length
          let keyTok := mkTok .contextKey (String.mk w) sl sc pos (pos + wlen)
          let trimmed := (v.dropWhile isJsSpace).reverse.dropWhile isJsSpace |>.reverse
          let col' := st.column + wlen + skip + vlen
          if trimmed.isEmpty then
            ([keyTok], { st with column := col' }, wlen + skip + vlen)
          else
            ([keyTok,
              mkTok .contextValue (String.mk trimmed) sl (col' - vlen)
                (pos + wlen + skip) (pos + wlen + skip + vlen)],
             { st with column := col' }, wlen + skip + vlen)
        | none =>
          if listStartsWith ['/', '/'] rem then
            let body := (rem.drop 2).takeWhile (fun ch => !(ch = '\n'))
            let k := 2 + body.length
            ([mkTok .comment (String.mk ('/' :: '/' :: body)) sl sc pos (pos + k)],
             { st with column := st.column + k }, k)
          else
            ([mkTok .unknown (String.mk [c]) sl sc pos (pos + 1)],
             { st with column := st.column + 1 }, 1)

/-- The `NOTE` branch of `scanToken`: emit the `NOTE` token, then greedily
the immediately-adjacent `OCTAVE_MOD`, `DURATION` and `FINGERING` tokens. -/
def scanNoteCompound (st : LexSt) (rem : List Char) (pos : Nat)
    (m : List Char) : List Token × LexSt × Nat :=
  let sl := st.line
  let sc := st.column
  let n1 := m.length
  let afterNote := rem.drop n1
  let noteTok := mkTok .note (String.mk m) sl sc pos (pos + n1)
  match matchOctaveMod afterNote with
  | some (om, _) =>
    let n2 := om.length
    let afterOm := afterNote.drop n2
    let omTok := mkTok .octaveMod (String.mk om) sl (sc + n1) (pos + n1) (pos + n1 + n2)
    (match matchDuration afterOm with
     | some (d, _) =>
       let n3 := d.length
       let afterD := afterOm.drop n3
       let dTok := mkTok .duration (String.mk d) sl (sc + n1 + n2)
         (pos + n1 + n2) (pos + n1 + n2 + n3)
       (match matchFingering afterD with
        | some (fg, _) =>
          let n4 := fg.length
          ([noteTok, omTok, dTok,
            mkTok .fingering (String.mk fg) sl (sc + n1 + n2 + n3)
              (pos + n1 + n2 + n3) (pos + n1 + n2 + n3 + n4)],
           { st with column := st.column + n1 + n2 + n3 + n4 }, n1 + n2 + n3 + n4)
        | none =>
          ([noteTok, omTok, dTok],
           { st with column := st.column + n1 + n2 + n3 }, n1 + n2 + n3))
     | none =>
       match matchFingering afterOm with
       | some (fg, _) =>
         let n4 := fg.length
         ([noteTok, omTok,
           mkTok .fingering (String.mk fg) sl (sc + n1 + n2)
             (pos + n1 + n2) (pos + n1 + n2 + n4)],
          { st with column := st.column + n1 + n2 + n4 }, n1 + n2 + n4)
       | none =>
         ([noteTok, omTok], { st with column := st.column + n1 + n2 }, n1 + n2))
  | none =>
    match matchDuration afterNote with
    | some (d, _) =>
      let n3 := d.length
      let afterD := afterNote.drop n3
      let dTok := mkTok .duration (String.mk d) sl (sc + n1) (pos + n1) (pos + n1 + n3)
      (match matchFingering afterD with
       | some (fg, _) =>
         let n4 := fg.length
         ([noteTok, dTok,
           mkTok .fingering (String.mk fg) sl (sc + n1 + n3)
             (pos + n1 + n3) (pos + n1 + n3 + n4)],
          { st with column := st.column + n1 + n3 + n4 }, n1 + n3 + n4)
       | none =>
         ([noteTok, dTok], { st with column := st.column + n1 + n3 }, n1 + n3))
    | none =>
      match matchFingering afterNote with
      | some (fg, _) =>
        let n4 := fg.length
        ([noteTok,
          mkTok .fingering (String.mk fg) sl (sc + n1) (pos + n1) (pos + n1 + n4)],
         { st with column := st.column + n1 + n4 }, n1 + n4)
      | none =>
        ([noteTok], { st with column := st.column + n1 }, n1)

/-- Tail of `scanToken`: the rest `_` / duration / fingering / identifier /
note / dot / unknown branches. -/
def scanAtomOne (st : LexSt) (c : Char) (rest : List Char) (pos : Nat) :
    List Token × LexSt × Nat :=
  let sl := st.line
  let sc := st.column
  let rem := c :: rest
  if c = '_' then
    match matchDuration rest with
    | some (d, _) =>
      ([mkTok .rest "_" sl sc pos (pos + 1),
        mkTok .duration (String.mk d) sl (sc + 1) (pos + 1) (pos + 1 + d.length)],
       { st with column := st.column + 1 + d.length }, 1 + d.length)
    | none =>
      ([mkTok .rest "_" sl sc pos (pos + 1)],
       { st with column := st.column + 1 }, 1)
  else
    match matchDuration rem with
    | some (m, _) =>
      ([mkTok .duration (String.mk m) sl sc pos (pos + m.length)],
       { st with column := st.column + m.length }, m.length)
    | none =>
      match matchFingering rem with
      | some (m, _) =>
        ([mkTok .fingering (String.mk m) sl sc pos (pos + m.length)],
         { st with column := st.column + m.length }, m.length)
      | none =>
        if isIdentStart c then
          let ident := rem.takeWhile isIdentCont
          let ty : TokenType :=
            if FUNCTIONS.contains (String.mk ident) then .func else .unknown
          ([mkTok ty (String.mk ident) sl sc pos (pos + ident.length)],
           { st with column := st.column + ident.length }, ident.length)
        else
          match matchNote rem with
          | some (m, _) => scanNoteCompound st rem pos m
          | none =>
            if c = '.' then
              ([mkTok .duration "." sl sc pos (pos + 1)],
               { st with column := st.column + 1 }, 1)
            else
              ([mkTok .unknown (String.mk [c]) sl sc pos (pos + 1)],
               { st with expectAnnotationBlock := false,
                         column := st.column + 1 }, 1)

/-- Tail of the single-character punctuation chain of `scanToken`: chord
brackets, parentheses and connectives, falling through to `scanAtomOne`. -/
def scanPunctOne (st : LexSt) (c : Char) (rest : List Char) (pos : Nat) :
    List Token × LexSt × Nat :=
  let sl := st.line
  let sc := st.column
  if c = '[' then
    ([mkTok .chordStart "[" sl sc pos (pos + 1)],
     { st with column := st.column + 1 }, 1)
  else if c = ']' then
    ([mkTok .chordEnd "]" sl sc pos (pos + 1)],
     { st with column := st.column + 1 }, 1)
  else if c = '(' then
    ([mkTok .parenOpen "(" sl sc pos (pos + 1)],
     { st with column := st.column + 1 }, 1)
  else if c = ')' then
    ([mkTok .parenClose ")" sl sc pos (pos + 1)],
     { st with column := st.column + 1 }, 1)
  else if c = '~' then
    ([mkTok .slur "~" sl sc pos (pos + 1)],
     { st with column := st.column + 1 }, 1)
  else if c = '^' then
    ([mkTok .tie "^" sl sc pos (pos + 1)],
     { st with column := st.column + 1 }, 1)
  else
    scanAtomOne st c rest pos

/-- Middle of `scanToken`: comma, grace marks, beam start, repeat markers and
volta, falling through to `scanPunctOne`. -/
def scanSymbolOne (st : LexSt) (c : Char) (rest : List Char) (pos : Nat) :
    List Token × LexSt × Nat :=
  let sl := st.line
  let sc := st.column
  let rem := c :: rest
  if c = ',' then
    ([mkTok .comma "," sl sc pos (pos + 1)], { st with column := st.column + 1 }, 1)
  else if listStartsWith [backtickChar, backtickChar] rem then
    ([mkTok .grace (String.mk [backtickChar, backtickChar]) sl sc pos (pos + 2)],
     { st with column := st.column + 2 }, 2)
  else if c = backtickChar then
    ([mkTok .grace (String.mk [backtickChar]) sl sc pos (pos + 1)],
     { st with column := st.column + 1 }, 1)
  else if listStartsWith ['=', '('] rem then
    ([mkTok .beamStart "=(" sl sc pos (pos + 2)],
     { st with column := st.column + 2 }, 2)
  else if listStartsWith ['|', ':'] rem then
    ([mkTok .repeatStart "|:" sl sc pos (pos + 2)],
     { st with column := st.column + 2 }, 2)
  else if listStartsWith [':', '|'] rem then
    ([mkTok .repeatEnd ":|" sl sc pos (pos + 2)],
     { st with column := st.column + 2 }, 2)
  else
    match matchVolta rem with
    | some (m, _) =>
      ([mkTok .volta (String.mk m) sl sc pos (pos + m.length)],
       { st with column := st.column + m.length }, m.length)
    | none => scanPunctOne st c rest pos

/-- Brace, string, range and number branches of `scanToken`, falling through
to `scanSymbolOne`. -/
def scanBraceOne (st : LexSt) (c : Char) (rest : List Char) (pos : Nat) :
    List Token × LexSt × Nat :=
  let sl := st.line
  let sc := st.column
  let rem := c :: rest
  if c = lbrace then
    if st.expectAnnotationBlock then
      ([mkTok .annotationBlockStart (String.mk [lbrace]) sl sc pos (pos + 1)],
       { st with expectAnnotationBlock := false, inAnnotationBlock := true,
                 column := st.column + 1 }, 1)
    else
      ([mkTok .staveBodyStart (String.mk [lbrace]) sl sc pos (pos + 1)],
       { st with staveDepth := st.staveDepth + 1, column := st.column + 1 }, 1)
  else if c = rbrace then
    if st.inAnnotationBlock then
      ([mkTok .annotationBlockEnd (String.mk [rbrace]) sl sc pos (pos + 1)],
       { st with inAnnotationBlock := false, column := st.column + 1 }, 1)
    else if 0 < st.staveDepth then
      ([mkTok .staveBodyEnd (String.mk [rbrace]) sl sc pos (pos + 1)],
       { st with staveDepth := st.staveDepth - 1,
                 expectAnnotationBlock := true, column := st.column + 1 }, 1)
    else
      ([mkTok .annotationBlockEnd (String.mk [rbrace]) sl sc pos (pos + 1)],
       { st with column := st.column + 1 }, 1)
  else
    match (if c = '"' then matchStringLit rem else none) with
    | some (m, _) =>
      ([mkTok .str (String.mk m) sl sc pos (pos + m.length)],
       { st with column := st.column + m.length }, m.length)
    | none =>
      match matchRange rem with
      | some (m, _) =>
        ([mkTok .range (String.mk m) sl sc pos (pos + m.length)],
         { st with column := st.column + m.length }, m.length)
      | none =>
        match matchNumber rem with
        | some (m, _) =>
          ([mkTok .number (String.mk m) sl sc pos (pos + m.length)],
           { st with column := st.column + m.length }, m.length)
        | none => scanSymbolOne st c rest pos

/-- `scanToken` in default mode (after the `---` and context dispatch):
newline, whitespace, comments and stave declaration, falling through to
`scanBraceOne`. -/
def scanDefaultOne (st : LexSt) (c : Char) (rest : List Char) (pos : Nat) :
    List Token × LexSt × Nat :=
  let sl := st.line
  let sc := st.column
  let rem := c :: rest
  if c = '\n' then
    ([mkTok .newline "\n" sl sc pos (pos + 1)],
     { st with line := st.line + 1, column := 1 }, 1)
  else if isSpaceTabCR c then
    let ws := rem.takeWhile isSpaceTabCR
    ([mkTok .whitespace (String.mk ws) sl sc pos (pos + ws.length)],
     { st with column := st.column + ws.length }, ws.length)
  else if listStartsWith ['/', '/'] rem then
    let body := (rem.drop 2).takeWhile (fun ch => !(ch = '\n'))
    let k := 2 + body.length
    ([mkTok .comment (String.mk ('/' :: '/' :: body)) sl sc pos (pos + k)],
     { st with column := st.column + k }, k)
  else if listStartsWith ['/', '*'] rem then
    let bc := blockCommentGo (rem.drop 2) st.line (st.column + 2)
    let inner := bc.1
    let closed := bc.2.2.2
    let k := 2 + inner.length + (if closed then 2 else 0)
    let v := String.mk ('/' :: '*' :: (inner ++ (if closed then ['*', '/'] else [])))
    ([mkTok .comment v sl sc pos (pos + k)],
     { st with line := bc.2.1,
               column := bc.2.2.1 + (if closed then 2 else 0) }, k)
  else
    match matchStave rem with
    | some (m, _) =>
      ([mkTok .staveDecl (String.mk m) sl sc pos (pos + m.length)],
       { st with column := st.column + m.length }, m.length)
    | none => scanBraceOne st c rest pos

/-- `scanToken`: one scanning step.  Returns the emitted tokens, the updated
state and the number of characters consumed (always at least one on nonempty
input). -/
def scanOne (st : LexSt) (rem : List Char) (pos : Nat) :
    List Token × LexSt × Nat :=
  if listStartsWith ['-', '-', '-'] rem then
    ([mkTok .contextDelim "---" st.line st.column pos (pos + 3)],
     { st with inContext := !st.inContext, column := st.column + 3 }, 3)
  else if st.inContext then
    scanContextOne st rem pos
  else
    match rem with
    | [] => ([], st, 1)
    | c :: rest => scanDefaultOne st c rest pos

lemma matchNote_len {l m r} (h : matchNote l = some (m, r)) : 1 ≤ m.length := by
  unfold matchNote at h
  repeat' split at h
  all_goals simp at h
  all_goals obtain ⟨h2, h3⟩ := h
  all_goals subst h2
  all_goals simp

lemma matchDuration_len {l m r} (h : matchDuration l = some (m, r)) : 1 ≤ m.length := by
  unfold matchDuration at h
  repeat' split at h
  all_goals simp at h
  all_goals obtain ⟨h2, h3⟩ := h
  all_goals subst h2
  all_goals simp

lemma matchOctaveMod_len {l m r} (h : matchOctaveMod l = some (m, r)) : 1 ≤ m.length := by
  unfold matchOctaveMod at h
  repeat' split at h
  all_goals simp at h
  all_goals obtain ⟨h2, h3⟩ := h
  all_goals subst h2
  all_goals simp

lemma matchFingering_len {l m r} (h : matchFingering l = some (m, r)) : 1 ≤ m.length := by
  unfold matchFingering at h
  repeat' split at h
  all_goals simp at h
  all_goals obtain ⟨h2, h3⟩ := h
  all_goals subst h2
  all_goals simp

lemma matchStave_len {l m r} (h : matchStave l = some (m, r)) : 1 ≤ m.length := by
  unfold matchStave at h
  repeat' split at h
  all_goals simp at h
  all_goals obtain ⟨h2, h3⟩ := h
  all_goals subst h2
  all_goals simp

lemma matchContextKey_len {l m r} (h : matchContextKey l = some (m, r)) :
    1 ≤ m.length := by
  unfold matchContextKey at h
  split at h
  · simp at h
  · rename_i hw
    split at h
    · simp only [Option.some.injEq, Prod.mk.injEq] at h
      obtain ⟨h2, _⟩ := h
      subst h2
      simp only [List.isEmpty_iff] at hw
      have := List.length_pos.mpr hw
      omega
    · simp at h

lemma matchRange_len {l m r} (h : matchRange l = some (m, r)) : 1 ≤ m.length := by
  unfold matchRange at h
  repeat' split at h
  all_goals simp at h
  all_goals obtain ⟨h2, h3⟩ := h
  all_goals subst h2
  all_goals simp
  all_goals omega

lemma matchNumber_len {l m r} (h : matchNumber l = some (m, r)) : 1 ≤ m.length := by
  unfold matchNumber at h
  split at h
  · simp at h
  · rename_i hd
    simp only [Option.some.injEq, Prod.mk.injEq] at h
    obtain ⟨h2, _⟩ := h
    subst h2
    simp only [List.isEmpty_iff] at hd
    have := List.length_pos.mpr hd
    omega

lemma matchStringLit_len {l m r} (h : matchStringLit l = some (m, r)) :
    1 ≤ m.length := by
  unfold matchStringLit at h
  repeat' split at h
  all_goals simp at h
  all_goals obtain ⟨h2, h3⟩ := h
  all_goals subst h2
  all_goals simp

lemma matchVolta_len {l m r} (h : matchVolta l = some (m, r)) : 1 ≤ m.length := by
  unfold matchVolta at h
  repeat' split at h
  all_goals simp at h
  all_goals obtain ⟨h2, h3⟩ := h
  all_goals subst h2
  all_goals simp

/-- Every scanning step in context mode consumes at least one character. -/
lemma scanContextOne_k_pos (st : LexSt) (rem : List Char) (pos : Nat) :
    1 ≤ (scanContextOne st rem pos).2.2 := by
  unfold scanContextOne
  dsimp only
  repeat' split
  all_goals try (dsimp only)
  all_goals try omega
  all_goals
    first
      | (rw [List.takeWhile_cons_of_pos (by assumption)]
         simp only [List.length_cons]
         omega)
      | (exact matchStave_len (by assumption))
      | (have h1 := matchContextKey_len (show matchContextKey _ = some (_, _) from by assumption)
         omega)

lemma scanNoteCompound_k_pos (st : LexSt) (rem : List Char) (pos : Nat)
    (m : List Char) (hm : 1 ≤ m.length) :
    1 ≤ (scanNoteCompound st rem pos m).2.2 := by
  unfold scanNoteCompound
  dsimp only
  repeat' split
  all_goals try (dsimp only)
  all_goals omega

lemma scanAtomOne_k_pos (st : LexSt) (c : Char) (rest : List Char) (pos : Nat) :
    1 ≤ (scanAtomOne st c rest pos).2.2 := by
  unfold scanAtomOne
  dsimp only
  repeat' split
  all_goals try (dsimp only)
  all_goals try omega
  all_goals
    first
      | (rw [List.takeWhile_cons_of_pos (by simp_all [isIdentCont])]
         simp only [List.length_cons]
         omega)
      | (exact matchDuration_len (by assumption))
      | (exact matchFingering_len (by assumption))
      | (exact scanNoteCompound_k_pos _ _ _ _ (matchNote_len (by assumption)))

lemma scanPunctOne_k_pos (st : LexSt) (c : Char) (rest : List Char) (pos : Nat) :
    1 ≤ (scanPunctOne st c rest pos).2.2 := by
  unfold scanPunctOne
  dsimp only
  repeat' split
  all_goals try (dsimp only)
  all_goals
    first
      | omega
      | (exact scanAtomOne_k_pos _ _ _ _)

lemma scanSymbolOne_k_pos (st : LexSt) (c : Char) (rest : List Char) (pos : Nat) :
    1 ≤ (scanSymbolOne st c rest pos).2.2 := by
  unfold scanSymbolOne
  dsimp only
  repeat' split
  all_goals try (dsimp only)
  all_goals try omega
  all_goals
    first
      | (exact matchVolta_len (by assumption))
      | (exact scanPunctOne_k_pos _ _ _ _)

lemma scanBraceOne_k_pos (st : LexSt) (c : Char) (rest : List Char) (pos : Nat) :
    1 ≤ (scanBraceOne st c rest pos).2.2 := by
  unfold scanBraceOne
  dsimp only
  repeat' split
  all_goals try (dsimp only)
  all_goals try omega
  all_goals
    first
      | (exact matchRange_len (by assumption))
      | (exact matchNumber_len (by assumption))
      | (exact scanSymbolOne_k_pos _ _ _ _)
      | (rename_i heq
         split at heq
         · exact matchStringLit_len heq
         · exact absurd heq (by simp))

lemma scanDefaultOne_k_pos (st : LexSt) (c : Char) (rest : List Char) (pos : Nat) :
    1 ≤ (scanDefaultOne st c rest pos).2.2 := by
  unfold scanDefaultOne
  dsimp only
  repeat' split
  all_goals try (dsimp only)
  all_goals try omega
  all_goals
    first
      | (rw [List.takeWhile_cons_of_pos (by assumption)]
         simp only [List.length_cons]
         omega)
      | (exact matchStave_len (by assumption))
      | (exact scanBraceOne_k_pos _ _ _ _)

/-- Every scanning step consumes at least one character. -/
lemma scanOne_k_pos (st : LexSt) (rem : List Char) (pos : Nat) :
    1 ≤ (scanOne st rem pos).2.2 := by
  unfold scanOne
  repeat' split
  all_goals try (dsimp only)
  all_goals
    first
      | omega
      | (exact scanContextOne_k_pos st rem pos)
      | (exact scanDefaultOne_k_pos _ _ _ _)

/-- The scanning loop of `ScoreLexer.tokenize`: scan until the input is
exhausted, then append the `EOF` token.  The loop runs on fuel so that it is
structurally recursive; every step consumes at least one character
(`scanOne_k_pos`), so the fuel `tokenize` supplies is never exhausted. -/
def lexGo : Nat → LexSt → List Char → Nat → List Token
  | 0, st, _, pos => [mkTok .eof "" st.line st.column pos pos]
  | fuel + 1, st, rem, pos =>
    if rem.isEmpty then
      [mkTok .eof "" st.line st.column pos pos]
    else
      (scanOne st rem pos).1 ++
        lexGo fuel (scanOne st rem pos).2.1 (rem.drop (scanOne st rem pos).2.2)
          (pos + (scanOne st rem pos).2.2)

/-- `tokenize` (the lexer entry point).  The source's `errors` list is never
written to, so it is always empty. -/
def tokenize (source : String) : LexerResult :=
  { tokens := lexGo (source.data.length + 1) LexSt.initial source.data 0,
    errors := [] }

/-- The well-formedness contract of one scanning step: the emitted tokens sit
inside the consumed span `[pos, pos + k)`, each has `startPos ≤ endPos`, and
consecutive emitted tokens do not overlap. -/
def stepOK (pos k : Nat) (ts : List Token) : Prop :=
  List.Chain' (fun a b => a.endPos ≤ b.startPos) ts ∧
  ∀ t ∈ ts, pos ≤ t.startPos ∧ t.startPos ≤ t.endPos ∧ t.endPos ≤ pos + k

lemma scanContextOne_spans (st : LexSt) (rem : List Char) (pos : Nat) :
    stepOK pos (scanContextOne st rem pos).2.2 (scanContextOne st rem pos).1 := by
  unfold scanContextOne
  dsimp only
  repeat' split
  all_goals try (dsimp only)
  all_goals simp only [stepOK, mkTok, List.chain'_cons, List.chain'_singleton,
    List.chain'_nil, List.mem_cons, List.mem_singleton, List.not_mem_nil,
    forall_eq_or_imp, forall_eq, and_true, true_and, false_implies,
    implies_true, IsEmpty.forall_iff]
  all_goals omega

lemma scanNoteCompound_spans (st : LexSt) (rem : List Char) (pos : Nat)
    (m : List Char) :
    stepOK pos (scanNoteCompound st rem pos m).2.2 (scanNoteCompound st rem pos m).1 := by
  unfold scanNoteCompound
  dsimp only
  repeat' split
  all_goals try (dsimp only)
  all_goals simp only [stepOK, mkTok, List.chain'_cons, List.chain'_singleton,
    List.chain'_nil, List.mem_cons, List.mem_singleton, List.not_mem_nil,
    forall_eq_or_imp, forall_eq, and_true, true_and, false_implies,
    implies_true, IsEmpty.forall_iff]
  all_goals omega

lemma scanAtomOne_spans (st : LexSt) (c : Char) (rest : List Char) (pos : Nat) :
    stepOK pos (scanAtomOne st c rest pos).2.2 (scanAtomOne st c rest pos).1 := by
  unfold scanAtomOne
  dsimp only
  repeat' split
  all_goals try (dsimp only)
  all_goals try exact scanNoteCompound_spans _ _ _ _
  all_goals simp only [stepOK, mkTok, List.chain'_cons, List.chain'_singleton,
    List.chain'_nil, List.mem_cons, List.mem_singleton, List.not_mem_nil,
    forall_eq_or_imp, forall_eq, and_true, true_and, false_implies,
    implies_true, IsEmpty.forall_iff]
  all_goals omega

lemma scanPunctOne_spans (st : LexSt) (c : Char) (rest : List Char) (pos : Nat) :
    stepOK pos (scanPunctOne st c rest pos).2.2 (scanPunctOne st c rest pos).1 := by
  unfold scanPunctOne
  dsimp only
  repeat' split
  all_goals try (dsimp only)
  all_goals try exact scanAtomOne_spans _ _ _ _
  all_goals simp only [stepOK, mkTok, List.chain'_cons, List.chain'_singleton,
    List.chain'_nil, List.mem_cons, List.mem_singleton, List.not_mem_nil,
    forall_eq_or_imp, forall_eq, and_true, true_and, false_implies,
    implies_true, IsEmpty.forall_iff]
  all_goals omega

lemma scanSymbolOne_spans (st : LexSt) (c : Char) (rest : List Char) (pos : Nat) :
    stepOK pos (scanSymbolOne st c rest pos).2.2 (scanSymbolOne st c rest pos).1 := by
  unfold scanSymbolOne
  dsimp only
  repeat' split
  all_goals try (dsimp only)
  all_goals try exact scanPunctOne_spans _ _ _ _
  all_goals simp only [stepOK, mkTok, List.chain'_cons, List.chain'_singleton,
    List.chain'_nil, List.mem_cons, List.mem_singleton, List.not_mem_nil,
    forall_eq_or_imp, forall_eq, and_true, true_and, false_implies,
    implies_true, IsEmpty.forall_iff]
  all_goals omega

lemma scanBraceOne_spans (st : LexSt) (c : Char) (rest : List Char) (pos : Nat) :
    stepOK pos (scanBraceOne st c rest pos).2.2 (scanBraceOne st c rest pos).1 := by
  unfold scanBraceOne
  dsimp only
  repeat' split
  all_goals try (dsimp only)
  all_goals try exact scanSymbolOne_spans _ _ _ _
  all_goals simp only [stepOK, mkTok, List.chain'_cons, List.chain'_singleton,
    List.chain'_nil, List.mem_cons, List.mem_singleton, List.not_mem_nil,
    forall_eq_or_imp, forall_eq, and_true, true_and, false_implies,
    implies_true, IsEmpty.forall_iff]
  all_goals omega

lemma scanDefaultOne_spans (st : LexSt) (c : Char) (rest : List Char) (pos : Nat) :
    stepOK pos (scanDefaultOne st c rest pos).2.2 (scanDefaultOne st c rest pos).1 := by
  unfold scanDefaultOne
  dsimp only
  repeat' split
  all_goals try (dsimp only)
  all_goals try exact scanBraceOne_spans _ _ _ _
  all_goals simp only [stepOK, mkTok, List.chain'_cons, List.chain'_singleton,
    List.chain'_nil, List.mem_cons, List.mem_singleton, List.not_mem_nil,
    forall_eq_or_imp, forall_eq, and_true, true_and, false_implies,
    implies_true, IsEmpty.forall_iff]
  all_goals omega

/-- The tokens emitted by one scanning step are non-overlapping, ordered and
confined to the consumed span. -/
lemma scanOne_spans (st : LexSt) (rem : List Char) (pos : Nat) :
    stepOK pos (scanOne st rem pos).2.2 (scanOne st rem pos).1 := by
  unfold scanOne
  repeat' split
  all_goals try (dsimp only)
  all_goals try exact scanContextOne_spans _ _ _
  all_goals try exact scanDefaultOne_spans _ _ _ _
  all_goals simp only [stepOK, mkTok, List.chain'_cons, List.chain'_singleton,
    List.chain'_nil, List.mem_cons, List.mem_singleton, List.not_mem_nil,
    forall_eq_or_imp, forall_eq, and_true, true_and, false_implies,
    implies_true, IsEmpty.forall_iff]
  all_goals omega

/-- The scanning loop emits a chain of non-overlapping tokens lying at or
after `pos`, and its last token is the `EOF` token. -/
lemma lexGo_spans : ∀ (n : Nat) (st : LexSt) (rem : List Char) (pos : Nat),
    List.Chain' (fun a b => a.endPos ≤ b.startPos) (lexGo n st rem pos) ∧
    (∀ t ∈ lexGo n st rem pos, pos ≤ t.startPos ∧ t.startPos ≤ t.endPos) ∧
    (∃ t, (lexGo n st rem pos).getLast? = some t ∧ t.type = .eof) := by
  intro n
  induction n with
  | zero =>
    intro st rem pos
    simp [lexGo, mkTok]
  | succ n ih =>
    intro st rem pos
    by_cases hemp : rem.isEmpty
    · rw [lexGo]
      simp [hemp, mkTok]
    · have hk := scanOne_k_pos st rem pos
      have hspan := scanOne_spans st rem pos
      rcases hscan : scanOne st rem pos with ⟨ts, st', k⟩
      rw [hscan] at hk hspan
      dsimp only at hk hspan
      have hbody : lexGo (n + 1) st rem pos = ts ++ lexGo n st' (rem.drop k) (pos + k) := by
        rw [lexGo]
        simp only [hemp, Bool.false_eq_true, if_false, hscan]
      obtain ⟨ihChain, ihMem, ⟨eoft, ihLast, ihTy⟩⟩ := ih st' (rem.drop k) (pos + k)
      obtain ⟨stChain, stMem⟩ := hspan
      refine ⟨?_, ?_, ?_⟩
      · rw [hbody]
        rw [List.chain'_append]
        refine ⟨stChain, ihChain, ?_⟩
        intro x hx y hy
        have hxm := List.mem_of_mem_getLast? hx
        have hym := List.mem_of_mem_head? hy
        have h1 := (stMem x hxm).2.2
        have h2 := (ihMem y hym).1
        omega
      · rw [hbody]
        intro t ht
        rcases List.mem_append.mp ht with h | h
        · have := stMem t h
          exact ⟨this.1, this.2.1⟩
        · have := ihMem t h
          exact ⟨by omega, this.2⟩
      · refine ⟨eoft, ?_, ihTy⟩
        rw [hbody, List.getLast?_append, ihLast]
        rfl

/-! ## AST (`score-ast.ts`) -/

structure SourceLocation where
  line : Nat
  column : Nat
  startPos : Nat
  endPos : Nat
  deriving DecidableEq

def createLocation (line column s e : Nat) : SourceLocation :=
  { line := line, column := column, startPos := s, endPos := e }

/-- `DurationNode.base ∈ {w, h, q, 8, 16, 32}`. -/
inductive DurationBase where
  | w | h | q | d8 | d16 | d32
  deriving DecidableEq

structure DurationNode where
  base : DurationBase
  dots : Nat
  loc : SourceLocation
  deriving DecidableEq

/-- `PitchNode`: note letter (as a one-character string, `NoteName`),
accidental string and octave.  The octave is an `Int` because the validator
compares it against `0` and `8`. -/
structure PitchNode where
  note : String
  accidental : String
  octave : Int
  loc : SourceLocation
  deriving DecidableEq

/-- `AnnotationNode` (optional fields are `Option`; JS `undefined` is
`none`). -/
structure AnnotationNode where
  dynamic : Option String := none
  articulations : Option (List String) := none
  fingering : Option Int := none
  text : Option String := none
  crescendo : Option String := none
  decrescendo : Option String := none
  slurStart : Option Bool := none
  slurEnd : Option Bool := none
  pedalStart : Option Bool := none
  pedalEnd : Option Bool := none
  loc : SourceLocation := createLocation 0 0 0 0
  deriving DecidableEq

/-- `NoteNode`.  The source's `annotation` field is called `annot` here (the
full word is unavailable as an identifier in this development). -/
structure NoteNode where
  pitch : PitchNode
  duration : DurationNode
  tied : Bool
  beamed : Option Bool := none
  grace : Option Bool := none
  annot : Option AnnotationNode := none
  loc : SourceLocation
  deriving DecidableEq

structure RestNode where
  duration : DurationNode
  loc : SourceLocation
  deriving DecidableEq

/-- `ChordNode` (`annotation` field is called `annot`, as on notes). -/
structure ChordNode where
  pitches : List PitchNode
  duration : DurationNode
  tied : Option Bool := none
  annot : Option AnnotationNode := none
  loc : SourceLocation
  deriving DecidableEq

inductive MusicElementNode where
  | note (n : NoteNode)
  | rest (r : RestNode)
  | chord (c : ChordNode)
  deriving DecidableEq

structure TimeSignatureNode where
  beats : Nat
  beatType : Nat
  loc : SourceLocation
  deriving DecidableEq

/-- The optional `attributes` record on a measure. -/
structure MeasAttrs where
  key : Option String := none
  time : Option TimeSignatureNode := none
  clef : Option String := none
  deriving DecidableEq

structure MeasureNode where
  elements : List MusicElementNode
  barline : String
  attributes : Option MeasAttrs := none
  loc : SourceLocation
  deriving DecidableEq

structure StaffNode where
  name : String
  clef : String
  measures : List MeasureNode
  loc : SourceLocation
  deriving DecidableEq

structure MetadataNode where
  title : Option String := none
  composer : Option String := none
  key : Option String := none
  time : Option TimeSignatureNode := none
  tempo : Option Int := none
  defaultOctave : Option Int := none
  staves : Option (List (String × String)) := none
  extra : List (String × String) := []
  loc : SourceLocation := createLocation 0 0 0 0
  deriving DecidableEq

structure ScoreNode where
  metadata : MetadataNode
  staves : List StaffNode
  loc : SourceLocation
  deriving DecidableEq

/-! ## Parser (`score-parser.ts`, the measure-partitioning `ScoreParser`) -/

structure ParseError where
  message : String
  line : Nat
  column : Nat
  deriving DecidableEq

structure ParseResult where
  ast : Option ScoreNode
  errors : List ParseError
  warnings : List ParseError
  deriving DecidableEq

/-- `DEFAULT_DURATION` (quarter note). -/
def DEFAULT_DURATION : DurationNode :=
  { base := .q, dots := 0, loc := createLocation 0 0 0 0 }

/-- The parser's `DYNAMICS` set (note that it contains `fp` and `sfz`,
which the lexer's `FUNCTIONS` table does not). -/
def DYNAMICS : List String :=
  ["ppp", "pp", "p", "mp", "mf", "f", "ff", "fff", "fp", "sfz"]

/-- `ARTICULATION_FN_MAP`. -/
def ARTICULATION_FN_MAP : List (String × String) :=
  [("st", "staccato"), ("tn", "tenuto"), ("ac", "accent"),
   ("mc", "marcato"), ("fm", "fermata"), ("tr", "trill")]

def lookupAssoc {α : Type} (m : List (String × α)) (k : String) : Option α :=
  (m.find? (fun p => p.1 == k)).map (·.2)

/-- Rational addition written out over `mkRat` (definitionally computable;
`qadd_eq` below identifies it with `+`). -/
def qadd (a b : ℚ) : ℚ :=
  mkRat (a.num * b.den + b.num * a.den) (a.den * b.den)

/-- Rational halving over `mkRat`. -/
def qhalf (a : ℚ) : ℚ :=
  mkRat a.num (a.den * 2)

/-- Multiplication of a rational by a natural, over `mkRat`. -/
def qmulN (a : ℚ) (n : Nat) : ℚ :=
  mkRat (a.num * n) a.den

/-- Absolute value of a rational, over `mkRat`. -/
def qabs (a : ℚ) : ℚ :=
  mkRat (a.num.natAbs : Int) a.den

/-- Rational negation over `mkRat`. -/
def qneg (a : ℚ) : ℚ :=
  mkRat (-a.num) a.den

/-- Rational subtraction over `mkRat`. -/
def qsub (a b : ℚ) : ℚ :=
  qadd a (qneg b)

lemma den_cast_ne_zero (a : ℚ) : ((a.den : ℚ)) ≠ 0 := by
  exact_mod_cast a.den_nz

lemma qadd_eq (a b : ℚ) : qadd a b = a + b := by
  unfold qadd
  rw [Rat.mkRat_eq_div]
  push_cast
  conv_rhs => rw [← Rat.num_div_den a, ← Rat.num_div_den b]
  rw [div_add_div _ _ (den_cast_ne_zero a) (den_cast_ne_zero b)]
  congr 1
  ring

lemma qneg_eq (a : ℚ) : qneg a = -a := by
  unfold qneg
  rw [Rat.mkRat_eq_div]
  push_cast
  rw [neg_div]
  rw [Rat.num_div_den a]

lemma qsub_eq (a b : ℚ) : qsub a b = a - b := by
  unfold qsub
  rw [qadd_eq, qneg_eq, sub_eq_add_neg]

lemma qhalf_eq (a : ℚ) : qhalf a = a / 2 := by
  unfold qhalf
  rw [Rat.mkRat_eq_div]
  push_cast
  rw [← div_div]
  rw [Rat.num_div_den a]

lemma qmulN_eq (a : ℚ) (n : Nat) : qmulN a n = a * n := by
  unfold qmulN
  rw [Rat.mkRat_eq_div]
  push_cast
  rw [← div_mul_eq_mul_div, Rat.num_div_den a]

lemma qabs_eq (a : ℚ) : qabs a = |a| := by
  unfold qabs
  rw [Rat.mkRat_eq_div]
  have h1 : (((a.num.natAbs : ℤ) : ℚ)) = |(a.num : ℚ)| := by
    simp [Int.cast_natAbs]
  rw [h1]
  rw [show ((a.den : ℚ)) = |(a.den : ℚ)| from
    (abs_of_pos (by exact_mod_cast a.pos)).symm]
  rw [← abs_div, Rat.num_div_den a]

/-- `DURATION_BEATS` (quarter note = 1). -/
def DURATION_BEATS : DurationBase → ℚ
  | .w => 4
  | .h => 2
  | .q => 1
  | .d8 => mkRat 1 2
  | .d16 => mkRat 1 4
  | .d32 => mkRat 1 8

/-- The dot loop of `getDurationBeats`: add `dotValue`, halving it each
step. -/
def dotsGo : Nat → ℚ → ℚ → ℚ
  | 0, beats, _ => beats
  | n + 1, beats, dotValue => dotsGo n (qadd beats dotValue) (qhalf dotValue)

/-- `getDurationBeats`: beats of a duration including dots. -/
def getDurationBeats (d : DurationNode) : ℚ :=
  dotsGo d.dots (DURATION_BEATS d.base) (qhalf (DURATION_BEATS d.base))

def elemDuration : MusicElementNode → DurationNode
  | .note n => n.duration
  | .rest r => r.duration
  | .chord c => c.duration

def elemLoc : MusicElementNode → SourceLocation
  | .note n => n.loc
  | .rest r => r.loc
  | .chord c => c.loc

/-- Summed beat count of a list of elements (the validator's left fold). -/
def elementsBeats (els : List MusicElementNode) : ℚ :=
  els.foldl (fun s el => qadd s (getDurationBeats (elemDuration el))) 0

/-- Loop body of `splitIntoMeasures`.  State: remaining elements, closed
measures, current accumulator, accumulated beats, and the measure-start
token.  Note that the push made when `currentBeats >= beatsPerMeasure`
(exact or overfull boundary) carries no `attributes` field in the source,
so it is `none` here. -/
def splitGo (bpm : ℚ) (staveToken : Token) (attrs : Option MeasAttrs) :
    List MusicElementNode → List MeasureNode → List MusicElementNode → ℚ → Token →
    List MeasureNode
  | [], measures, cur, _, mst =>
    if cur.isEmpty then measures
    else
      measures ++
        [{ elements := cur
           barline := "single"
           attributes := (if measures.isEmpty then attrs else none)
           loc := createLocation mst.line mst.column mst.startPos
             ((cur.getLast?.map (fun e => (elemLoc e).endPos)).getD 0) }]
  | el :: rest, measures, cur, curBeats, mst =>
    let eb := getDurationBeats (elemDuration el)
    let p1 : List MeasureNode × List MusicElementNode × ℚ × Token :=
      if bpm < qadd curBeats eb ∧ ¬cur.isEmpty then
        (measures ++
          [{ elements := cur
             barline := "single"
             attributes := (if measures.isEmpty then attrs else none)
             loc := createLocation mst.line mst.column mst.startPos
               (elemLoc el).startPos }],
         [], 0, { staveToken with startPos := (elemLoc el).startPos })
      else (measures, cur, curBeats, mst)
    let cur2 := p1.2.1 ++ [el]
    let b2 := qadd p1.2.2.1 eb
    if bpm ≤ b2 then
      splitGo bpm staveToken attrs rest
        (p1.1 ++
          [{ elements := cur2
             barline := "single"
             attributes := none
             loc := createLocation (p1.2.2.2).line (p1.2.2.2).column
               (p1.2.2.2).startPos (elemLoc el).endPos }])
        [] 0 ({ staveToken with startPos := (elemLoc el).endPos })
    else
      splitGo bpm staveToken attrs rest p1.1 cur2 b2 p1.2.2.2

/-- `splitIntoMeasures`: split a stave body's elements into measures using
the active time signature. -/
def splitIntoMeasures (elements : List MusicElementNode) (beatsPerMeasure : ℚ)
    (staveToken : Token) (attrs : Option MeasAttrs) : List MeasureNode :=
  if elements.isEmpty then []
  else splitGo beatsPerMeasure staveToken attrs elements [] [] 0 staveToken

/-! ### Parser state and helpers -/

def digitsToNat (ds : List Char) : Nat :=
  ds.foldl (fun a c => a * 10 + (c.toNat - 48)) 0

/-- JS `parseInt` on a string (decimal): skip leading whitespace, optional
sign, then leading digits; `none` models `NaN`. -/
def parseIntJS (s : String) : Option Int :=
  let l := s.data.dropWhile isJsSpace
  match l with
  | '-' :: r =>
    if (r.takeWhile isDigitChar).isEmpty then none
    else some (-(digitsToNat (r.takeWhile isDigitChar) : Int))
  | '+' :: r =>
    if (r.takeWhile isDigitChar).isEmpty then none
    else some (digitsToNat (r.takeWhile isDigitChar) : Int)
  | r =>
    if (r.takeWhile isDigitChar).isEmpty then none
    else some (digitsToNat (r.takeWhile isDigitChar) : Int)

/-- Leftmost match of `/(\d+)\/(\d+)/` (used by `applyMetadataValue` for the
`time` key). -/
def findTimeMatch : List Char → Option (Nat × Nat)
  | [] => none
  | c :: rest =>
    let d1 := (c :: rest).takeWhile isDigitChar
    if d1.isEmpty then findTimeMatch rest
    else
      match (c :: rest).drop d1.length with
      | '/' :: r2 =>
        let d2 := r2.takeWhile isDigitChar
        if d2.isEmpty then findTimeMatch rest
        else some (digitsToNat d1, digitsToNat d2)
      | _ => findTimeMatch rest

/-- Per-staff clef/voice data of a declared stave. -/
structure PStaveData where
  clef : String
  voice : Option String := none
  deriving DecidableEq

/-- The mutable fields of `ScoreParser` (the token array is threaded too; JS
`Map` iteration order is insertion order, modelled with association lists). -/
structure PState where
  tokens : List Token
  pos : Nat
  errors : List ParseError
  warnings : List ParseError
  defaultOctave : Int
  tsBeats : Nat
  tsBeatType : Nat
  globalKey : String
  declaredStaves : List (String × PStaveData)
  currentDuration : DurationNode
  deriving DecidableEq

/-- Insertion-ordered `Map.set`. -/
def assocSet {α : Type} (m : List (String × α)) (k : String) (v : α) :
    List (String × α) :=
  if m.any (fun p => p.1 == k) then
    m.map (fun p => if p.1 == k then (k, v) else p)
  else m ++ [(k, v)]

def assocGet {α : Type} (m : List (String × α)) (k : String) : Option α :=
  (m.find? (fun p => p.1 == k)).map (·.2)

def dummyToken : Token := mkTok .eof "" 1 1 0 0

def PState.current (st : PState) : Option Token := st.tokens[st.pos]?

def PState.previous (st : PState) : Option Token := st.tokens[st.pos - 1]?

def PState.check (st : PState) (ty : TokenType) : Bool :=
  match st.current with
  | some t => t.type == ty
  | none => false

def PState.isAtEnd (st : PState) : Bool :=
  decide (st.tokens.length ≤ st.pos) || st.check .eof

/-- `advance()`: return the current token and step past it (out-of-range
access cannot occur in guarded call sites; a dummy is returned there). -/
def PState.adv (st : PState) : Token × PState :=
  ((st.current).getD dummyToken, { st with pos := st.pos + 1 })

def PState.skip (st : PState) : PState := { st with pos := st.pos + 1 }

def skipWhitespace : Nat → PState → PState
  | 0, st => st
  | fuel + 1, st =>
    if st.check .whitespace then skipWhitespace fuel st.skip else st

def skipWhitespaceAndNewlines : Nat → PState → PState
  | 0, st => st
  | fuel + 1, st =>
    if st.check .whitespace || st.check .newline then
      skipWhitespaceAndNewlines fuel st.skip
    else st

/-- `validateTokens`: outside chords, a note-related token directly followed
by a `NOTE` is an error. -/
def validateGo : Bool → List Token → List ParseError
  | _, [] => []
  | _, [_] => []
  | inChord, a :: b :: rest =>
    let inChord1 := if a.type == .chordStart then true else inChord
    let inChord2 := if a.type == .chordEnd then false else inChord1
    let here :=
      if !inChord2 &&
          (a.type == .note || a.type == .duration ||
           a.type == .octaveMod || a.type == .fingering) &&
          b.type == .note then
        [({ message := "Notes must be separated by whitespace or connectives",
            line := b.line, column := b.column } : ParseError)]
      else []
    here ++ validateGo inChord2 (b :: rest)

def validateTokensErrors (tokens : List Token) : List ParseError :=
  validateGo false tokens

/-- Groups of `/^([A-G])(#{1,2}|b{1,2})?(\d)?/` for `parseNotePitch`. -/
def pitchGroups (l : List Char) : Option (Char × List Char × Option Char) :=
  match l with
  | c :: r =>
    if isUpperAG c then
      some (c, (takeAccidentalChars r).1,
        ((takeOptDigit (takeAccidentalChars r).2).1).head?)
    else none
  | [] => none

/-- `parseNotePitch`. -/
def parseNotePitch (defaultOctave : Int) (token : Token) : PitchNode :=
  match pitchGroups token.value.data with
  | none =>
    { note := "C", accidental := "", octave := defaultOctave,
      loc := createLocation token.line token.column token.startPos token.endPos }
  | some (letter, acc, octChar) =>
    { note := String.mk [letter], accidental := String.mk acc,
      octave := (match octChar with
                 | some d => (d.toNat - 48 : Int)
                 | none => defaultOctave),
      loc := createLocation token.line token.column token.startPos token.endPos }

/-- The anchored duration regex `/^\/([1248]|16|32)(\.{1,2})?$/` of
`parseDuration`. -/
def parseDurationValue (l : List Char) : Option (DurationBase × Nat) :=
  match l with
  | '/' :: rest =>
    let digits := rest.takeWhile isDigitChar
    let dotsL := rest.drop digits.length
    let base? : Option DurationBase :=
      if digits = ['1'] then some .w
      else if digits = ['2'] then some .h
      else if digits = ['4'] then some .q
      else if digits = ['8'] then some .d8
      else if digits = ['1', '6'] then some .d16
      else if digits = ['3', '2'] then some .d32
      else none
    match base? with
    | some b =>
      if dotsL.all (fun c => c = '.') ∧ dotsL.length ≤ 2 then some (b, dotsL.length)
      else none
    | none => none
  | _ => none

/-- `parseDuration`. -/
def parseDuration (st : PState) : DurationNode × PState :=
  let (token, st1) := st.adv
  match parseDurationValue token.value.data with
  | some (b, dots) =>
    ({ base := b, dots := dots,
       loc := createLocation token.line token.column token.startPos token.endPos }, st1)
  | none =>
    if token.value == "." then
      ({ base := .q, dots := 1,
         loc := createLocation token.line token.column token.startPos token.endPos }, st1)
    else
      ({ DEFAULT_DURATION with
         loc := createLocation token.line token.column token.startPos token.endPos }, st1)

/-- `parseNote`. -/
def parseNote (st : PState) : NoteNode × PState :=
  let (noteToken, st1) := st.adv
  let pitch0 := parseNotePitch st1.defaultOctave noteToken
  let (pitch, st2) :=
    if st1.check .octaveMod then
      let (modToken, st') := st1.adv
      let oct :=
        if modToken.value == "+" then min 8 (pitch0.octave + 1)
        else if modToken.value == "++" then min 8 (pitch0.octave + 2)
        else if modToken.value == "-" then max 0 (pitch0.octave - 1)
        else if modToken.value == "--" then max 0 (pitch0.octave - 2)
        else pitch0.octave
      ({ pitch0 with octave := oct }, st')
    else (pitch0, st1)
  let (duration, st3) :=
    if st2.check .duration then
      let (d, st') := parseDuration st2
      (d, { st' with currentDuration := d })
    else (st2.currentDuration, st2)
  let (fing, st4) :=
    if st3.check .fingering then
      let (ft, st') := st3.adv
      (parseIntJS (String.mk (ft.value.data.drop 1)), st')
    else (none, st3)
  let ann : Option AnnotationNode :=
    match fing with
    | some f =>
      if f ≠ 0 then some { fingering := some f, loc := createLocation 0 0 0 0 }
      else none
    | none => none
  ({ pitch := pitch, duration := duration, tied := false, annot := ann,
     loc := createLocation noteToken.line noteToken.column noteToken.startPos
       ((st4.previous.map (·.endPos)).getD noteToken.endPos) }, st4)

/-- `parseRest`. -/
def parseRest (st : PState) : RestNode × PState :=
  let (restToken, st1) := st.adv
  let (duration, st2) :=
    if st1.check .duration then
      let (d, st') := parseDuration st1
      (d, { st' with currentDuration := d })
    else (st1.currentDuration, st1)
  ({ duration := duration,
     loc := createLocation restToken.line restToken.column restToken.startPos
       ((st2.previous.map (·.endPos)).getD restToken.endPos) }, st2)

/-- Pitch-collecting loop of `parseChord`. -/
def chordGo : Nat → PState → List PitchNode → List PitchNode × PState
  | 0, st, pitches => (pitches, st)
  | fuel + 1, st, pitches =>
    if !st.isAtEnd && !st.check .chordEnd then
      let st1 := skipWhitespace (fuel + 1) st
      if st1.check .note then
        let (noteToken, st2) := st1.adv
        chordGo fuel st2 (pitches ++ [parseNotePitch st2.defaultOctave noteToken])
      else if !st1.check .chordEnd then
        chordGo fuel st1.skip pitches
      else chordGo fuel st1 pitches
    else (pitches, st)

/-- `parseChord`. -/
def parseChord (fuel : Nat) (st : PState) : ChordNode × PState :=
  let (startToken, st1) := st.adv
  let (pitches, st2) := chordGo fuel st1 []
  let st3 := if st2.check .chordEnd then st2.skip else st2
  let (duration, st4) :=
    if st3.check .duration then
      let (d, st') := parseDuration st3
      (d, { st' with currentDuration := d })
    else (st3.currentDuration, st3)
  ({ pitches := pitches, duration := duration,
     loc := createLocation startToken.line startToken.column startToken.startPos
       ((st4.previous.map (·.endPos)).getD startToken.endPos) }, st4)

def emptyAnn : AnnotationNode := { loc := createLocation 0 0 0 0 }

def updHead {α : Type} (f : α → α) : List α → List α
  | [] => []
  | a :: r => f a :: r

def updLast {α : Type} (f : α → α) : List α → List α
  | [] => []
  | [a] => [f a]
  | a :: b :: r => a :: updLast f (b :: r)

/-- Set `annotation.dynamic` (creating the annotation object if absent). -/
def setDynamic (v : String) (n : NoteNode) : NoteNode :=
  let a := n.annot.getD emptyAnn
  { n with annot := some { a with dynamic := some v } }

/-- Append to `annotation.articulations` (creating objects as the source
does). -/
def pushArticulation (v : String) (n : NoteNode) : NoteNode :=
  let a := n.annot.getD emptyAnn
  { n with annot := some { a with articulations := some (a.articulations.getD [] ++ [v]) } }

def setSlurStart (n : NoteNode) : NoteNode :=
  let a := n.annot.getD emptyAnn
  { n with annot := some { a with slurStart := some true } }

def setSlurEnd (n : NoteNode) : NoteNode :=
  let a := n.annot.getD emptyAnn
  { n with annot := some { a with slurEnd := some true } }

def setCrescendo (v : String) (n : NoteNode) : NoteNode :=
  let a := n.annot.getD emptyAnn
  { n with annot := some { a with crescendo := some v } }

def setDecrescendo (v : String) (n : NoteNode) : NoteNode :=
  let a := n.annot.getD emptyAnn
  { n with annot := some { a with decrescendo := some v } }

/-- The semantic action applied by `parseFunctionCall` to the captured
notes (the `// Apply function to notes` section, translated branch by
branch; mutations of `first`/`last` become head/last updates, applied in
source order so that a one-note capture behaves exactly as the aliased
mutations do). -/
def applyInlineFunction (fnName : String) (notes : List NoteNode) : List NoteNode :=
  if DYNAMICS.contains fnName then
    updHead (setDynamic fnName) notes
  else
    match lookupAssoc ARTICULATION_FN_MAP fnName with
    | some art => notes.map (pushArticulation art)
    | none =>
      if fnName == "slur" || fnName == "legato" then
        updLast setSlurEnd (updHead setSlurStart notes)
      else if fnName == "cresc" || fnName == "crescendo" || fnName == "<" then
        updLast (setCrescendo "end") (updHead (setCrescendo "start") notes)
      else if fnName == "decresc" || fnName == "dim" || fnName == ">" then
        updLast (setDecrescendo "end") (updHead (setDecrescendo "start") notes)
      else notes

/-- Note/chord capture loop of `parseFunctionCall` (chords are parsed but
discarded, exactly as in the source). -/
def fnCaptureGo (fuelC : Nat) : Nat → PState → List NoteNode → List NoteNode × PState
  | 0, st, notes => (notes, st)
  | fuel + 1, st, notes =>
    if !st.isAtEnd && !st.check .parenClose then
      let st1 := skipWhitespace (fuel + 1) st
      if st1.check .note then
        let (n, st2) := parseNote st1
        fnCaptureGo fuelC fuel st2 (notes ++ [n])
      else if st1.check .chordStart then
        let (_, st2) := parseChord fuelC st1
        fnCaptureGo fuelC fuel st2 notes
      else if !st1.check .parenClose then
        fnCaptureGo fuelC fuel st1.skip notes
      else fnCaptureGo fuelC fuel st1 notes
    else (notes, st)

/-- `parseFunctionCall`. -/
def parseFunctionCall (fuel : Nat) (st : PState) :
    Option (List MusicElementNode) × PState :=
  let (fnToken, st1) := st.adv
  let fnName := fnToken.value
  let st2 := skipWhitespace fuel st1
  if !st2.check .parenOpen then (none, st2)
  else
    let st3 := st2.skip
    let (notes, st4) := fnCaptureGo fuel fuel st3 []
    let st5 := if st4.check .parenClose then st4.skip else st4
    let notes2 := applyInlineFunction fnName notes
    (some (notes2.map MusicElementNode.note), st5)

/-! ### Music elements and beam groups -/

/-- Beam-group loop of `parseMusicElement`, abstracted over the element
parser (`pme` is `parseMusicElement` at the enclosing fuel): recursively
parsed elements are filtered to notes, which are marked `beamed`. -/
def beamGoF (pme : PState → Option (List MusicElementNode) × PState) :
    Nat → PState → List NoteNode → List NoteNode × PState
  | 0, st, notes => (notes, st)
  | fuel + 1, st, notes =>
    if !st.isAtEnd && !st.check .parenClose then
      let st1 := skipWhitespace (fuel + 1) st
      match pme st1 with
      | (some els, st2) =>
        beamGoF pme fuel st2 (notes ++ els.filterMap (fun el =>
          match el with
          | .note n => some { n with beamed := some true }
          | _ => none))
      | (none, st2) =>
        if !st2.check .parenClose then beamGoF pme fuel st2.skip notes
        else beamGoF pme fuel st2 notes
    else (notes, st)

/-- `parseMusicElement`: `null` is `none`; a single element or an element
array both become an element list (`some`), since the caller flattens. -/
def parseMusicElement : Nat → PState → Option (List MusicElementNode) × PState
  | 0, st => (none, st)
  | fuel + 1, st =>
    let st0 := skipWhitespace (fuel + 1) st
    if st0.check .slur || st0.check .tie || st0.check .pedal then (none, st0.skip)
    else if st0.check .grace then
      let st2 := skipWhitespace (fuel + 1) st0.skip
      if st2.check .note then
        let (n, st3) := parseNote st2
        (some [MusicElementNode.note { n with grace := some true }], st3)
      else (none, st2)
    else if st0.check .rest then
      let (r, st1) := parseRest st0
      (some [MusicElementNode.rest r], st1)
    else if st0.check .chordStart then
      let (c, st1) := parseChord (fuel + 1) st0
      (some [MusicElementNode.chord c], st1)
    else if st0.check .beamStart then
      let (notes, st1) := beamGoF (parseMusicElement fuel) fuel st0.skip []
      let st2 := if st1.check .parenClose then st1.skip else st1
      (some (notes.map MusicElementNode.note), st2)
    else if st0.check .func then
      parseFunctionCall (fuel + 1) st0
    else if st0.check .note then
      let (n, st1) := parseNote st0
      (some [MusicElementNode.note n], st1)
    else (none, st0)

/-- Body loop of `parseStaveBodyContent`, including the tie-attach branch
that runs when `parseMusicElement` returned `null` and the current token is
still a `TIE`. -/
def bodyGo (fuelC : Nat) : Nat → PState → List MusicElementNode →
    List MusicElementNode × PState
  | 0, st, els => (els, st)
  | fuel + 1, st, els =>
    if !st.isAtEnd && !st.check .staveBodyEnd then
      let st1 := skipWhitespace fuelC st
      if st1.check .newline then bodyGo fuelC fuel st1.skip els
      else if st1.check .comment then bodyGo fuelC fuel st1.skip els
      else
        match parseMusicElement fuelC st1 with
        | (some parsed, st2) => bodyGo fuelC fuel st2 (els ++ parsed)
        | (none, st2) =>
          if st2.check .tie then
            bodyGo fuelC fuel st2.skip
              (updLast (fun el =>
                match el with
                | .note n => .note { n with tied := true }
                | other => other) els)
          else if !st2.check .staveBodyEnd && !st2.check .eof then
            bodyGo fuelC fuel st2.skip els
          else bodyGo fuelC fuel st2 els
    else (els, st)

/-- `parseStaveBodyContent`. -/
def parseStaveBodyContent (fuel : Nat) (st : PState) :
    List MusicElementNode × PState :=
  bodyGo fuel fuel st []

/-! ### Annotation blocks -/

/-- An inline argument of an annotation function (`(string | number)[]`);
`num none` models `NaN`. -/
inductive ArgV where
  | num (n : Option Int)
  | strv (s : String)
  deriving DecidableEq

/-- JS `String(x)` on an argument. -/
def argToString : ArgV → String
  | .num (some n) => toString n
  | .num none => "NaN"
  | .strv s => s

def jsTrim (l : List Char) : List Char :=
  ((l.dropWhile isJsSpace).reverse.dropWhile isJsSpace).reverse

/-- JS `Number(s)` restricted to integer spellings; `none` models `NaN`
(non-integer numeric spellings do not occur in annotation arguments). -/
def jsNumberInt (s : String) : Option Int :=
  let t := jsTrim s.data
  if t.isEmpty then some 0
  else
    match t with
    | '-' :: r =>
      if !r.isEmpty && r.all isDigitChar then some (-(digitsToNat r : Int)) else none
    | '+' :: r =>
      if !r.isEmpty && r.all isDigitChar then some (digitsToNat r : Int) else none
    | r => if r.all isDigitChar then some (digitsToNat r : Int) else none

/-- JS `Number(x)` on an argument. -/
def argToNumber : ArgV → Option Int
  | .num o => o
  | .strv s => jsNumberInt s

/-- The anchored range regex `/^(\d+)-(\d+)$/`. -/
def parseRangeValue (l : List Char) : Option (Int × Int) :=
  let d1 := l.takeWhile isDigitChar
  if d1.isEmpty then none
  else
    match l.drop d1.length with
    | '-' :: r2 =>
      if !r2.isEmpty && r2.all isDigitChar then
        some ((digitsToNat d1 : Int), (digitsToNat r2 : Int))
      else none
    | _ => none

/-- Per-note action of `applyAnnotationFunction` (`s`/`e` are the 0-based
range bounds, `i` the element index). The annotation object is created
before the function-name dispatch, exactly as in the source. -/
def annotTransform (fnName : String) (s e : Int) (args : List ArgV) (i : Nat)
    (n : NoteNode) : NoteNode :=
  let a := n.annot.getD emptyAnn
  if DYNAMICS.contains fnName then
    { n with annot := some { a with dynamic := some fnName } }
  else
    match lookupAssoc ARTICULATION_FN_MAP fnName with
    | some art =>
      { n with annot := some { a with articulations := some (a.articulations.getD [] ++ [art]) } }
    | none =>
      if fnName == "cresc" || fnName == "decresc" then
        if (i : Int) = s then
          { n with annot := some { a with
              crescendo := (if fnName == "cresc" then some "start" else none)
              decrescendo := (if fnName == "decresc" then some "start" else none) } }
        else if (i : Int) = e then
          { n with annot := some { a with
              crescendo := (if fnName == "cresc" then some "end" else none)
              decrescendo := (if fnName == "decresc" then some "end" else none) } }
        else { n with annot := some a }
      else if fnName == "text" then
        match args with
        | arg :: _ => { n with annot := some { a with text := some (argToString arg) } }
        | [] => { n with annot := some a }
      else if fnName == "finger" then
        match args with
        | arg :: _ => { n with annot := some { a with fingering := argToNumber arg } }
        | [] => { n with annot := some a }
      else if fnName == "tie" then { n with tied := true, annot := some a }
      else if fnName == "slur" then
        if (i : Int) = s then { n with annot := some { a with slurStart := some true } }
        else if (i : Int) = e then { n with annot := some { a with slurEnd := some true } }
        else { n with annot := some a }
      else { n with annot := some a }

/-- `applyAnnotationFunction` (1-indexed range applied to the element list;
only notes are transformed). A non-positive `startIdx` would make the
original index `elements[-1]` and throw; no input with annotation index 0
is considered here, so the out-of-range indices are simply skipped. -/
def applyAnnotationFunction (fnName : String) (startIdx endIdx : Int)
    (args : List ArgV) (elements : List MusicElementNode) : List MusicElementNode :=
  elements.mapIdx (fun i el =>
    if startIdx - 1 ≤ (i : Int) ∧ (i : Int) ≤ endIdx - 1 then
      match el with
      | .note n => .note (annotTransform fnName (startIdx - 1) (endIdx - 1) args i n)
      | other => other
    else el)

/-- Comma-separated extra-argument loop of `parseAnnotationBlock`. -/
def argsGo (fuelC : Nat) : Nat → PState → List ArgV → List ArgV × PState
  | 0, st, args => (args, st)
  | fuel + 1, st, args =>
    if st.check .comma then
      let st1 := skipWhitespace fuelC st.skip
      let (args2, st2) :=
        if st1.check .number then
          let (t, st') := st1.adv
          (args ++ [ArgV.num (parseIntJS t.value)], st')
        else if st1.check .str then
          let (t, st') := st1.adv
          (args ++ [ArgV.strv (String.mk ((t.value.data.drop 1).dropLast))], st')
        else if st1.check .range then
          let (t, st') := st1.adv
          (args ++ [ArgV.strv t.value], st')
        else (args, st1)
      argsGo fuelC fuel (skipWhitespace fuelC st2) args2
    else (args, st)

/-- Main loop of `parseAnnotationBlock`, threading the element list. -/
def annGo (fuelC : Nat) : Nat → PState → List MusicElementNode →
    List MusicElementNode × PState
  | 0, st, els => (els, st)
  | fuel + 1, st, els =>
    if !st.isAtEnd && !st.check .annotationBlockEnd && !st.check .staveBodyEnd then
      let st1 := skipWhitespaceAndNewlines fuelC st
      if st1.check .func then
        let (fnToken, st2) := st1.adv
        let st3 := skipWhitespace fuelC st2
        if !st3.check .parenOpen then annGo fuelC fuel st3 els
        else
          let st4 := skipWhitespace fuelC st3.skip
          let (startIdx, endIdx, st5) :=
            if st4.check .range then
              let (t, st') := st4.adv
              (match parseRangeValue t.value.data with
               | some (a, b) => (a, b, st')
               | none => ((1 : Int), (1 : Int), st'))
            else if st4.check .number then
              let (t, st') := st4.adv
              (((parseIntJS t.value).getD 1, (parseIntJS t.value).getD 0, st'))
            else ((1 : Int), (1 : Int), st4)
          let (args, st6) := argsGo fuelC fuelC st5 []
          let st7 := if st6.check .parenClose then st6.skip else st6
          annGo fuelC fuel st7 (applyAnnotationFunction fnToken.value startIdx endIdx args els)
      else if st1.check .comment then annGo fuelC fuel st1.skip els
      else if !st1.check .annotationBlockEnd && !st1.check .staveBodyEnd && !st1.check .eof then
        annGo fuelC fuel st1.skip els
      else (els, st1)
    else (els, st)

/-- `parseAnnotationBlock` (the in-place mutation of the element array
becomes the returned list). -/
def parseAnnotationBlock (fuel : Nat) (elements : List MusicElementNode)
    (st : PState) : List MusicElementNode × PState :=
  annGo fuel fuel st elements

/-! ### Context blocks and metadata -/

/-- `applyMetadataValue` (JS `parseInt` giving `NaN` is modelled as leaving
the optional field empty; `NaN` is falsy everywhere the field is read). -/
def applyMetadataValue (meta : MetadataNode) (key value : String) : MetadataNode :=
  if key == "title" then { meta with title := some value }
  else if key == "composer" then { meta with composer := some value }
  else if key == "key" then { meta with key := some value }
  else if key == "time" then
    match findTimeMatch value.data with
    | some (b, bt) =>
      { meta with time := some { beats := b, beatType := bt, loc := createLocation 0 0 0 0 } }
    | none => meta
  else if key == "tempo" then { meta with tempo := parseIntJS value }
  else if key == "octave" then { meta with defaultOctave := parseIntJS value }
  else { meta with extra := assocSet meta.extra key value }

/-- Modelled from the spec: the metadata/context block is a YAML mapping of
scalar `key: value` lines (the in-repo lexer emits no `YAML_CONTENT`
token, so this branch is unreachable under `tokenize`; the model parses
one-level scalar mappings, which is what the spec's examples use). -/
def yamlLines (s : String) : List (String × String) :=
  (s.splitOn "\n").filterMap (fun line =>
    let l := line.data
    if l.any (fun c => c = ':') then
      some (String.mk (jsTrim (l.takeWhile (fun c => c ≠ ':'))),
            String.mk (jsTrim ((l.dropWhile (fun c => c ≠ ':')).drop 1)))
    else none)

/-- Modelled from the spec: apply one YAML document to the metadata and the
declared-stave map (`&name: value` declares a stave whose clef is the
value, defaulting to `treble`). -/
def applyYamlDoc (s : String) (meta : MetadataNode) (st : PState) :
    MetadataNode × PState :=
  (yamlLines s).foldl
    (fun acc kv =>
      if kv.1.data.head? = some '&' then
        let ds := assocSet acc.2.declaredStaves (String.mk (kv.1.data.drop 1))
          ({ clef := if kv.2 == "" then "treble" else kv.2 } : PStaveData)
        (acc.1, { acc.2 with declaredStaves := ds })
      else (applyMetadataValue acc.1 kv.1 kv.2, acc.2))
    (meta, st)

/-- Loop of `parseContextContent`. -/
def ctxContentGo (fuelC : Nat) : Nat → PState → MetadataNode →
    MetadataNode × PState
  | 0, st, meta => (meta, st)
  | fuel + 1, st, meta =>
    if !st.isAtEnd && !st.check .contextDelim then
      if st.check .yamlContent then
        let (tok, st1) := st.adv
        let (meta2, st2) := applyYamlDoc tok.value meta st1
        ctxContentGo fuelC fuel st2 meta2
      else if st.check .contextKey || st.check .staveDecl || st.check .newline ||
          st.check .whitespace || st.check .comment then
        ctxContentGo fuelC fuel st.skip meta
      else ctxContentGo fuelC fuel st.skip meta
    else (meta, st)

/-- `parseContextContent`. -/
def parseContextContent (fuel : Nat) (st : PState) (meta : MetadataNode) :
    MetadataNode × PState :=
  ctxContentGo fuel fuel st meta

/-- Stave-declaration lookahead of `parseContextBlocks`: the next token (or
the one after a whitespace) opens a stave body. -/
def staveBodyAhead (st : PState) : Bool :=
  match st.tokens[st.pos + 1]? with
  | some la =>
    la.type == .staveBodyStart ||
      (la.type == .whitespace &&
        (match st.tokens[st.pos + 2]? with
         | some la2 => la2.type == .staveBodyStart
         | none => false))
  | none => false

/-- Loop of `parseContextBlocks`. -/
def ctxGo (fuelC : Nat) : Nat → PState → MetadataNode → MetadataNode × PState
  | 0, st, meta => (meta, st)
  | fuel + 1, st, meta =>
    if !st.isAtEnd then
      let st1 := skipWhitespaceAndNewlines fuelC st
      if st1.check .contextDelim then
        let (meta2, st2) := parseContextContent fuelC st1.skip meta
        let st3 := skipWhitespaceAndNewlines fuelC st2
        let st4 := if st3.check .contextDelim then st3.skip else st3
        ctxGo fuelC fuel st4 meta2
      else if st1.check .staveDecl && staveBodyAhead st1 then (meta, st1)
      else if !st1.check .eof then ctxGo fuelC fuel st1.skip meta
      else (meta, st1)
    else (meta, st)

/-- `parseContextBlocks`. -/
def parseContextBlocks (fuel : Nat) (st : PState) : MetadataNode × PState :=
  let startLoc :=
    match st.current with
    | some t => createLocation t.line t.column t.startPos t.endPos
    | none => createLocation 1 1 0 0
  let meta0 : MetadataNode := { loc := startLoc }
  let st1 := skipWhitespaceAndNewlines fuel st
  let (meta, st2) := ctxGo fuel fuel st1 meta0
  let meta2 :=
    if st2.declaredStaves.isEmpty then meta
    else { meta with staves := some (st2.declaredStaves.map (fun p => (p.1, p.2.clef))) }
  (meta2, st2)

/-! ### Stave bodies -/

/-- Per-staff context used to detect mid-score key/time changes. -/
structure StaffCtx where
  key : String
  beats : Nat
  beatType : Nat
  deriving DecidableEq

/-- Main loop of `parseStaveBodies`, threading the per-staff measure and
context maps. -/
def sbGo (fuelC : Nat) :
    Nat → PState → List (String × List MeasureNode) → List (String × StaffCtx) →
    List (String × List MeasureNode) × List (String × StaffCtx) × PState
  | 0, st, sm, sc => (sm, sc, st)
  | fuel + 1, st, sm, sc =>
    if !st.isAtEnd then
      let st1 := skipWhitespaceAndNewlines fuelC st
      if st1.check .comment then sbGo fuelC fuel st1.skip sm sc
      else if st1.check .eof then (sm, sc, st1)
      else if st1.check .contextDelim then
        let (tempMeta, st2) := parseContextContent fuelC st1.skip { loc := createLocation 0 0 0 0 }
        let st3 :=
          match tempMeta.key with
          | some k => if k ≠ "" then { st2 with globalKey := k } else st2
          | none => st2
        let st4 :=
          match tempMeta.time with
          | some t => { st3 with tsBeats := t.beats, tsBeatType := t.beatType }
          | none => st3
        let st5 := skipWhitespaceAndNewlines fuelC st4
        let st6 := if st5.check .contextDelim then st5.skip else st5
        sbGo fuelC fuel st6 sm sc
      else if st1.check .staveDecl then
        let (staveToken, st2) := st1.adv
        let staveName := String.mk (staveToken.value.data.drop 1)
        let st3 := skipWhitespace fuelC st2
        if st3.check .staveBodyStart then
          let (elements, st5) := parseStaveBodyContent fuelC st3.skip
          let st6 := if st5.check .staveBodyEnd then st5.skip else st5
          let st7 := skipWhitespace fuelC st6
          let (elements2, st9) :=
            if st7.check .annotationBlockStart then
              let (els, stA) := parseAnnotationBlock fuelC elements st7.skip
              (els, if stA.check .annotationBlockEnd then stA.skip else stA)
            else (elements, st7)
          if elements2.isEmpty then sbGo fuelC fuel st9 sm sc
          else
            let (sm1, sc1) :=
              if (assocGet sm staveName).isSome then (sm, sc)
              else (assocSet sm staveName [],
                    assocSet sc staveName { key := "C", beats := 4, beatType := 4 })
            let c0 := (assocGet sc1 staveName).getD { key := "C", beats := 4, beatType := 4 }
            let keyChanged := c0.key != st9.globalKey
            let timeChanged := c0.beats != st9.tsBeats || c0.beatType != st9.tsBeatType
            let attrs : MeasAttrs :=
              { key := if keyChanged then some st9.globalKey else none
                time := if timeChanged then
                    some { beats := st9.tsBeats, beatType := st9.tsBeatType,
                           loc := createLocation 0 0 0 0 }
                  else none }
            let sc2 := assocSet sc1 staveName
              { key := st9.globalKey, beats := st9.tsBeats, beatType := st9.tsBeatType }
            let measures := splitIntoMeasures elements2 (st9.tsBeats : ℚ) staveToken
              (if keyChanged || timeChanged then some attrs else none)
            let sm2 := assocSet sm1 staveName ((assocGet sm1 staveName).getD [] ++ measures)
            sbGo fuelC fuel st9 sm2 sc2
        else sbGo fuelC fuel st3 sm sc
      else sbGo fuelC fuel st1.skip sm sc
    else (sm, sc, st)

/-- `parseStaveBodies`. -/
def parseStaveBodies (fuel : Nat) (st : PState) : List StaffNode × PState :=
  let sm0 := st.declaredStaves.map (fun p => (p.1, ([] : List MeasureNode)))
  let sc0 := st.declaredStaves.map (fun p =>
    (p.1, ({ key := st.globalKey, beats := st.tsBeats, beatType := st.tsBeatType } : StaffCtx)))
  let st1 := skipWhitespaceAndNewlines fuel st
  let (sm, _, st2) := sbGo fuel fuel st1 sm0 sc0
  let declaredNames := st2.declaredStaves.map (·.1)
  let staves1 := st2.declaredStaves.map (fun p =>
    ({ name := p.1,
       clef := if p.2.clef == "" then "treble" else p.2.clef,
       measures := (assocGet sm p.1).getD [],
       loc := createLocation 0 0 0 0 } : StaffNode))
  let staves2 := sm.filterMap (fun p =>
    if declaredNames.contains p.1 then none
    else some ({ name := p.1, clef := "treble", measures := p.2,
                 loc := createLocation 0 0 0 0 } : StaffNode))
  let staves := staves1 ++ staves2
  if staves.isEmpty then
    ([{ name := "main", clef := "treble", measures := [],
        loc := createLocation 0 0 0 0 }], st2)
  else (staves, st2)

/-! ### Top level -/

/-- `parseScore`. -/
def parseScore (fuel : Nat) (st : PState) : ScoreNode × PState :=
  let startLoc :=
    match st.current with
    | some t => createLocation t.line t.column t.startPos t.endPos
    | none => createLocation 1 1 0 0
  let (metadata, st1) := parseContextBlocks fuel st
  let st2 := { st1 with defaultOctave := metadata.defaultOctave.getD 4 }
  let st3 :=
    match metadata.time with
    | some t => { st2 with tsBeats := t.beats, tsBeatType := t.beatType }
    | none => st2
  let st4 :=
    match metadata.key with
    | some k => if k ≠ "" then { st3 with globalKey := k } else st3
    | none => st3
  let (staves, st5) := parseStaveBodies fuel st4
  ({ metadata := metadata, staves := staves,
     loc := createLocation startLoc.line startLoc.column startLoc.startPos
       ((st5.previous.map (·.endPos)).getD 0) }, st5)

/-- `ScoreParser.parse`: lex, collect lexer errors, validate token spacing,
then parse (the embedded parser is total, so the `catch` branch that would
null the AST cannot fire). -/
def parse (source : String) : ParseResult :=
  let lexResult := tokenize source
  let st0 : PState :=
    { tokens := lexResult.tokens, pos := 0,
      errors := lexResult.errors.map (fun e =>
        { message := e.message, line := e.line, column := e.column }),
      warnings := [], defaultOctave := 4, tsBeats := 4, tsBeatType := 4,
      globalKey := "C", declaredStaves := [], currentDuration := DEFAULT_DURATION }
  let st1 := { st0 with errors := st0.errors ++ validateTokensErrors st0.tokens }
  let fuel := st0.tokens.length * 2 + 16
  let (ast, st2) := parseScore fuel st1
  { ast := some ast, errors := st2.errors, warnings := st2.warnings }

/-- `parseScoreToAST` (the exported convenience function). -/
def parseScoreToAST (source : String) : ParseResult :=
  parse source

/-! ## Validator (`score-validator.ts`) -/

/-- Fractional-digit expansion used by the JS number-to-string conversion
(beat counts are dyadic, so the expansion terminates well within the
fuel). -/
def fracDigitsGo : Nat → ℚ → String
  | 0, _ => ""
  | fuel + 1, q =>
    if q = 0 then ""
    else
      let d := (qmulN q 10).floor
      toString d.toNat ++ fracDigitsGo fuel (qsub (qmulN q 10) (mkRat d 1))

/-- JS rendering of a (dyadic) rational in a template literal: integer part,
then a decimal point and the exact fractional digits if nonzero. -/
def jsNumToString (q : ℚ) : String :=
  let sgn := if q < 0 then "-" else ""
  let a := qabs q
  let ip := a.floor.toNat
  let fr := qsub a (mkRat a.floor 1)
  if fr = 0 then sgn ++ toString ip
  else sgn ++ toString ip ++ "." ++ fracDigitsGo 128 fr

/-- A validator diagnostic (`severity ∈ \x7berror, warning, info\x7d`). -/
structure Diagnostic where
  severity : String
  message : String
  line : Nat
  column : Nat
  deriving DecidableEq

structure ValidationResult where
  valid : Bool
  diagnostics : List Diagnostic
  deriving DecidableEq

def unusualSpellings : List (String × String) :=
  [("Cb", "B"), ("Fb", "E"), ("E#", "F"), ("B#", "C")]

/-- `validatePitch`: octave-range error and enharmonic-spelling info. -/
def validatePitchDiags (p : PitchNode) : List Diagnostic :=
  (if p.octave < 0 ∨ p.octave > 8 then
    let o := p.octave
    [{ severity := "error",
       message := "Invalid octave " ++ toString o ++ ", must be 0-8",
       line := p.loc.line, column := p.loc.column }]
  else []) ++
  (let spelling := p.note ++ p.accidental
   match lookupAssoc unusualSpellings spelling with
   | some enh =>
     [{ severity := "info",
        message := "Unusual spelling \x27" ++ spelling ++
          "\x27 (enharmonic with " ++ enh ++ ")",
        line := p.loc.line, column := p.loc.column }]
   | none => [])

/-- `validateDuration`: more than two dots is a warning. -/
def validateDurationDiags (d : DurationNode) (line column : Nat) : List Diagnostic :=
  if d.dots > 2 then
    let n := d.dots
    [{ severity := "warning",
       message := "Duration has " ++ toString n ++ " dots, typically max 2",
       line := line, column := column }]
  else []

/-- `validateNote` (the fingering guard is JS-truthy: fingering `0` or `NaN`
skips the range check). -/
def validateNoteDiags (n : NoteNode) : List Diagnostic :=
  validatePitchDiags n.pitch ++
  validateDurationDiags n.duration n.loc.line n.loc.column ++
  (match n.annot with
   | some a =>
     match a.fingering with
     | some f =>
       if f ≠ 0 then
         if f < 1 ∨ f > 5 then
           [{ severity := "error",
              message := "Invalid fingering " ++ toString f ++ ", must be 1-5",
              line := n.loc.line, column := n.loc.column }]
         else []
       else []
     | none => []
   | none => [])

/-- `validateChord`. -/
def validateChordDiags (c : ChordNode) : List Diagnostic :=
  (if c.pitches.isEmpty then
    [{ severity := "error", message := "Empty chord",
       line := c.loc.line, column := c.loc.column }]
  else []) ++
  c.pitches.flatMap validatePitchDiags ++
  validateDurationDiags c.duration c.loc.line c.loc.column

/-- `validateMeasure`: beat-count warning against the global time signature,
then per-element diagnostics. -/
def validateMeasureDiags (score : ScoreNode) (m : MeasureNode) : List Diagnostic :=
  (match score.metadata.time with
   | some t =>
     let beats := elementsBeats m.elements
     if beats > (t.beats : ℚ) then
       [{ severity := "warning",
          message := "Measure has " ++ jsNumToString beats ++ " beats, expected " ++
            toString t.beats ++ " (time: " ++ toString t.beats ++ "/" ++
            toString t.beatType ++ ")",
          line := m.loc.line, column := m.loc.column }]
     else []
   | none => []) ++
  m.elements.flatMap (fun el =>
    match el with
    | .note n => validateNoteDiags n
    | .chord c => validateChordDiags c
    | _ => [])

/-- `validateStaff`. -/
def validateStaffDiags (score : ScoreNode) (declared : List String)
    (staff : StaffNode) : List Diagnostic :=
  (if !declared.isEmpty && !declared.contains staff.name then
    [{ severity := "warning",
       message := "Stave \x27" ++ staff.name ++ "\x27 used without declaration",
       line := staff.loc.line, column := staff.loc.column }]
  else []) ++
  staff.measures.flatMap (validateMeasureDiags score)

/-- `validateScore` / `ScoreValidator.validate`. -/
def validateScore (ast : ScoreNode) : ValidationResult :=
  let declared :=
    match ast.metadata.staves with
    | some l => l.map (·.1)
    | none => []
  let ds := ast.staves.flatMap (validateStaffDiags ast declared)
  { valid := (ds.filter (fun d => d.severity == "error")).isEmpty,
    diagnostics := ds }

/-! ## MusicXML transpiler (`score-musicxml.ts`), with the default options
(`includeXmlDeclaration` and `prettyPrint` both true) -/

def DURATION_TYPE_MAP : DurationBase → String
  | .w => "whole"
  | .h => "half"
  | .q => "quarter"
  | .d8 => "eighth"
  | .d16 => "16th"
  | .d32 => "32nd"

/-- `getDurationDivisions` (JS `Math.round` is floor of `x + 1/2`). -/
def getDurationDivisions (d : DurationNode) : Int :=
  (qadd (qmulN (getDurationBeats d) 4) (mkRat 1 2)).floor

def KEY_FIFTHS : List (String × Int) :=
  [("C", 0), ("G", 1), ("D", 2), ("A", 3), ("E", 4), ("B", 5), ("F#", 6), ("Gb", -6),
   ("Db", -5), ("Ab", -4), ("Eb", -3), ("Bb", -2), ("F", -1),
   ("Am", 0), ("Em", 1), ("Bm", 2), ("F#m", 3), ("C#m", 4), ("G#m", 5), ("D#m", 6),
   ("Dm", -1), ("Gm", -2), ("Cm", -3), ("Fm", -4), ("Bbm", -5), ("Ebm", -6)]

def lowerChar (c : Char) : Char :=
  if 'A' ≤ c ∧ c ≤ 'Z' then Char.ofNat (c.toNat + 32) else c

/-- Case-insensitive prefix test. -/
def ciPrefix : List Char → List Char → Bool
  | [], _ => true
  | _ :: _, [] => false
  | p :: ps, c :: cs => (lowerChar p == lowerChar c) && ciPrefix ps cs

/-- Leftmost match of `\s*(kw1|kw2|...)` (case-insensitive): returns the
match start and length. -/
def findKwPat (kws : List (List Char)) : List Char → Option (Nat × Nat)
  | [] =>
    match kws.find? (fun kw => kw.isEmpty) with
    | some _ => some (0, 0)
    | none => none
  | c :: rest =>
    let ws := (c :: rest).takeWhile isJsSpace
    let tail := (c :: rest).drop ws.length
    match kws.find? (fun kw => ciPrefix kw tail) with
    | some kw => some (0, ws.length + kw.length)
    | none =>
      match findKwPat kws rest with
      | some (i, len) => some (i + 1, len)
      | none => none

/-- One `String.replace` with pattern `/\s*(kw1|kw2)/i`. -/
def replaceKwPat (kws : List (List Char)) (repl : List Char) (l : List Char) :
    List Char :=
  match findKwPat kws l with
  | some (i, len) => l.take i ++ repl ++ l.drop (i + len)
  | none => l

/-- `getKeyFifths` with its normalization of `major`/`minor` suffixes. -/
def getKeyFifths (key : String) : Int :=
  let l1 := replaceKwPat [['m','a','j','o','r'], ['m','a','j']] [] key.data
  let l2 := replaceKwPat [['m','i','n','o','r'], ['m','i','n']] ['m'] l1
  (lookupAssoc KEY_FIFTHS (String.mk (jsTrim l2))).getD 0

/-- Case-insensitive substring test. -/
def ciContains (pat : List Char) : List Char → Bool
  | [] => pat.isEmpty
  | c :: rest => ciPrefix pat (c :: rest) || ciContains pat rest

/-- `getKeyMode`: the regex `/minor|min|m$/i`. -/
def getKeyMode (key : String) : String :=
  if ciContains ['m','i','n'] key.data ||
      (match key.data.getLast? with
       | some c => lowerChar c == 'm'
       | none => false) then "minor"
  else "major"

def CLEF_MAP : List (String × (String × Nat)) :=
  [("treble", ("G", 2)), ("bass", ("F", 4)), ("alto", ("C", 3)), ("tenor", ("C", 4))]

def ACCIDENTAL_ALTER : List (String × Int) :=
  [("", 0), ("#", 1), ("##", 2), ("b", -1), ("bb", -2)]

def ACCIDENTAL_TYPE : List (String × String) :=
  [("#", "sharp"), ("##", "double-sharp"), ("b", "flat"), ("bb", "flat-flat")]

/-- One pass of JS `replace(/c/g, repl)` for a single character pattern. -/
def replaceAllChar (c : Char) (repl : List Char) (l : List Char) : List Char :=
  l.flatMap (fun x => if x = c then repl else [x])

/-- `escapeXml` (five sequential global replaces, ampersand first). -/
def escapeXml (s : String) : String :=
  String.mk
    (replaceAllChar '\x27' ['&', 'a', 'p', 'o', 's', ';']
      (replaceAllChar '"' ['&', 'q', 'u', 'o', 't', ';']
        (replaceAllChar '>' ['&', 'g', 't', ';']
          (replaceAllChar '<' ['&', 'l', 't', ';']
            (replaceAllChar '&' ['&', 'a', 'm', 'p', ';'] s.data)))))

/-- `indent` with `prettyPrint` on. -/
def ind (level : Nat) : String :=
  String.join (List.replicate level "  ")

def articulationToXml (a : String) : Option String :=
  lookupAssoc
    [("staccato", "staccato"), ("tenuto", "tenuto"), ("accent", "accent"),
     ("marcato", "strong-accent"), ("fermata", "fermata")] a

def optIntTruthy : Option Int → Bool
  | some v => v != 0
  | none => false

def optStrTruthy : Option String → Bool
  | some s => s != ""
  | none => false

/-- `transpileNote`. -/
def transpileNote (note : NoteNode) (isChordMember : Bool)
    (beamState : Option String) : List String :=
  let a? := note.annot
  let graceLines := if note.grace.getD false then [ind 4 ++ "<grace/>"] else []
  let chordLines := if isChordMember then [ind 4 ++ "<chord/>"] else []
  let stepS := note.pitch.note
  let alterLines :=
    if note.pitch.accidental != "" then
      let v :=
        match lookupAssoc ACCIDENTAL_ALTER note.pitch.accidental with
        | some n => toString n
        | none => "undefined"
      [ind 5 ++ "<alter>" ++ v ++ "</alter>"]
    else []
  let o := note.pitch.octave
  let pitchLines :=
    [ind 4 ++ "<pitch>", ind 5 ++ "<step>" ++ stepS ++ "</step>"] ++ alterLines ++
    [ind 5 ++ "<octave>" ++ toString o ++ "</octave>", ind 4 ++ "</pitch>"]
  let dv := getDurationDivisions note.duration
  let durLine := ind 4 ++ "<duration>" ++ toString dv ++ "</duration>"
  let tieLines := if note.tied then [ind 4 ++ "<tie type=\"start\"/>"] else []
  let ty := DURATION_TYPE_MAP note.duration.base
  let typeLine := ind 4 ++ "<type>" ++ ty ++ "</type>"
  let dotLines := List.replicate note.duration.dots (ind 4 ++ "<dot/>")
  let accLines :=
    if note.pitch.accidental != "" then
      let v := (lookupAssoc ACCIDENTAL_TYPE note.pitch.accidental).getD "undefined"
      [ind 4 ++ "<accidental>" ++ v ++ "</accidental>"]
    else []
  let beamLines :=
    match beamState with
    | some b => [ind 4 ++ "<beam number=\"1\">" ++ b ++ "</beam>"]
    | none => []
  let arts := ((a?.bind (·.articulations)).getD []).filter (fun x => x != "trill")
  let hasNotatn :=
    note.tied ||
    !((a?.bind (·.articulations)).getD []).isEmpty ||
    optIntTruthy (a?.bind (·.fingering)) ||
    (a?.bind (·.slurStart)).getD false ||
    (a?.bind (·.slurEnd)).getD false ||
    optStrTruthy (a?.bind (·.crescendo)) ||
    optStrTruthy (a?.bind (·.decrescendo))
  let notatnLines :=
    if hasNotatn then
      [ind 4 ++ "<notations>"] ++
      (if note.tied then [ind 5 ++ "<tied type=\"start\"/>"] else []) ++
      (if (a?.bind (·.slurStart)).getD false then
        [ind 5 ++ "<slur type=\"start\" number=\"1\"/>"] else []) ++
      (if (a?.bind (·.slurEnd)).getD false then
        [ind 5 ++ "<slur type=\"stop\" number=\"1\"/>"] else []) ++
      (if !arts.isEmpty then
        [ind 5 ++ "<articulations>"] ++
        (arts.filterMap (fun art =>
          (articulationToXml art).map (fun x => ind 6 ++ "<" ++ x ++ "/>"))) ++
        [ind 5 ++ "</articulations>"]
      else []) ++
      (if ((a?.bind (·.articulations)).getD []).contains "trill" then
        [ind 5 ++ "<ornaments>", ind 6 ++ "<trill-mark/>", ind 5 ++ "</ornaments>"]
      else []) ++
      (if optIntTruthy (a?.bind (·.fingering)) then
        let f := ((a?.bind (·.fingering)).getD 0)
        [ind 5 ++ "<technical>", ind 6 ++ "<fingering>" ++ toString f ++ "</fingering>",
         ind 5 ++ "</technical>"]
      else []) ++
      [ind 4 ++ "</notations>"]
    else []
  [ind 3 ++ "<note>"] ++ graceLines ++ chordLines ++ pitchLines ++ [durLine] ++
    tieLines ++ [typeLine] ++ dotLines ++ accLines ++ beamLines ++ notatnLines ++
    [ind 3 ++ "</note>"]

/-- `transpileRest`. -/
def transpileRest (rest : RestNode) : List String :=
  let dv := getDurationDivisions rest.duration
  let ty := DURATION_TYPE_MAP rest.duration.base
  [ind 3 ++ "<note>", ind 4 ++ "<rest/>",
   ind 4 ++ "<duration>" ++ toString dv ++ "</duration>",
   ind 4 ++ "<type>" ++ ty ++ "</type>"] ++
  List.replicate rest.duration.dots (ind 4 ++ "<dot/>") ++
  [ind 3 ++ "</note>"]

/-- `transpileChord`. -/
def transpileChord (chord : ChordNode) : List String :=
  match chord.pitches with
  | [] => []
  | p0 :: prest =>
    transpileNote
      { pitch := p0, duration := chord.duration, tied := false,
        annot := chord.annot, loc := chord.loc } false none ++
    prest.flatMap (fun p =>
      transpileNote
        { pitch := p, duration := chord.duration, tied := false,
          loc := chord.loc } true none)

/-- `transpileElement`: dynamics and hairpin directions precede the note. -/
def transpileElement (element : MusicElementNode) (beamState : Option String) :
    List String :=
  (match element with
   | .note n =>
     (match n.annot.bind (·.dynamic) with
      | some d =>
        if d != "" then
          [ind 3 ++ "<direction placement=\"below\">",
           ind 4 ++ "<direction-type>",
           ind 5 ++ "<dynamics default-y=\"-80\">",
           ind 6 ++ "<" ++ d ++ "/>",
           ind 5 ++ "</dynamics>",
           ind 4 ++ "</direction-type>",
           ind 3 ++ "</direction>"]
        else []
      | none => []) ++
     (match n.annot with
      | some a =>
        (if a.crescendo = some "start" then
          [ind 3 ++ "<direction placement=\"below\">", ind 4 ++ "<direction-type>",
           ind 5 ++ "<wedge type=\"crescendo\"/>", ind 4 ++ "</direction-type>",
           ind 3 ++ "</direction>"]
        else if a.crescendo = some "end" then
          [ind 3 ++ "<direction>", ind 4 ++ "<direction-type>",
           ind 5 ++ "<wedge type=\"stop\"/>", ind 4 ++ "</direction-type>",
           ind 3 ++ "</direction>"]
        else []) ++
        (if a.decrescendo = some "start" then
          [ind 3 ++ "<direction placement=\"below\">", ind 4 ++ "<direction-type>",
           ind 5 ++ "<wedge type=\"diminuendo\"/>", ind 4 ++ "</direction-type>",
           ind 3 ++ "</direction>"]
        else if a.decrescendo = some "end" then
          [ind 3 ++ "<direction>", ind 4 ++ "<direction-type>",
           ind 5 ++ "<wedge type=\"stop\"/>", ind 4 ++ "</direction-type>",
           ind 3 ++ "</direction>"]
        else [])
      | none => [])
   | _ => []) ++
  (match element with
   | .note n => transpileNote n false beamState
   | .rest r => transpileRest r
   | .chord c => transpileChord c)

/-- Is the element a beamed note? -/
def isBeamedNote : Option MusicElementNode → Bool
  | some (.note n) => n.beamed.getD false
  | _ => false

/-- Beam state of the element at index `i`, with the element before index 0
given explicitly (it is `undefined` at the top-level call). -/
def beamStateAtP (prev : Option MusicElementNode) (els : List MusicElementNode)
    (i : Nat) : Option String :=
  match els[i]? with
  | some (.note n) =>
    if n.beamed.getD false then
      let p := isBeamedNote (if i = 0 then prev else els[i - 1]?)
      let q := isBeamedNote els[i + 1]?
      if !p && q then some "begin"
      else if p && q then some "continue"
      else if p && !q then some "end"
      else none
    else none
  | _ => none

/-- Beam state of the element at index `i` of a measure. -/
def beamStateAt (els : List MusicElementNode) (i : Nat) : Option String :=
  beamStateAtP none els i

/-- `transpileMeasure`. -/
def transpileMeasure (measure : MeasureNode) : List String :=
  (List.range measure.elements.length).flatMap (fun i =>
    match measure.elements[i]? with
    | some el => transpileElement el (beamStateAt measure.elements i)
    | none => [])

/-- The key to render for measure index `i` (`transpileStaff` loop body). -/
def smKeyOpt (mAttrs : Option MeasAttrs) (metadata : MetadataNode)
    (i : Nat) : Option String :=
  match mAttrs.bind (·.key) with
  | some k => some k
  | none => if i = 0 then some (metadata.key.getD "C") else none

/-- The `<key>` block for a rendered key. -/
def smKeyLines (key? : Option String) : List String :=
  match key? with
  | some k =>
    if k != "" then
      [ind 4 ++ "<key>",
       ind 5 ++ "<fifths>" ++ toString (getKeyFifths k) ++ "</fifths>",
       ind 5 ++ "<mode>" ++ getKeyMode k ++ "</mode>", ind 4 ++ "</key>"]
    else []
  | none => []

/-- The time signature to render for measure index `i`. -/
def smTimeOpt (mAttrs : Option MeasAttrs) (metadata : MetadataNode)
    (i : Nat) : Option TimeSignatureNode :=
  match mAttrs.bind (·.time) with
  | some t => some t
  | none => if i = 0 then metadata.time else none

/-- The `<time>` block for a rendered time signature. -/
def smTimeLines (time? : Option TimeSignatureNode) (i : Nat) : List String :=
  if time?.isSome || i = 0 then
    let b := (time?.map (·.beats)).getD 4
    let bt := (time?.map (·.beatType)).getD 4
    [ind 4 ++ "<time>",
     ind 5 ++ "<beats>" ++ toString b ++ "</beats>",
     ind 5 ++ "<beat-type>" ++ toString bt ++ "</beat-type>",
     ind 4 ++ "</time>"]
  else []

/-- The clef to render for measure index `i`. -/
def smClefOpt (mAttrs : Option MeasAttrs) (staff : StaffNode)
    (i : Nat) : Option String :=
  match mAttrs.bind (·.clef) with
  | some c => some c
  | none => if i = 0 then some staff.clef else none

/-- The `<clef>` block for a rendered clef. -/
def smClefLines (clef? : Option String) : List String :=
  match clef? with
  | some c =>
    if c != "" then
      let cl := (lookupAssoc CLEF_MAP c).getD ("G", 2)
      let sgn := cl.1
      let ln := cl.2
      [ind 4 ++ "<clef>",
       ind 5 ++ "<sign>" ++ sgn ++ "</sign>",
       ind 5 ++ "<line>" ++ toString ln ++ "</line>", ind 4 ++ "</clef>"]
    else []
  | none => []

/-- The `<attributes>` block for measure index `i` of a staff. -/
def smAttrLines (staff : StaffNode) (mAttrs : Option MeasAttrs)
    (metadata : MetadataNode) (i : Nat) : List String :=
  if mAttrs.isSome || i = 0 then
    let divLines := if i = 0 then [ind 4 ++ "<divisions>4</divisions>"] else []
    [ind 3 ++ "<attributes>"] ++ divLines ++
      smKeyLines (smKeyOpt mAttrs metadata i) ++
      smTimeLines (smTimeOpt mAttrs metadata i) i ++
      smClefLines (smClefOpt mAttrs staff i) ++ [ind 3 ++ "</attributes>"]
  else []

/-- The body for measure index `i`: the measure content, or a whole-measure
rest when the staff is shorter than the target measure count. -/
def smBodyLines (staff : StaffNode) (metadata : MetadataNode)
    (i : Nat) : List String :=
  match staff.measures[i]? with
  | some m => transpileMeasure m
  | none =>
    let d := ((metadata.time.map (·.beats)).getD 4) * 4
    [ind 3 ++ "<note>", ind 4 ++ "<rest/>",
     ind 4 ++ "<duration>" ++ toString d ++ "</duration>",
     ind 4 ++ "<type>whole</type>",
     ind 3 ++ "</note>"]

/-- Attribute block and body for measure index `i` of a staff
(`transpileStaff` loop body). -/
def transpileStaffMeasure (staff : StaffNode) (metadata : MetadataNode)
    (i : Nat) : List String :=
  [ind 2 ++ "<measure number=\"" ++ toString (i + 1) ++ "\">"] ++
    smAttrLines staff (staff.measures[i]?.bind (·.attributes)) metadata i ++
    smBodyLines staff metadata i ++ [ind 2 ++ "</measure>"]

/-- `transpileStaff`. -/
def transpileStaff (staff : StaffNode) (metadata : MetadataNode)
    (targetMeasureCount : Nat) : List String :=
  (List.range targetMeasureCount).flatMap (transpileStaffMeasure staff metadata)

/-- The `<work>` block of the document header. -/
def tlTitleLines (metadata : MetadataNode) : List String :=
  match metadata.title with
  | some t =>
    if t != "" then
      let e := escapeXml t
      [ind 1 ++ "<work>", ind 2 ++ "<work-title>" ++ e ++ "</work-title>",
       ind 1 ++ "</work>"]
    else []
  | none => []

/-- The `<identification>` block of the document header. -/
def tlComposerLines (metadata : MetadataNode) : List String :=
  match metadata.composer with
  | some c =>
    if c != "" then
      let e := escapeXml c
      [ind 1 ++ "<identification>",
       ind 2 ++ "<creator type=\"composer\">" ++ e ++ "</creator>",
       ind 1 ++ "</identification>"]
    else []
  | none => []

/-- The target measure count: the longest staff, floored at one. -/
def tlMaxMeasures (staves : List StaffNode) : Nat :=
  max 1 ((staves.map (fun s => s.measures.length)).foldr max 0)

/-- The opening `<part-group>` block (emitted for multi-staff scores). -/
def tlGroupStart (k : Nat) : List String :=
  if k > 1 then
    [ind 2 ++ "<part-group type=\"start\" number=\"1\">",
     ind 3 ++ "<group-symbol>bracket</group-symbol>",
     ind 2 ++ "</part-group>"]
  else []

/-- The `<score-part>` entries of the part list. -/
def tlPartEntries (staves : List StaffNode) : List String :=
  (List.range staves.length).flatMap (fun idx =>
    match staves[idx]? with
    | some staff =>
      let n1 := idx + 1
      let e := escapeXml staff.name
      [ind 2 ++ "<score-part id=\"P" ++ toString n1 ++ "\">",
       ind 3 ++ "<part-name>" ++ e ++ "</part-name>",
       ind 2 ++ "</score-part>"]
    | none => [])

/-- The closing `<part-group>` element (emitted for multi-staff scores). -/
def tlGroupStop (k : Nat) : List String :=
  if k > 1 then [ind 2 ++ "<part-group type=\"stop\" number=\"1\"/>"]
  else []

/-- The `<part-list>` block. -/
def tlPartListLines (staves : List StaffNode) : List String :=
  [ind 1 ++ "<part-list>"] ++ tlGroupStart staves.length ++
    tlPartEntries staves ++ tlGroupStop staves.length ++
    [ind 1 ++ "</part-list>"]

/-- The `<part>` blocks, one per staff. -/
def tlPartLines (staves : List StaffNode) (metadata : MetadataNode)
    (maxMeasures : Nat) : List String :=
  (List.range staves.length).flatMap (fun idx =>
    match staves[idx]? with
    | some staff =>
      let n1 := idx + 1
      [ind 1 ++ "<part id=\"P" ++ toString n1 ++ "\">"] ++
      transpileStaff staff metadata maxMeasures ++
      [ind 1 ++ "</part>"]
    | none => [])

/-- `transpileToMusicXML` as the list of emitted lines (the result string is
these joined with a newline). -/
def transpileLines (ast : ScoreNode) : List String :=
  ["<?xml version=\"1.0\" encoding=\"UTF-8\"?>",
   "<!DOCTYPE score-partwise PUBLIC \"-//Recordare//DTD MusicXML 4.0 Partwise//EN\" \"http://www.musicxml.org/dtds/partwise.dtd\">"] ++
  ["<score-partwise version=\"4.0\">"] ++
  tlTitleLines ast.metadata ++ tlComposerLines ast.metadata ++
  tlPartListLines ast.staves ++
  tlPartLines ast.staves ast.metadata (tlMaxMeasures ast.staves) ++
  ["</score-partwise>"]

/-- `transpileToMusicXML` with the default options. -/
def transpileToMusicXML (ast : ScoreNode) : String :=
  String.intercalate "\n" (transpileLines ast)

/-! ## Formatter (`formatScore` in the debug/formatting module), with the
default options (two-space indent, eight notes per line, no space around
connectives) -/

def jsTrimEnd (l : List Char) : List Char :=
  (l.reverse.dropWhile isJsSpace).reverse

/-- `replace(/\n\x7b3,\x7d/g, "\n\n")`: collapse runs of three or more
newlines to two (fuel-driven; each step consumes at least one character, so
the caller's fuel of the input length suffices). -/
def collapseNlsGo : Nat → List Char → List Char
  | 0, _ => []
  | fuel + 1, l =>
    match l with
    | [] => []
    | c :: rest =>
      if c = '\n' then
        let run := (c :: rest).takeWhile (fun x => x = '\n')
        (if run.length ≥ 3 then ['\n', '\n'] else run) ++
          collapseNlsGo fuel (rest.drop (run.length - 1))
      else c :: collapseNlsGo fuel rest

def collapseNls (l : List Char) : List Char :=
  collapseNlsGo l.length l

/-- Formatter state: emitted lines, the line being built, and the
indentation and block flags. -/
structure FmtSt where
  lines : List String
  currentLine : List Char
  indentLevel : Nat
  inContextBlock : Bool
  inStaveBody : Bool
  noteCount : Nat
  deriving DecidableEq

def FmtSt.initial : FmtSt :=
  { lines := [], currentLine := [], indentLevel := 0,
    inContextBlock := false, inStaveBody := false, noteCount := 0 }

def fmtIndent (st : FmtSt) : List Char :=
  List.replicate (2 * st.indentLevel) ' '

/-- `flush()`: emit the trimmed current line (if nonblank) with the current
indent. -/
def fmtFlush (st : FmtSt) : FmtSt :=
  let t := jsTrim st.currentLine
  if t.isEmpty then { st with currentLine := [] }
  else
    { st with
        lines := st.lines ++ [String.mk (fmtIndent st ++ t)]
        currentLine := [] }

def endsWithChar (l : List Char) (c : Char) : Bool :=
  l.getLast? = some c

/-- `addToken` of `formatScore` (the `YAML_CONTENT` case cannot arise under
`tokenize`; its yaml round-trip is modelled as emitting the trimmed raw
value, the formatter's own fallback path). -/
def fmtAddToken (st : FmtSt) (token : Token) : FmtSt :=
  let value := token.value
  match token.type with
  | .contextDelim =>
    let st1 := fmtFlush st
    let st2 := { st1 with
                   lines := st1.lines ++ ["---"]
                   inContextBlock := !st1.inContextBlock }
    if st2.inContextBlock then { st2 with indentLevel := 0 } else st2
  | .yamlContent =>
    { st with lines := st.lines ++ [String.mk (jsTrim value.data)] }
  | .staveDecl =>
    let st1 := fmtFlush st
    if st1.inContextBlock then
      { st1 with
          lines := st1.lines ++ [value ++ ":"]
          indentLevel := 1 }
    else { st1 with currentLine := value.data ++ [' '] }
  | .contextKey =>
    let st1 := fmtFlush st
    { st1 with currentLine := value.data }
  | .contextValue =>
    fmtFlush { st with currentLine := st.currentLine ++ (": " ++ value).data }
  | .staveBodyStart =>
    { st with
        currentLine := st.currentLine ++ ['\x7b', ' ']
        inStaveBody := true
        noteCount := 0 }
  | .staveBodyEnd =>
    let cl :=
      if endsWithChar st.currentLine ' ' then st.currentLine.dropLast
      else st.currentLine
    let st1 := fmtFlush { st with currentLine := cl ++ [' ', '\x7d'] }
    { st1 with inStaveBody := false }
  | .annotationBlockStart =>
    { st with currentLine := st.currentLine ++ [' ', '\x7b', ' '] }
  | .annotationBlockEnd =>
    let cl :=
      if endsWithChar st.currentLine ' ' then st.currentLine.dropLast
      else st.currentLine
    fmtFlush { st with currentLine := cl ++ [' ', '\x7d'] }
  | .note =>
    let st1 :=
      if st.inStaveBody && st.noteCount > 0 && st.noteCount % 8 = 0 then
        let f := fmtFlush st
        { f with currentLine := fmtIndent f ++ [' ', ' '] }
      else st
    { st1 with
        currentLine := st1.currentLine ++ value.data
        noteCount := st1.noteCount + 1 }
  | .rest =>
    let st1 :=
      if st.inStaveBody && st.noteCount > 0 && st.noteCount % 8 = 0 then
        let f := fmtFlush st
        { f with currentLine := fmtIndent f ++ [' ', ' '] }
      else st
    { st1 with
        currentLine := st1.currentLine ++ value.data
        noteCount := st1.noteCount + 1 }
  | .duration => { st with currentLine := st.currentLine ++ value.data }
  | .octaveMod => { st with currentLine := st.currentLine ++ value.data }
  | .fingering => { st with currentLine := st.currentLine ++ value.data }
  | .slur => { st with currentLine := st.currentLine ++ value.data }
  | .tie => { st with currentLine := st.currentLine ++ value.data }
  | .pedal => { st with currentLine := st.currentLine ++ value.data }
  | .chordStart => { st with currentLine := st.currentLine ++ ['['] }
  | .chordEnd => { st with currentLine := st.currentLine ++ [']'] }
  | .func => { st with currentLine := st.currentLine ++ value.data }
  | .parenOpen => { st with currentLine := st.currentLine ++ ['('] }
  | .parenClose => { st with currentLine := st.currentLine ++ [')'] }
  | .comma => { st with currentLine := st.currentLine ++ [',', ' '] }
  | .range => { st with currentLine := st.currentLine ++ value.data }
  | .number => { st with currentLine := st.currentLine ++ value.data }
  | .str => { st with currentLine := st.currentLine ++ value.data }
  | .grace => { st with currentLine := st.currentLine ++ value.data }
  | .beamStart => { st with currentLine := st.currentLine ++ ['=', '('] }
  | .comment =>
    let st1 := fmtFlush st
    { st1 with lines := st1.lines ++ [String.mk (fmtIndent st1 ++ value.data)] }
  | .newline => st
  | .whitespace =>
    if st.inStaveBody && !endsWithChar st.currentLine ' ' &&
        !endsWithChar st.currentLine '[' && !endsWithChar st.currentLine '(' &&
        !endsWithChar st.currentLine '~' && !endsWithChar st.currentLine '^' &&
        st.currentLine.length > 0 then
      { st with currentLine := st.currentLine ++ [' '] }
    else st
  | .eof => fmtFlush st
  | .lyric => { st with currentLine := st.currentLine ++ value.data }
  | .repeatStart => { st with currentLine := st.currentLine ++ value.data }
  | .repeatEnd => { st with currentLine := st.currentLine ++ value.data }
  | .volta => { st with currentLine := st.currentLine ++ value.data }
  | .unknown => { st with currentLine := st.currentLine ++ value.data }

/-- `formatScore` with the default options. -/
def formatScore (source : String) : String :=
  let tokens := (tokenize source).tokens
  let st := tokens.foldl fmtAddToken FmtSt.initial
  let joined :=
    String.intercalate "\n" (st.lines.map (fun l => String.mk (jsTrimEnd l.data)))
  String.mk (jsTrim (collapseNls joined.data)) ++ "\n"

/-! ## Concrete inputs used in the claim analyses -/

/-- The tied flag of an element (`tied` of a note or chord). -/
def elemTied : MusicElementNode → Option Bool
  | .note n => some n.tied
  | .chord c => c.tied
  | .rest _ => none

/-- The dynamic, if any, attached to an element's annotation. -/
def elemDyn : MusicElementNode → Option String
  | .note n => n.annot.bind (·.dynamic)
  | .chord c => c.annot.bind (·.dynamic)
  | .rest _ => none

/-- A quarter-note C4, as the parser would build it (locations zeroed). -/
def quarterC : MusicElementNode :=
  .note { pitch := { note := "C", accidental := "", octave := 4,
                     loc := createLocation 0 0 0 0 },
          duration := { base := .q, dots := 0, loc := createLocation 0 0 0 0 },
          tied := false, loc := createLocation 0 0 0 0 }

/-- A dotted whole note C4 (six beats). -/
def dottedWholeC : MusicElementNode :=
  .note { pitch := { note := "C", accidental := "", octave := 4,
                     loc := createLocation 0 0 0 0 },
          duration := { base := .w, dots := 1, loc := createLocation 0 0 0 0 },
          tied := false, loc := createLocation 0 0 0 0 }

/-- A measure-attribute record carrying a key change. -/
def c6attrs : MeasAttrs := { key := some "G" }

/-- Source with a tie marker directly after the first note. -/
def c2src : String := "&m \x7b C^ D \x7d"

/-- Source whose context block sets up the formatter's indentation state. -/
def c4src : String := "---\n&m:\n  clef: treble\n---\n&m \x7b C \x7d"

def c4once : String := "---\n&m:\n  :\n  clef: treble\n---\n  &m \x7b C \x7d\n"

def c4twice : String := "---\n&m:\n  ::\n  clef: treble\n---\n  &m \x7b C \x7d\n"

/-- An `fp` dynamic applied inline to two notes. -/
def c5fpSrc : String := "&m \x7b fp(C D) \x7d"

/-- A `p` dynamic applied inline to two notes. -/
def c5pSrc : String := "&m \x7b p(C D) \x7d"

/-- An eighth rest element. -/
def eighthRest : MusicElementNode :=
  .rest { duration := { base := .d8, dots := 0, loc := createLocation 0 0 0 0 },
          loc := createLocation 0 0 0 0 }

/-- The 6.5-beat measure of `overfullAst`. -/
def overfullMeasure : MeasureNode :=
  { elements := [dottedWholeC, eighthRest], barline := "single",
    attributes := none, loc := createLocation 1 1 0 0 }

/-- An AST whose only measure sums to 6.5 beats against a 4/4 signature. -/
def overfullAst : ScoreNode :=
  { metadata := { time := some { beats := 4, beatType := 4,
                                 loc := createLocation 0 0 0 0 } },
    staves := [{ name := "m", clef := "treble", measures := [overfullMeasure],
                 loc := createLocation 0 0 0 0 }],
    loc := createLocation 1 1 0 0 }

/-- An AST with one staff and no measures at all. -/
def c8ast : ScoreNode :=
  { metadata := {},
    staves := [{ name := "m", clef := "treble", measures := [],
                 loc := createLocation 0 0 0 0 }],
    loc := createLocation 1 1 0 0 }

/-! ## Claim theorems -/

/-- C2: the spec says a `^` directly after a note marks that note
`tied = true`; in fact `parseMusicElement` consumes the `TIE` token and
returns `null`, so the tie-attach branch of `parseStaveBodyContent` never
runs: parsing `&m \x7b C^ D \x7d` leaves both notes with `tied = false`. -/
theorem C2_tie_dropped :
    (parseScoreToAST c2src).ast.map (fun a =>
      a.staves.map (fun st => st.measures.map (fun m => m.elements.map elemTied)))
      = some [[[some false, some false]]] := by
  decide

/-- C4: `formatScore` is not idempotent.  A stave declaration inside a
context block leaves `indentLevel = 1` when the block closes, so the second
pass indents the stave body line and re-emits the stray `:` line with
another colon: formatting the formatted source changes it again. -/
theorem C4_not_idempotent :
    formatScore c4src = c4once ∧ formatScore c4once = c4twice ∧
      c4twice ≠ c4once := by
  refine ⟨by decide, by decide, by decide⟩

/-- C6: `splitIntoMeasures` receives the change attributes, but the push
taken when the accumulated beats reach the measure boundary carries no
`attributes` field, so a body of exactly four quarter notes at 4/4 drops
the key change entirely: its single measure has `attributes = none`. -/
theorem C6_attributes_dropped :
    (splitIntoMeasures (List.replicate 4 quarterC) 4 dummyToken
        (some c6attrs)).map (fun m => m.attributes) = [none] ∧
      (splitIntoMeasures (List.replicate 4 quarterC) 4 dummyToken
        (some c6attrs)).length = 1 := by
  refine ⟨by decide, by decide⟩

/-- C1 counterexample: a non-final measure can exceed the time signature's
beats.  Splitting a dotted whole note (6 beats) followed by a quarter at
4 beats per measure produces two measures whose sums are 6 and 1: the
first, which is not the last, exceeds 4. -/
theorem C1_counterexample :
    ((splitIntoMeasures [dottedWholeC, quarterC] 4 dummyToken none).map
        (fun m => elementsBeats m.elements) = [6, 1]) ∧
      (splitIntoMeasures [dottedWholeC, quarterC] 4 dummyToken none).length = 2 ∧
      (4 : ℚ) < 6 := by
  refine ⟨by decide, by decide, by norm_num⟩

lemma elementsBeats_nil : elementsBeats [] = 0 := rfl

lemma elementsBeats_append_one (l : List MusicElementNode) (e : MusicElementNode) :
    elementsBeats (l ++ [e]) =
      qadd (elementsBeats l) (getDurationBeats (elemDuration e)) := by
  simp [elementsBeats, List.foldl_append]

/-- Invariant of the measure-splitting loop: the closed measures flatten
back to the consumed input, and every closed measure either fits in the
measure (`≤ bpm` beats) or is a singleton. -/
lemma splitGo_spec (bpm : ℚ) (tok : Token) (attrs : Option MeasAttrs) :
    ∀ (rem : List MusicElementNode) (measures : List MeasureNode)
      (cur : List MusicElementNode) (curBeats : ℚ) (mst : Token),
      (∀ m ∈ measures, elementsBeats m.elements ≤ bpm ∨ m.elements.length = 1) →
      (cur = [] ∨ curBeats < bpm) →
      curBeats = elementsBeats cur →
      (((splitGo bpm tok attrs rem measures cur curBeats mst).map
          (fun m => m.elements)).flatten
        = (measures.map (fun m => m.elements)).flatten ++ cur ++ rem) ∧
      (∀ m ∈ splitGo bpm tok attrs rem measures cur curBeats mst,
        elementsBeats m.elements ≤ bpm ∨ m.elements.length = 1) := by
  intro rem
  induction rem with
  | nil =>
    intro measures cur curBeats mst hms hcur heq
    rw [splitGo]
    by_cases hemp : cur.isEmpty
    · have hc : cur = [] := by simpa [List.isEmpty_iff] using hemp
      subst hc
      simp only [hemp, if_true]
      exact ⟨by simp, hms⟩
    · have hc : cur ≠ [] := by simpa [List.isEmpty_iff] using hemp
      have hlt : elementsBeats cur < bpm := heq ▸ hcur.resolve_left hc
      simp only [hemp, Bool.false_eq_true, if_false]
      constructor
      · simp
      · intro m hm
        rcases List.mem_append.mp hm with h | h
        · exact hms m h
        · rcases List.mem_singleton.mp h with rfl
          exact Or.inl (le_of_lt hlt)
  | cons el rest ih =>
    intro measures cur curBeats mst hms hcur heq
    rw [splitGo]
    by_cases hov : bpm < qadd curBeats (getDurationBeats (elemDuration el)) ∧
        ¬cur.isEmpty
    · -- overflow push: `cur` is closed (it fits), `el` starts a new measure
      have hc : cur ≠ [] := by simpa [List.isEmpty_iff] using hov.2
      have hlt : elementsBeats cur < bpm := heq ▸ hcur.resolve_left hc
      simp only [if_pos hov]
      have hms1 : ∀ m ∈ measures ++
          [(⟨cur, "single", (if measures.isEmpty then attrs else none),
            createLocation mst.line mst.column mst.startPos
              (elemLoc el).startPos⟩ : MeasureNode)],
          elementsBeats m.elements ≤ bpm ∨ m.elements.length = 1 := by
        intro m hm
        rcases List.mem_append.mp hm with h | h
        · exact hms m h
        · rcases List.mem_singleton.mp h with rfl
          exact Or.inl (le_of_lt hlt)
      by_cases hb : bpm ≤ qadd 0 (getDurationBeats (elemDuration el))
      · -- boundary push of the singleton `[el]`
        simp only [if_pos hb]
        have hms2 : ∀ m ∈ (measures ++
            [(⟨cur, "single", (if measures.isEmpty then attrs else none),
              createLocation mst.line mst.column mst.startPos
                (elemLoc el).startPos⟩ : MeasureNode)]) ++
            [(⟨[] ++ [el], "single", none,
              createLocation ({ tok with startPos := (elemLoc el).startPos }).line
                ({ tok with startPos := (elemLoc el).startPos }).column
                ({ tok with startPos := (elemLoc el).startPos }).startPos
                (elemLoc el).endPos⟩ : MeasureNode)],
            elementsBeats m.elements ≤ bpm ∨ m.elements.length = 1 := by
          intro m hm
          rcases List.mem_append.mp hm with h | h
          · exact hms1 m h
          · rcases List.mem_singleton.mp h with rfl
            exact Or.inr rfl
        obtain ⟨h1, h2⟩ := ih _ [] 0 _ hms2 (Or.inl rfl) (by rfl)
        refine ⟨?_, h2⟩
        rw [h1]
        simp
      · -- `[el]` stays open
        simp only [if_neg hb]
        obtain ⟨h1, h2⟩ := ih _ ([] ++ [el]) (qadd 0 (getDurationBeats (elemDuration el))) _
          hms1 (Or.inr (lt_of_not_le hb)) (by rfl)
        refine ⟨?_, h2⟩
        rw [h1]
        simp
    · -- no overflow push
      simp only [if_neg hov]
      by_cases hb : bpm ≤ qadd curBeats (getDurationBeats (elemDuration el))
      · -- boundary push of `cur ++ [el]`
        simp only [if_pos hb]
        have hfits : elementsBeats (cur ++ [el]) ≤ bpm ∨ (cur ++ [el]).length = 1 := by
          by_cases hcnil : cur = []
          · subst hcnil
            exact Or.inr rfl
          · have hemp : ¬cur.isEmpty = true := by simpa [List.isEmpty_iff] using hcnil
            have hnov : ¬bpm < qadd curBeats (getDurationBeats (elemDuration el)) :=
              fun h => hov ⟨h, hemp⟩
            rw [elementsBeats_append_one, ← heq]
            exact Or.inl (not_lt.mp hnov)
        have hms1 : ∀ m ∈ measures ++
            [(⟨cur ++ [el], "single", none,
              createLocation mst.line mst.column mst.startPos
                (elemLoc el).endPos⟩ : MeasureNode)],
            elementsBeats m.elements ≤ bpm ∨ m.elements.length = 1 := by
          intro m hm
          rcases List.mem_append.mp hm with h | h
          · exact hms m h
          · rcases List.mem_singleton.mp h with rfl
            exact hfits
        obtain ⟨h1, h2⟩ := ih _ [] 0 _ hms1 (Or.inl rfl) (by rfl)
        refine ⟨?_, h2⟩
        rw [h1]
        simp
      · -- `cur ++ [el]` stays open
        simp only [if_neg hb]
        obtain ⟨h1, h2⟩ := ih measures (cur ++ [el])
          (qadd curBeats (getDurationBeats (elemDuration el))) mst hms
          (Or.inr (lt_of_not_le hb))
          (by rw [heq, ← elementsBeats_append_one])
        refine ⟨?_, h2⟩
        rw [h1]
        simp

/-- C1 (amended): `splitIntoMeasures` never splits an element across
measures — the measures flatten back to the input list in order — and
every measure (not only the non-final ones) either sums to at most
`beatsPerMeasure` or is a single element (whose own duration may exceed
the measure, as the counterexample shows). -/
theorem C1_amended (elements : List MusicElementNode) (bpm : ℚ)
    (tok : Token) (attrs : Option MeasAttrs) :
    (((splitIntoMeasures elements bpm tok attrs).map
        (fun m => m.elements)).flatten = elements) ∧
      ∀ m ∈ splitIntoMeasures elements bpm tok attrs,
        elementsBeats m.elements ≤ bpm ∨ m.elements.length = 1 := by
  unfold splitIntoMeasures
  by_cases hemp : elements.isEmpty
  · have hc : elements = [] := by simpa [List.isEmpty_iff] using hemp
    subst hc
    simp
  · simp only [hemp, Bool.false_eq_true, if_false]
    obtain ⟨h1, h2⟩ := splitGo_spec bpm tok attrs elements [] [] 0 tok (by simp)
      (Or.inl rfl) (by rfl)
    refine ⟨?_, h2⟩
    rw [h1]
    simp

/-- C3 counterexample: the validator does emit a beat-count diagnostic.  On
an AST whose only measure sums to 6.5 beats against a 4/4 signature,
`validateScore` returns exactly one diagnostic, a warning comparing the
measure's beats with the time signature. -/
theorem C3_counterexample :
    (validateScore overfullAst).diagnostics.map (fun d => (d.severity, d.message))
      = [("warning", "Measure has 6.5 beats, expected 4 (time: 4/4)")] := by
  decide

/-- C5 counterexample: `fp` is in the parser's `DYNAMICS` set, but the
lexer's `FUNCTIONS` set does not contain it, so `fp(C D)` never lexes as a
function call: both notes parse bare and no `annotation.dynamic` is set. -/
theorem C5_counterexample :
    DYNAMICS.contains "fp" = true ∧
      (parseScoreToAST c5fpSrc).ast.map (fun a =>
        a.staves.map (fun st => st.measures.map (fun m => m.elements.map elemDyn)))
        = some [[[none, none]]] := by
  refine ⟨by decide, by decide⟩

/-- Is this diagnostic the validator's beat-count message?  (All its other
messages start differently.) -/
def isBeatMsg (m : String) : Bool :=
  m.data.take 12 == "Measure has ".data

def isBeatDiag (d : Diagnostic) : Bool :=
  isBeatMsg d.message

/-- The beat-count warning `validateMeasure` emits for measure `m` against
time signature `t`. -/
def beatDiagOf (t : TimeSignatureNode) (m : MeasureNode) : Diagnostic :=
  { severity := "warning",
    message := "Measure has " ++ jsNumToString (elementsBeats m.elements) ++
      " beats, expected " ++ toString t.beats ++ " (time: " ++
      toString t.beats ++ "/" ++ toString t.beatType ++ ")",
    line := m.loc.line, column := m.loc.column }

lemma isBeatMsg_append (s r : String) (hp : 12 ≤ s.data.length) :
    isBeatMsg (s ++ r) = isBeatMsg s := by
  unfold isBeatMsg
  rw [String.data_append, List.take_append_of_le_length hp]

lemma isBeatMsg_pre (s r : String) (hlen : s.data.length ≤ 12)
    (hne : s.data ≠ "Measure has ".data.take s.data.length) :
    isBeatMsg (s ++ r) = false := by
  unfold isBeatMsg
  rw [beq_eq_false_iff_ne]
  intro h
  apply hne
  have h2 := congrArg (List.take s.data.length) h
  rw [List.take_take, Nat.min_eq_left hlen, String.data_append,
    List.take_append_of_le_length (le_refl _), List.take_length] at h2
  exact h2

lemma noBeat_octave (o : Int) :
    isBeatMsg ("Invalid octave " ++ toString o ++ ", must be 0-8") = false := by
  rw [String.append_assoc, isBeatMsg_append _ _ (by decide)]
  decide

lemma noBeat_spelling (sp enh : String) :
    isBeatMsg ("Unusual spelling \x27" ++ sp ++ "\x27 (enharmonic with " ++
      enh ++ ")") = false := by
  rw [String.append_assoc, String.append_assoc, String.append_assoc,
    isBeatMsg_append _ _ (by decide)]
  decide

lemma noBeat_dots (n : Nat) :
    isBeatMsg ("Duration has " ++ toString n ++ " dots, typically max 2") = false := by
  rw [String.append_assoc, isBeatMsg_append _ _ (by decide)]
  decide

lemma noBeat_fingering (f : Int) :
    isBeatMsg ("Invalid fingering " ++ toString f ++ ", must be 1-5") = false := by
  rw [String.append_assoc, isBeatMsg_append _ _ (by decide)]
  decide

lemma noBeat_stave (n : String) :
    isBeatMsg ("Stave \x27" ++ n ++ "\x27 used without declaration") = false := by
  rw [String.append_assoc, isBeatMsg_pre _ _ (by decide) (by decide)]

lemma isBeatMsg_beatMsg (x y z : String) :
    isBeatMsg ("Measure has " ++ x ++ " beats, expected " ++ y ++ " (time: " ++
      y ++ "/" ++ z ++ ")") = true := by
  repeat rw [String.append_assoc]
  rw [isBeatMsg_append _ _ (by decide)]
  decide

lemma noBeat_pitch (p : PitchNode) :
    ∀ d ∈ validatePitchDiags p, isBeatDiag d = false := by
  intro d hd
  unfold validatePitchDiags at hd
  dsimp only at hd
  rcases List.mem_append.mp hd with h | h
  · split at h
    · rcases List.mem_singleton.mp h with rfl
      exact noBeat_octave _
    · exact absurd h (List.not_mem_nil d)
  · split at h
    · rcases List.mem_singleton.mp h with rfl
      exact noBeat_spelling _ _
    · exact absurd h (List.not_mem_nil d)

lemma noBeat_duration (du : DurationNode) (line column : Nat) :
    ∀ d ∈ validateDurationDiags du line column, isBeatDiag d = false := by
  intro d hd
  unfold validateDurationDiags at hd
  dsimp only at hd
  split at hd
  · rcases List.mem_singleton.mp hd with rfl
    exact noBeat_dots _
  · exact absurd hd (List.not_mem_nil d)

lemma noBeat_note (n : NoteNode) :
    ∀ d ∈ validateNoteDiags n, isBeatDiag d = false := by
  intro d hd
  unfold validateNoteDiags at hd
  rcases List.mem_append.mp hd with h | h
  · rcases List.mem_append.mp h with h2 | h2
    · exact noBeat_pitch _ d h2
    · exact noBeat_duration _ _ _ d h2
  · repeat' split at h
    all_goals first
      | (rcases List.mem_singleton.mp h with rfl; exact noBeat_fingering _)
      | exact absurd h (List.not_mem_nil d)

lemma noBeat_chord (c : ChordNode) :
    ∀ d ∈ validateChordDiags c, isBeatDiag d = false := by
  intro d hd
  unfold validateChordDiags at hd
  rcases List.mem_append.mp hd with h | h
  · rcases List.mem_append.mp h with h2 | h2
    · split at h2
      · rcases List.mem_singleton.mp h2 with rfl
        show isBeatMsg "Empty chord" = false
        decide
      · exact absurd h2 (List.not_mem_nil d)
    · rcases List.mem_flatMap.mp h2 with ⟨p, _, hp⟩
      exact noBeat_pitch p d hp
  · exact noBeat_duration _ _ _ d h

lemma filter_flatMap_eq {α β : Type} (l : List α) (f : α → List β) (p : β → Bool) :
    (l.flatMap f).filter p = l.flatMap (fun a => (f a).filter p) := by
  induction l with
  | nil => rfl
  | cons a rest ih => simp [List.flatMap_cons, List.filter_append, ih]

/-- The beat-relevant content of one measure's diagnostics. -/
lemma filter_measure (score : ScoreNode) (m : MeasureNode) :
    (validateMeasureDiags score m).filter isBeatDiag =
      (match score.metadata.time with
       | none => []
       | some t =>
         if elementsBeats m.elements > (t.beats : ℚ) then [beatDiagOf t m]
         else []) := by
  unfold validateMeasureDiags
  rw [List.filter_append]
  have h2 : (m.elements.flatMap (fun el =>
      match el with
      | .note n => validateNoteDiags n
      | .chord c => validateChordDiags c
      | _ => [])).filter isBeatDiag = [] := by
    rw [List.filter_eq_nil_iff]
    intro d hd
    rcases List.mem_flatMap.mp hd with ⟨el, _, hel⟩
    rcases el with n | r | c
    · simp [noBeat_note n d hel]
    · exact absurd hel (List.not_mem_nil d)
    · simp [noBeat_chord c d hel]
  rw [h2, List.append_nil]
  rcases htime : score.metadata.time with _ | t
  · rfl
  · dsimp only
    split
    · show List.filter isBeatDiag [beatDiagOf t m] = [beatDiagOf t m]
      have hb : isBeatDiag (beatDiagOf t m) = true := isBeatMsg_beatMsg _ _ _
      simp [List.filter_cons, hb]
    · rfl

/-- The beat diagnostics of a whole validation run, in traversal order. -/
lemma filter_validateScore (ast : ScoreNode) :
    (validateScore ast).diagnostics.filter isBeatDiag =
      ast.staves.flatMap (fun s => s.measures.flatMap (fun m =>
        match ast.metadata.time with
        | none => []
        | some t =>
          if elementsBeats m.elements > (t.beats : ℚ) then [beatDiagOf t m]
          else [])) := by
  have hstaff : ∀ declared staff,
      (validateStaffDiags ast declared staff).filter isBeatDiag =
        staff.measures.flatMap (fun m =>
          match ast.metadata.time with
          | none => []
          | some t =>
            if elementsBeats m.elements > (t.beats : ℚ) then [beatDiagOf t m]
            else []) := by
    intro declared staff
    unfold validateStaffDiags
    rw [List.filter_append]
    have h1 : ((if !declared.isEmpty && !declared.contains staff.name then
        [({ severity := "warning",
            message := "Stave \x27" ++ staff.name ++ "\x27 used without declaration",
            line := staff.loc.line, column := staff.loc.column } : Diagnostic)]
      else []).filter isBeatDiag) = [] := by
      rw [List.filter_eq_nil_iff]
      intro d hd
      split at hd
      · rcases List.mem_singleton.mp hd with rfl
        simp [isBeatDiag, noBeat_stave]
      · exact absurd hd (List.not_mem_nil d)
    rw [h1, List.nil_append, filter_flatMap_eq]
    simp only [filter_measure]
  unfold validateScore
  dsimp only
  rw [filter_flatMap_eq]
  simp only [hstaff]

/-- C3 (amended): the validator does compare each measure's summed beats
against the global time signature — it emits exactly one beat-count
diagnostic per overfull measure, in traversal order, and each such
diagnostic is a warning (so it never affects validity). -/
theorem C3_amended (ast : ScoreNode) :
    ((validateScore ast).diagnostics.filter isBeatDiag =
      ast.staves.flatMap (fun s => s.measures.flatMap (fun m =>
        match ast.metadata.time with
        | none => []
        | some t =>
          if elementsBeats m.elements > (t.beats : ℚ) then [beatDiagOf t m]
          else []))) ∧
    ∀ d ∈ (validateScore ast).diagnostics, isBeatDiag d = true →
      d.severity = "warning" := by
  refine ⟨filter_validateScore ast, ?_⟩
  intro d hd hbeat
  have hmem := List.mem_filter.mpr ⟨hd, hbeat⟩
  rw [filter_validateScore ast] at hmem
  rcases List.mem_flatMap.mp hmem with ⟨s, _, hs⟩
  rcases List.mem_flatMap.mp hs with ⟨m, _, hm⟩
  rcases htime : ast.metadata.time with _ | t
  · rw [htime] at hm
    exact absurd hm (List.not_mem_nil d)
  · rw [htime] at hm
    dsimp only at hm
    split at hm
    · rcases List.mem_singleton.mp hm with rfl
      rfl
    · exact absurd hm (List.not_mem_nil d)

/-- C5 (amended): when a dynamics function call does reach the parser (the
lexer tokenizes the eight names of its `FUNCTIONS` set, which excludes
`fp` and `sfz`), the captured first note gets `annotation.dynamic` set to
the function name and the other captured notes are unchanged; `p(C D)`
end-to-end sets `p` on the first note only. -/
theorem C5_amended :
    (∀ (fnName : String) (notes : List NoteNode),
      DYNAMICS.contains fnName = true →
      (applyInlineFunction fnName notes).map (fun n => n.annot.bind (·.dynamic)) =
        match notes with
        | [] => []
        | _ :: rest => some fnName :: rest.map (fun n => n.annot.bind (·.dynamic))) ∧
    ((parseScoreToAST c5pSrc).ast.map (fun a =>
        a.staves.map (fun st => st.measures.map (fun m => m.elements.map elemDyn)))
      = some [[[some "p", none]]]) := by
  constructor
  · intro fnName notes h
    have h' : fnName ∈ DYNAMICS := by simpa using h
    cases notes with
    | nil => simp [applyInlineFunction, h', updHead]
    | cons n rest => simp [applyInlineFunction, h', updHead, setDynamic]
  · decide

/-- C8 counterexample: on a staff with no measures the maximum measure
count over the staves is 0, yet the emitted part contains one `<measure>`
element (the `Math.max(1, ...)` floor), padded with a whole rest. -/
theorem C8_counterexample :
    ((c8ast.staves.map (fun s => s.measures.length)).foldr max 0 = 0) ∧
      ((transpileLines c8ast).countP
        (fun l => l.data.take 13 == "    <measure ".data)) = 1 := by
  refine ⟨by decide, by decide⟩

/-- Is this output line a `<beam number="1">…` line?  (Every other line the
transpiler emits differs from it within its constant prefix.) -/
def isBeamLine (l : String) : Bool :=
  l.data.take 10 == "        <b".data

/-- The automaton of the claimed beam-tag discipline: `begin`, zero or more
`continue`, `end` — with no dangling opener at the end. -/
def beamSeqOK : Bool → List String → Bool
  | st, [] => !st
  | st, "begin" :: rest => if st then false else beamSeqOK true rest
  | st, "continue" :: rest => if st then beamSeqOK true rest else false
  | st, "end" :: rest => if st then beamSeqOK false rest else false
  | _, _ :: _ => false

/-- The tag for a beamed note whose neighbors' beamed-note statuses are `p`
and `q`. -/
def beamHeadTag (p q : Bool) : Option String :=
  if !p && q then some "begin"
  else if p && q then some "continue"
  else if p && !q then some "end"
  else none

/-- The beam states of a measure's elements, computed left to right with the
previous element carried along (the recursive counterpart of
`beamStateAtP`). -/
def beamRun (prev : Option MusicElementNode) : List MusicElementNode → List String
  | [] => []
  | el :: rest =>
    (if isBeamedNote (some el) then
      (beamHeadTag (isBeamedNote prev) (isBeamedNote rest[0]?)).toList
     else []) ++ beamRun (some el) rest

lemma isBeamLine_append (s r : String) (hp : 10 ≤ s.data.length) :
    isBeamLine (s ++ r) = isBeamLine s := by
  unfold isBeamLine
  rw [String.data_append, List.take_append_of_le_length hp]

/-- The uniform shape of a non-beam transpiler line: a closed prefix of at
least ten characters that is not `\x22        <b\x22`, then anything. -/
lemma noBeam_two (A x C : String) (h10 : 10 ≤ A.data.length)
    (hA : isBeamLine A = false) : isBeamLine (A ++ x ++ C) = false := by
  rw [String.append_assoc, isBeamLine_append _ _ h10]
  exact hA

lemma isBeamLine_beam (b : String) :
    isBeamLine (ind 4 ++ "<beam number=\"1\">" ++ b ++ "</beam>") = true := by
  rw [String.append_assoc, isBeamLine_append _ _ (by decide)]
  decide

lemma filter_replicate_none {α : Type} (p : α → Bool) (n : Nat) (a : α)
    (h : p a = false) : (List.replicate n a).filter p = [] := by
  induction n with
  | zero => rfl
  | succ k ih => simp [List.replicate_succ, List.filter_cons, h, ih]

/-- Per-note beam lines: exactly the passed beam state, rendered. -/
lemma filter_beam_note (n : NoteNode) (mem : Bool) (bs : Option String) :
    (transpileNote n mem bs).filter isBeamLine =
      match bs with
      | some b => [ind 4 ++ "<beam number=\"1\">" ++ b ++ "</beam>"]
      | none => [] := by
  have d1 : isBeamLine (ind 3 ++ "<note>") = false := by decide
  have d2 : isBeamLine (ind 4 ++ "<grace/>") = false := by decide
  have d3 : isBeamLine (ind 4 ++ "<chord/>") = false := by decide
  have d4 : isBeamLine (ind 4 ++ "<pitch>") = false := by decide
  have d5 : ∀ x, isBeamLine (ind 5 ++ "<step>" ++ x ++ "</step>") = false :=
    fun x => noBeam_two _ x _ (by decide) (by decide)
  have d6 : ∀ x, isBeamLine (ind 5 ++ "<alter>" ++ x ++ "</alter>") = false :=
    fun x => noBeam_two _ x _ (by decide) (by decide)
  have d7 : ∀ x, isBeamLine (ind 5 ++ "<octave>" ++ x ++ "</octave>") = false :=
    fun x => noBeam_two _ x _ (by decide) (by decide)
  have d8 : isBeamLine (ind 4 ++ "</pitch>") = false := by decide
  have d9 : ∀ x, isBeamLine (ind 4 ++ "<duration>" ++ x ++ "</duration>") = false :=
    fun x => noBeam_two _ x _ (by decide) (by decide)
  have d10 : isBeamLine (ind 4 ++ "<tie type=\"start\"/>") = false := by decide
  have d11 : ∀ x, isBeamLine (ind 4 ++ "<type>" ++ x ++ "</type>") = false :=
    fun x => noBeam_two _ x _ (by decide) (by decide)
  have d12 : isBeamLine (ind 4 ++ "<dot/>") = false := by decide
  have d13 : ∀ x, isBeamLine (ind 4 ++ "<accidental>" ++ x ++ "</accidental>") = false :=
    fun x => noBeam_two _ x _ (by decide) (by decide)
  have d14 : isBeamLine (ind 4 ++ "<notations>") = false := by decide
  have d15 : isBeamLine (ind 5 ++ "<tied type=\"start\"/>") = false := by decide
  have d16 : isBeamLine (ind 5 ++ "<slur type=\"start\" number=\"1\"/>") = false := by
    decide
  have d17 : isBeamLine (ind 5 ++ "<slur type=\"stop\" number=\"1\"/>") = false := by
    decide
  have d18 : isBeamLine (ind 5 ++ "<articulations>") = false := by decide
  have d19 : ∀ x, isBeamLine (ind 6 ++ "<" ++ x ++ "/>") = false :=
    fun x => noBeam_two _ x _ (by decide) (by decide)
  have d20 : isBeamLine (ind 5 ++ "</articulations>") = false := by decide
  have d21 : isBeamLine (ind 5 ++ "<ornaments>") = false := by decide
  have d22 : isBeamLine (ind 6 ++ "<trill-mark/>") = false := by decide
  have d23 : isBeamLine (ind 5 ++ "</ornaments>") = false := by decide
  have d24 : isBeamLine (ind 5 ++ "<technical>") = false := by decide
  have d25 : ∀ x, isBeamLine (ind 6 ++ "<fingering>" ++ x ++ "</fingering>") = false :=
    fun x => noBeam_two _ x _ (by decide) (by decide)
  have d26 : isBeamLine (ind 5 ++ "</technical>") = false := by decide
  have d27 : isBeamLine (ind 4 ++ "</notations>") = false := by decide
  have d28 : isBeamLine (ind 3 ++ "</note>") = false := by decide
  have dart : ((((n.annot.bind (fun a => a.articulations)).getD []).filter
        (fun x => x != "trill")).filterMap (fun art =>
        (articulationToXml art).map (fun x => ind 6 ++ "<" ++ x ++ "/>"))).filter
        isBeamLine = [] := by
    rw [List.filter_eq_nil_iff]
    intro l hl
    rcases List.mem_filterMap.mp hl with ⟨art, _, hx⟩
    rcases Option.map_eq_some'.mp hx with ⟨x, _, rfl⟩
    simp [d19 x]
  unfold transpileNote
  dsimp only
  simp only [List.filter_append, List.filter_cons, List.filter_nil,
    d1, d2, d3, d4, d5, d6, d7, d8, d9, d10, d11, d12, d13, d14, d15, d16, d17,
    d18, d20, d21, d22, d23, d24, d25, d26, d27, d28, dart,
    filter_replicate_none _ _ _ d12, Bool.false_eq_true, if_false,
    apply_ite (List.filter isBeamLine), ite_self, List.append_nil, List.nil_append]
  rcases bs with _ | b
  · simp
  · simp [List.filter_cons, isBeamLine_beam b]

lemma filter_beam_rest (r : RestNode) :
    (transpileRest r).filter isBeamLine = [] := by
  have d1 : isBeamLine (ind 3 ++ "<note>") = false := by decide
  have d2 : isBeamLine (ind 4 ++ "<rest/>") = false := by decide
  have d3 : ∀ x, isBeamLine (ind 4 ++ "<duration>" ++ x ++ "</duration>") = false :=
    fun x => noBeam_two _ x _ (by decide) (by decide)
  have d4 : ∀ x, isBeamLine (ind 4 ++ "<type>" ++ x ++ "</type>") = false :=
    fun x => noBeam_two _ x _ (by decide) (by decide)
  have d5 : isBeamLine (ind 4 ++ "<dot/>") = false := by decide
  have d6 : isBeamLine (ind 3 ++ "</note>") = false := by decide
  unfold transpileRest
  simp only [List.filter_append, List.filter_cons, List.filter_nil,
    d1, d2, d3, d4, d5, d6, Bool.false_eq_true, if_false,
    filter_replicate_none _ _ _ d5, List.append_nil, List.nil_append]

lemma filter_beam_chord (c : ChordNode) :
    (transpileChord c).filter isBeamLine = [] := by
  unfold transpileChord
  rcases c.pitches with _ | ⟨p0, prest⟩
  · rfl
  · rw [List.filter_append, filter_beam_note, filter_flatMap_eq]
    simp only [filter_beam_note]
    simp

lemma filter_beam_element (el : MusicElementNode) (bs : Option String) :
    (transpileElement el bs).filter isBeamLine =
      match el, bs with
      | .note _, some b => [ind 4 ++ "<beam number=\"1\">" ++ b ++ "</beam>"]
      | _, _ => [] := by
  have dd : ∀ x, isBeamLine (ind 6 ++ "<" ++ x ++ "/>") = false :=
    fun x => noBeam_two _ x _ (by decide) (by decide)
  have e1 : isBeamLine (ind 3 ++ "<direction placement=\"below\">") = false := by decide
  have e2 : isBeamLine (ind 4 ++ "<direction-type>") = false := by decide
  have e3 : isBeamLine (ind 5 ++ "<dynamics default-y=\"-80\">") = false := by decide
  have e4 : isBeamLine (ind 5 ++ "</dynamics>") = false := by decide
  have e5 : isBeamLine (ind 4 ++ "</direction-type>") = false := by decide
  have e6 : isBeamLine (ind 3 ++ "</direction>") = false := by decide
  have e7 : isBeamLine (ind 5 ++ "<wedge type=\"crescendo\"/>") = false := by decide
  have e8 : isBeamLine (ind 5 ++ "<wedge type=\"stop\"/>") = false := by decide
  have e9 : isBeamLine (ind 5 ++ "<wedge type=\"diminuendo\"/>") = false := by decide
  have e10 : isBeamLine (ind 3 ++ "<direction>") = false := by decide
  unfold transpileElement
  rcases el with n | r | c
  · dsimp only
    rw [List.filter_append, List.filter_append]
    have hdyn : ((match n.annot.bind (fun x => x.dynamic) with
        | some d =>
          if d != "" then
            [ind 3 ++ "<direction placement=\"below\">",
             ind 4 ++ "<direction-type>",
             ind 5 ++ "<dynamics default-y=\"-80\">",
             ind 6 ++ "<" ++ d ++ "/>",
             ind 5 ++ "</dynamics>",
             ind 4 ++ "</direction-type>",
             ind 3 ++ "</direction>"]
          else []
        | none => []).filter isBeamLine) = [] := by
      rcases n.annot.bind (fun x => x.dynamic) with _ | d
      · rfl
      · dsimp only
        split
        · simp [List.filter_cons, e1, e2, e3, e4, e5, e6, dd]
        · rfl
    have hann : ((match n.annot with
        | some a =>
          (if a.crescendo = some "start" then
            [ind 3 ++ "<direction placement=\"below\">", ind 4 ++ "<direction-type>",
             ind 5 ++ "<wedge type=\"crescendo\"/>", ind 4 ++ "</direction-type>",
             ind 3 ++ "</direction>"]
          else if a.crescendo = some "end" then
            [ind 3 ++ "<direction>", ind 4 ++ "<direction-type>",
             ind 5 ++ "<wedge type=\"stop\"/>", ind 4 ++ "</direction-type>",
             ind 3 ++ "</direction>"]
          else []) ++
          (if a.decrescendo = some "start" then
            [ind 3 ++ "<direction placement=\"below\">", ind 4 ++ "<direction-type>",
             ind 5 ++ "<wedge type=\"diminuendo\"/>", ind 4 ++ "</direction-type>",
             ind 3 ++ "</direction>"]
          else if a.decrescendo = some "end" then
            [ind 3 ++ "<direction>", ind 4 ++ "<direction-type>",
             ind 5 ++ "<wedge type=\"stop\"/>", ind 4 ++ "</direction-type>",
             ind 3 ++ "</direction>"]
          else [])
        | none => []).filter isBeamLine) = [] := by
      rcases n.annot with _ | a
      · rfl
      · dsimp only
        rw [List.filter_append]
        repeat' split
        all_goals simp [List.filter_cons, e1, e2, e5, e6, e7, e8, e9, e10]
    rw [hdyn, hann, filter_beam_note]
    rcases bs with _ | b <;> rfl
  · rw [List.filter_append, filter_beam_rest]
    rfl
  · rw [List.filter_append, filter_beam_chord]
    rfl

lemma beamStateAtP_shift (prev : Option MusicElementNode) (x : MusicElementNode)
    (rest : List MusicElementNode) (i : Nat) :
    beamStateAtP prev (x :: rest) (i + 1) = beamStateAtP (some x) rest i := by
  unfold beamStateAtP
  cases i with
  | zero => simp
  | succ j => simp

lemma flatMap_opt_map {α β γ : Type} (l : List α) (f : α → Option β) (g : β → γ) :
    l.flatMap (fun a => match f a with | some b => [g b] | none => []) =
      (l.filterMap f).map g := by
  induction l with
  | nil => rfl
  | cons a rest ih =>
    rcases h : f a with _ | b <;>
      simp [List.flatMap_cons, List.filterMap_cons, h, ih]

lemma flatMap_toList_map {α β γ : Type} (l : List α) (f : α → Option β)
    (g : β → γ) :
    l.flatMap (fun a => ((f a).map g).toList) = (l.filterMap f).map g := by
  induction l with
  | nil => rfl
  | cons a rest ih =>
    rcases h : f a with _ | b <;>
      simp [List.flatMap_cons, List.filterMap_cons, h, ih]

/-- The indexed beam states coincide with the left-to-right recursion. -/
lemma beamStates_bridge : ∀ (els : List MusicElementNode)
    (prev : Option MusicElementNode),
    (List.range els.length).filterMap (beamStateAtP prev els) = beamRun prev els := by
  intro els
  induction els with
  | nil => intro prev; rfl
  | cons x rest ih =>
    intro prev
    rw [List.length_cons, List.range_succ_eq_map, List.filterMap_cons,
      List.filterMap_map]
    have hshift : (beamStateAtP prev (x :: rest)) ∘ Nat.succ =
        beamStateAtP (some x) rest := by
      funext i
      exact beamStateAtP_shift prev x rest i
    rw [hshift, ih, beamRun]
    have hhead : beamStateAtP prev (x :: rest) 0 =
        if isBeamedNote (some x) then
          beamHeadTag (isBeamedNote prev) (isBeamedNote rest[0]?)
        else none := by
      rcases x with n | r | c
      · by_cases hb : n.beamed.getD false <;>
          simp [beamStateAtP, isBeamedNote, beamHeadTag, hb]
      · simp [beamStateAtP, isBeamedNote]
      · simp [beamStateAtP, isBeamedNote]
    rw [hhead]
    by_cases hbx : isBeamedNote (some x)
    · rw [if_pos hbx, if_pos hbx]
      rcases beamHeadTag (isBeamedNote prev) (isBeamedNote rest[0]?) with _ | b <;> rfl
    · rw [if_neg hbx, if_neg hbx]
      rfl

/-- The beam-state stream satisfies the `begin (continue)* end` discipline,
tracked by whether the previous and current elements are beamed notes. -/
lemma beamRun_ok : ∀ (els : List MusicElementNode)
    (prev : Option MusicElementNode),
    beamSeqOK (isBeamedNote prev && isBeamedNote els[0]?) (beamRun prev els)
      = true := by
  intro els
  induction els with
  | nil =>
    intro prev
    simp [beamRun, beamSeqOK, isBeamedNote]
  | cons x rest ih =>
    intro prev
    rw [beamRun, show (x :: rest)[0]? = some x from by simp]
    specialize ih (some x)
    by_cases hbx : isBeamedNote (some x) = true
    · rw [hbx] at ih
      rw [if_pos hbx, hbx]
      cases hp : isBeamedNote prev <;> cases hq : isBeamedNote rest[0]? <;>
        simp only [hq] at ih <;> simp [beamHeadTag, beamSeqOK] <;>
        simpa using ih
    · have hbx2 : isBeamedNote (some x) = false := by simpa using hbx
      rw [hbx2] at ih
      rw [if_neg hbx, hbx2]
      simpa using ih


/-- Is this output line the `<score-partwise …>` root-open line?  (It is the
only emitted line beginning with `<s`.) -/
def isRootOpen (l : String) : Bool :=
  decide (l.data.take 2 = "<s".data)

/-- Is this output line a `<part id="…">` open line? -/
def isPartOpen (l : String) : Bool :=
  decide (l.data.take 12 = "  <part id=\"".data)

/-- Is this output line a `<measure …>` open line?  (It is the only emitted
line whose first six characters are four spaces and `<m`.) -/
def isMeasureOpen (l : String) : Bool :=
  decide (l.data.take 6 = "    <m".data)

lemma isRootOpen_sp (s : String) : isRootOpen ("  " ++ s) = false := rfl

lemma isPartOpen_sp (s : String) : isPartOpen ("    " ++ s) = false := rfl

lemma isMeasureOpen_sp (s : String) : isMeasureOpen ("      " ++ s) = false := rfl

lemma pref_line (p : String → Bool) (pre : String)
    (hdeep : ∀ s, p (pre ++ s) = false) (A B : String) (h : A = pre ++ B) :
    p A = false := h ▸ hdeep B

lemma pref_line2 (p : String → Bool) (pre : String)
    (hdeep : ∀ s, p (pre ++ s) = false) (A B : String) (hAB : A = pre ++ B)
    (x C : String) : p (A ++ x ++ C) = false := by
  subst hAB
  simp only [String.append_assoc]
  exact hdeep _

lemma isRootOpen_sp6 (s : String) : isRootOpen ("      " ++ s) = false := by
  rw [show ("      " : String) = "  " ++ "    " from by decide,
    String.append_assoc]
  exact isRootOpen_sp _

lemma isPartOpen_sp6 (s : String) : isPartOpen ("      " ++ s) = false := by
  rw [show ("      " : String) = "    " ++ "  " from by decide,
    String.append_assoc]
  exact isPartOpen_sp _

lemma isMeasureOpen_append (s r : String) (h : 6 ≤ s.data.length) :
    isMeasureOpen (s ++ r) = isMeasureOpen s := by
  unfold isMeasureOpen
  rw [show (s ++ r).data = s.data ++ r.data from rfl,
    List.take_append_of_le_length h]
lemma isPartOpen_append (s r : String) (h : 12 ≤ s.data.length) :
    isPartOpen (s ++ r) = isPartOpen s := by
  unfold isPartOpen
  rw [show (s ++ r).data = s.data ++ r.data from rfl,
    List.take_append_of_le_length h]

/-- Every line of `transpileNote` starts with at least six spaces
(indentation level three or deeper), so a predicate that rejects such lines
keeps none of them. -/
lemma filter_deep_note (p : String → Bool)
    (hdeep : ∀ s, p ("      " ++ s) = false)
    (n : NoteNode) (mem : Bool) (bs : Option String) :
    (transpileNote n mem bs).filter p = [] := by
  have d1 : p (ind 3 ++ "<note>") = false :=
    pref_line p _ hdeep _ "<note>" (by decide)
  have d2 : p (ind 4 ++ "<grace/>") = false :=
    pref_line p _ hdeep _ "  <grace/>" (by decide)
  have d3 : p (ind 4 ++ "<chord/>") = false :=
    pref_line p _ hdeep _ "  <chord/>" (by decide)
  have d4 : p (ind 4 ++ "<pitch>") = false :=
    pref_line p _ hdeep _ "  <pitch>" (by decide)
  have d5 : ∀ x, p (ind 5 ++ "<step>" ++ x ++ "</step>") = false :=
    fun x => pref_line2 p _ hdeep _ "    <step>" (by decide) x "</step>"
  have d6 : ∀ x, p (ind 5 ++ "<alter>" ++ x ++ "</alter>") = false :=
    fun x => pref_line2 p _ hdeep _ "    <alter>" (by decide) x "</alter>"
  have d7 : ∀ x, p (ind 5 ++ "<octave>" ++ x ++ "</octave>") = false :=
    fun x => pref_line2 p _ hdeep _ "    <octave>" (by decide) x "</octave>"
  have d8 : p (ind 4 ++ "</pitch>") = false :=
    pref_line p _ hdeep _ "  </pitch>" (by decide)
  have d9 : ∀ x, p (ind 4 ++ "<duration>" ++ x ++ "</duration>") = false :=
    fun x => pref_line2 p _ hdeep _ "  <duration>" (by decide) x "</duration>"
  have d10 : p (ind 4 ++ "<tie type=\"start\"/>") = false :=
    pref_line p _ hdeep _ "  <tie type=\"start\"/>" (by decide)
  have d11 : ∀ x, p (ind 4 ++ "<type>" ++ x ++ "</type>") = false :=
    fun x => pref_line2 p _ hdeep _ "  <type>" (by decide) x "</type>"
  have d12 : p (ind 4 ++ "<dot/>") = false :=
    pref_line p _ hdeep _ "  <dot/>" (by decide)
  have d13 : ∀ x, p (ind 4 ++ "<accidental>" ++ x ++ "</accidental>") = false :=
    fun x => pref_line2 p _ hdeep _ "  <accidental>" (by decide) x "</accidental>"
  have d14 : p (ind 4 ++ "<notations>") = false :=
    pref_line p _ hdeep _ "  <notations>" (by decide)
  have d15 : p (ind 5 ++ "<tied type=\"start\"/>") = false :=
    pref_line p _ hdeep _ "    <tied type=\"start\"/>" (by decide)
  have d16 : p (ind 5 ++ "<slur type=\"start\" number=\"1\"/>") = false :=
    pref_line p _ hdeep _ "    <slur type=\"start\" number=\"1\"/>" (by decide)
  have d17 : p (ind 5 ++ "<slur type=\"stop\" number=\"1\"/>") = false :=
    pref_line p _ hdeep _ "    <slur type=\"stop\" number=\"1\"/>" (by decide)
  have d18 : p (ind 5 ++ "<articulations>") = false :=
    pref_line p _ hdeep _ "    <articulations>" (by decide)
  have d19 : ∀ x, p (ind 6 ++ "<" ++ x ++ "/>") = false :=
    fun x => pref_line2 p _ hdeep _ "      <" (by decide) x "/>"
  have d20 : p (ind 5 ++ "</articulations>") = false :=
    pref_line p _ hdeep _ "    </articulations>" (by decide)
  have d21 : p (ind 5 ++ "<ornaments>") = false :=
    pref_line p _ hdeep _ "    <ornaments>" (by decide)
  have d22 : p (ind 6 ++ "<trill-mark/>") = false :=
    pref_line p _ hdeep _ "      <trill-mark/>" (by decide)
  have d23 : p (ind 5 ++ "</ornaments>") = false :=
    pref_line p _ hdeep _ "    </ornaments>" (by decide)
  have d24 : p (ind 5 ++ "<technical>") = false :=
    pref_line p _ hdeep _ "    <technical>" (by decide)
  have d25 : ∀ x, p (ind 6 ++ "<fingering>" ++ x ++ "</fingering>") = false :=
    fun x => pref_line2 p _ hdeep _ "      <fingering>" (by decide) x "</fingering>"
  have d26 : p (ind 5 ++ "</technical>") = false :=
    pref_line p _ hdeep _ "    </technical>" (by decide)
  have d27 : p (ind 4 ++ "</notations>") = false :=
    pref_line p _ hdeep _ "  </notations>" (by decide)
  have d28 : p (ind 3 ++ "</note>") = false :=
    pref_line p _ hdeep _ "</note>" (by decide)
  have dbeam : ∀ x, p (ind 4 ++ "<beam number=\"1\">" ++ x ++ "</beam>") = false :=
    fun x => pref_line2 p _ hdeep _ "  <beam number=\"1\">" (by decide) x "</beam>"
  have dart : ((((n.annot.bind (fun a => a.articulations)).getD []).filter
        (fun x => x != "trill")).filterMap (fun art =>
        (articulationToXml art).map (fun x => ind 6 ++ "<" ++ x ++ "/>"))).filter
        p = [] := by
    rw [List.filter_eq_nil_iff]
    intro l hl
    rcases List.mem_filterMap.mp hl with ⟨art, _, hx⟩
    rcases Option.map_eq_some'.mp hx with ⟨x, _, rfl⟩
    simp [d19 x]
  unfold transpileNote
  dsimp only
  simp only [List.filter_append, List.filter_cons, List.filter_nil,
    d1, d2, d3, d4, d5, d6, d7, d8, d9, d10, d11, d12, d13, d14, d15, d16, d17,
    d18, d20, d21, d22, d23, d24, d25, d26, d27, d28, dart,
    filter_replicate_none _ _ _ d12, Bool.false_eq_true, if_false,
    apply_ite (List.filter p), ite_self, List.append_nil, List.nil_append]
  rcases bs with _ | b
  · simp
  · simp [List.filter_cons, dbeam b]

/-- Every line of `transpileRest` is indented at least six spaces. -/
lemma filter_deep_rest (p : String → Bool)
    (hdeep : ∀ s, p ("      " ++ s) = false) (r : RestNode) :
    (transpileRest r).filter p = [] := by
  have d1 : p (ind 3 ++ "<note>") = false :=
    pref_line p _ hdeep _ "<note>" (by decide)
  have d2 : p (ind 4 ++ "<rest/>") = false :=
    pref_line p _ hdeep _ "  <rest/>" (by decide)
  have d3 : ∀ x, p (ind 4 ++ "<duration>" ++ x ++ "</duration>") = false :=
    fun x => pref_line2 p _ hdeep _ "  <duration>" (by decide) x "</duration>"
  have d4 : ∀ x, p (ind 4 ++ "<type>" ++ x ++ "</type>") = false :=
    fun x => pref_line2 p _ hdeep _ "  <type>" (by decide) x "</type>"
  have d5 : p (ind 4 ++ "<dot/>") = false :=
    pref_line p _ hdeep _ "  <dot/>" (by decide)
  have d6 : p (ind 3 ++ "</note>") = false :=
    pref_line p _ hdeep _ "</note>" (by decide)
  unfold transpileRest
  simp only [List.filter_append, List.filter_cons, List.filter_nil,
    d1, d2, d3, d4, d5, d6, Bool.false_eq_true, if_false,
    filter_replicate_none _ _ _ d5, List.append_nil, List.nil_append]

/-- Every line of `transpileChord` is indented at least six spaces. -/
lemma filter_deep_chord (p : String → Bool)
    (hdeep : ∀ s, p ("      " ++ s) = false) (c : ChordNode) :
    (transpileChord c).filter p = [] := by
  unfold transpileChord
  rcases c.pitches with _ | ⟨p0, prest⟩
  · rfl
  · rw [List.filter_append, filter_deep_note p hdeep, filter_flatMap_eq]
    simp only [filter_deep_note p hdeep]
    simp

/-- Every line of `transpileElement` is indented at least six spaces. -/
lemma filter_deep_element (p : String → Bool)
    (hdeep : ∀ s, p ("      " ++ s) = false)
    (el : MusicElementNode) (bs : Option String) :
    (transpileElement el bs).filter p = [] := by
  have dd : ∀ x, p (ind 6 ++ "<" ++ x ++ "/>") = false :=
    fun x => pref_line2 p _ hdeep _ "      <" (by decide) x "/>"
  have e1 : p (ind 3 ++ "<direction placement=\"below\">") = false :=
    pref_line p _ hdeep _ "<direction placement=\"below\">" (by decide)
  have e2 : p (ind 4 ++ "<direction-type>") = false :=
    pref_line p _ hdeep _ "  <direction-type>" (by decide)
  have e3 : p (ind 5 ++ "<dynamics default-y=\"-80\">") = false :=
    pref_line p _ hdeep _ "    <dynamics default-y=\"-80\">" (by decide)
  have e4 : p (ind 5 ++ "</dynamics>") = false :=
    pref_line p _ hdeep _ "    </dynamics>" (by decide)
  have e5 : p (ind 4 ++ "</direction-type>") = false :=
    pref_line p _ hdeep _ "  </direction-type>" (by decide)
  have e6 : p (ind 3 ++ "</direction>") = false :=
    pref_line p _ hdeep _ "</direction>" (by decide)
  have e7 : p (ind 5 ++ "<wedge type=\"crescendo\"/>") = false :=
    pref_line p _ hdeep _ "    <wedge type=\"crescendo\"/>" (by decide)
  have e8 : p (ind 5 ++ "<wedge type=\"stop\"/>") = false :=
    pref_line p _ hdeep _ "    <wedge type=\"stop\"/>" (by decide)
  have e9 : p (ind 5 ++ "<wedge type=\"diminuendo\"/>") = false :=
    pref_line p _ hdeep _ "    <wedge type=\"diminuendo\"/>" (by decide)
  have e10 : p (ind 3 ++ "<direction>") = false :=
    pref_line p _ hdeep _ "<direction>" (by decide)
  unfold transpileElement
  rcases el with n | r | c
  · dsimp only
    rw [List.filter_append, List.filter_append]
    have hdyn : ((match n.annot.bind (fun x => x.dynamic) with
        | some d =>
          if d != "" then
            [ind 3 ++ "<direction placement=\"below\">",
             ind 4 ++ "<direction-type>",
             ind 5 ++ "<dynamics default-y=\"-80\">",
             ind 6 ++ "<" ++ d ++ "/>",
             ind 5 ++ "</dynamics>",
             ind 4 ++ "</direction-type>",
             ind 3 ++ "</direction>"]
          else []
        | none => []).filter p) = [] := by
      rcases n.annot.bind (fun x => x.dynamic) with _ | d
      · rfl
      · dsimp only
        split
        · simp [List.filter_cons, e1, e2, e3, e4, e5, e6, dd]
        · rfl
    have hann : ((match n.annot with
        | some a =>
          (if a.crescendo = some "start" then
            [ind 3 ++ "<direction placement=\"below\">", ind 4 ++ "<direction-type>",
             ind 5 ++ "<wedge type=\"crescendo\"/>", ind 4 ++ "</direction-type>",
             ind 3 ++ "</direction>"]
          else if a.crescendo = some "end" then
            [ind 3 ++ "<direction>", ind 4 ++ "<direction-type>",
             ind 5 ++ "<wedge type=\"stop\"/>", ind 4 ++ "</direction-type>",
             ind 3 ++ "</direction>"]
          else []) ++
          (if a.decrescendo = some "start" then
            [ind 3 ++ "<direction placement=\"below\">", ind 4 ++ "<direction-type>",
             ind 5 ++ "<wedge type=\"diminuendo\"/>", ind 4 ++ "</direction-type>",
             ind 3 ++ "</direction>"]
          else if a.decrescendo = some "end" then
            [ind 3 ++ "<direction>", ind 4 ++ "<direction-type>",
             ind 5 ++ "<wedge type=\"stop\"/>", ind 4 ++ "</direction-type>",
             ind 3 ++ "</direction>"]
          else [])
        | none => []).filter p) = [] := by
      rcases n.annot with _ | a
      · rfl
      · dsimp only
        rw [List.filter_append]
        repeat' split
        all_goals simp [List.filter_cons, e1, e2, e5, e6, e7, e8, e9, e10]
    rw [hdyn, hann, filter_deep_note p hdeep]
    rfl
  · rw [List.filter_append, filter_deep_rest p hdeep]
    rfl
  · rw [List.filter_append, filter_deep_chord p hdeep]
    rfl

/-- Every line of `transpileMeasure` is indented at least six spaces. -/
lemma filter_deep_measure (p : String → Bool)
    (hdeep : ∀ s, p ("      " ++ s) = false) (m : MeasureNode) :
    (transpileMeasure m).filter p = [] := by
  unfold transpileMeasure
  rw [filter_flatMap_eq]
  rw [List.flatMap_eq_nil_iff]
  intro i _
  rcases m.elements[i]? with _ | el
  · rfl
  · exact filter_deep_element p hdeep el _

lemma countP_zero_of_filter {l : List String} {p : String → Bool}
    (h : l.filter p = []) : l.countP p = 0 := by
  rw [l.countP_eq_length_filter p, h]
  rfl

lemma countP_flatMap {α β : Type} (l : List α) (f : α → List β) (p : β → Bool) :
    (l.flatMap f).countP p = (l.map (fun a => (f a).countP p)).sum := by
  induction l with
  | nil => rfl
  | cons a rest ih => simp [List.flatMap_cons, List.countP_append, ih]

lemma countP_smKeyLines (p : String → Bool)
    (hdeep : ∀ s, p ("      " ++ s) = false) (k? : Option String) :
    (smKeyLines k?).countP p = 0 := by
  have da1 : p (ind 4 ++ "<key>") = false :=
    pref_line p _ hdeep _ "  <key>" (by decide)
  have da2 : ∀ x, p (ind 5 ++ "<fifths>" ++ x ++ "</fifths>") = false :=
    fun x => pref_line2 p _ hdeep _ "    <fifths>" (by decide) x "</fifths>"
  have da3 : ∀ x, p (ind 5 ++ "<mode>" ++ x ++ "</mode>") = false :=
    fun x => pref_line2 p _ hdeep _ "    <mode>" (by decide) x "</mode>"
  have da4 : p (ind 4 ++ "</key>") = false :=
    pref_line p _ hdeep _ "  </key>" (by decide)
  unfold smKeyLines
  rcases k? with _ | k
  · rfl
  · dsimp only
    split
    · simp [List.countP_cons, da1, da2, da3, da4]
    · rfl

lemma countP_smTimeLines (p : String → Bool)
    (hdeep : ∀ s, p ("      " ++ s) = false) (t? : Option TimeSignatureNode)
    (i : Nat) : (smTimeLines t? i).countP p = 0 := by
  have da1 : p (ind 4 ++ "<time>") = false :=
    pref_line p _ hdeep _ "  <time>" (by decide)
  have da2 : ∀ x, p (ind 5 ++ "<beats>" ++ x ++ "</beats>") = false :=
    fun x => pref_line2 p _ hdeep _ "    <beats>" (by decide) x "</beats>"
  have da3 : ∀ x, p (ind 5 ++ "<beat-type>" ++ x ++ "</beat-type>") = false :=
    fun x => pref_line2 p _ hdeep _ "    <beat-type>" (by decide) x "</beat-type>"
  have da4 : p (ind 4 ++ "</time>") = false :=
    pref_line p _ hdeep _ "  </time>" (by decide)
  unfold smTimeLines
  split
  · dsimp only
    simp [List.countP_cons, da1, da2, da3, da4]
  · rfl

lemma countP_smClefLines (p : String → Bool)
    (hdeep : ∀ s, p ("      " ++ s) = false) (c? : Option String) :
    (smClefLines c?).countP p = 0 := by
  have da1 : p (ind 4 ++ "<clef>") = false :=
    pref_line p _ hdeep _ "  <clef>" (by decide)
  have da2 : ∀ x, p (ind 5 ++ "<sign>" ++ x ++ "</sign>") = false :=
    fun x => pref_line2 p _ hdeep _ "    <sign>" (by decide) x "</sign>"
  have da3 : ∀ x, p (ind 5 ++ "<line>" ++ x ++ "</line>") = false :=
    fun x => pref_line2 p _ hdeep _ "    <line>" (by decide) x "</line>"
  have da4 : p (ind 4 ++ "</clef>") = false :=
    pref_line p _ hdeep _ "  </clef>" (by decide)
  unfold smClefLines
  rcases c? with _ | c
  · rfl
  · dsimp only
    split
    · simp [List.countP_cons, da1, da2, da3, da4]
    · rfl

lemma countP_smAttrLines (p : String → Bool)
    (hdeep : ∀ s, p ("      " ++ s) = false) (staff : StaffNode)
    (mAttrs : Option MeasAttrs) (md : MetadataNode) (i : Nat) :
    (smAttrLines staff mAttrs md i).countP p = 0 := by
  have da1 : p (ind 3 ++ "<attributes>") = false :=
    pref_line p _ hdeep _ "<attributes>" (by decide)
  have da2 : p (ind 4 ++ "<divisions>4</divisions>") = false :=
    pref_line p _ hdeep _ "  <divisions>4</divisions>" (by decide)
  have da3 : p (ind 3 ++ "</attributes>") = false :=
    pref_line p _ hdeep _ "</attributes>" (by decide)
  unfold smAttrLines
  split
  · dsimp only
    simp [List.countP_append, List.countP_cons,
      countP_smKeyLines p hdeep, countP_smTimeLines p hdeep,
      countP_smClefLines p hdeep, da1, da2, da3,
      apply_ite (List.countP p)]
  · rfl

lemma countP_smBodyLines (p : String → Bool)
    (hdeep : ∀ s, p ("      " ++ s) = false) (staff : StaffNode)
    (md : MetadataNode) (i : Nat) :
    (smBodyLines staff md i).countP p = 0 := by
  have pb1 : p (ind 3 ++ "<note>") = false :=
    pref_line p _ hdeep _ "<note>" (by decide)
  have pb2 : p (ind 4 ++ "<rest/>") = false :=
    pref_line p _ hdeep _ "  <rest/>" (by decide)
  have pb3 : ∀ x, p (ind 4 ++ "<duration>" ++ x ++ "</duration>") = false :=
    fun x => pref_line2 p _ hdeep _ "  <duration>" (by decide) x "</duration>"
  have pb4 : p (ind 4 ++ "<type>whole</type>") = false :=
    pref_line p _ hdeep _ "  <type>whole</type>" (by decide)
  have pb5 : p (ind 3 ++ "</note>") = false :=
    pref_line p _ hdeep _ "</note>" (by decide)
  unfold smBodyLines
  rcases staff.measures[i]? with _ | m
  · dsimp only
    simp [List.countP_cons, pb1, pb2, pb3, pb4, pb5]
  · exact countP_zero_of_filter (filter_deep_measure p hdeep m)

lemma countP_staffMeasure (p : String → Bool)
    (hdeep : ∀ s, p ("      " ++ s) = false) (staff : StaffNode)
    (md : MetadataNode) (i : Nat) :
    (transpileStaffMeasure staff md i).countP p =
      (if p (ind 2 ++ "<measure number=\"" ++ toString (i + 1) ++ "\">")
        then 1 else 0) +
      (if p (ind 2 ++ "</measure>") then 1 else 0) := by
  unfold transpileStaffMeasure
  simp only [List.countP_append, List.countP_cons, List.countP_nil,
    countP_smAttrLines p hdeep, countP_smBodyLines p hdeep]
  cases hp1 : p (ind 2 ++ "<measure number=\"" ++ toString (i + 1) ++ "\">") <;>
    cases hp2 : p (ind 2 ++ "</measure>") <;> simp [hp1, hp2]

lemma countP_staff (p : String → Bool) (b : Bool)
    (hdeep : ∀ s, p ("      " ++ s) = false)
    (hh : ∀ x, p (ind 2 ++ "<measure number=\"" ++ x ++ "\">") = b)
    (hc : p (ind 2 ++ "</measure>") = false)
    (staff : StaffNode) (md : MetadataNode) (n : Nat) :
    (transpileStaff staff md n).countP p = if b then n else 0 := by
  unfold transpileStaff
  rw [countP_flatMap]
  have hmap : ∀ i ∈ List.range n,
      (transpileStaffMeasure staff md i).countP p = if b then 1 else 0 := by
    intro i _
    rw [countP_staffMeasure p hdeep, hh, hc]
    cases b <;> simp
  rw [List.map_congr_left hmap]
  cases b <;> simp

lemma isMeasureOpen_header (x : String) :
    isMeasureOpen (ind 2 ++ "<measure number=\"" ++ x ++ "\">") = true := by
  rw [String.append_assoc, isMeasureOpen_append _ _ (by decide)]
  decide

lemma isMeasureOpen_close : isMeasureOpen (ind 2 ++ "</measure>") = false := by
  decide

lemma isPartOpen_header (x : String) :
    isPartOpen (ind 2 ++ "<measure number=\"" ++ x ++ "\">") = false :=
  pref_line2 isPartOpen _ isPartOpen_sp _ "<measure number=\"" (by decide)
    x "\">"

lemma isPartOpen_mclose : isPartOpen (ind 2 ++ "</measure>") = false := by
  decide

lemma isRootOpen_header (x : String) :
    isRootOpen (ind 2 ++ "<measure number=\"" ++ x ++ "\">") = false :=
  pref_line2 isRootOpen _ isRootOpen_sp _ "  <measure number=\"" (by decide)
    x "\">"

lemma isRootOpen_mclose : isRootOpen (ind 2 ++ "</measure>") = false := by
  decide

lemma countP_tlTitle (p : String → Bool)
    (h1 : p (ind 1 ++ "<work>") = false)
    (h2 : ∀ x, p (ind 2 ++ "<work-title>" ++ x ++ "</work-title>") = false)
    (h3 : p (ind 1 ++ "</work>") = false) (md : MetadataNode) :
    (tlTitleLines md).countP p = 0 := by
  unfold tlTitleLines
  rcases md.title with _ | t
  · rfl
  · dsimp only
    split
    · simp [List.countP_cons, h1, h2, h3]
    · rfl

lemma countP_tlComposer (p : String → Bool)
    (h1 : p (ind 1 ++ "<identification>") = false)
    (h2 : ∀ x, p (ind 2 ++ "<creator type=\"composer\">" ++ x ++ "</creator>")
      = false)
    (h3 : p (ind 1 ++ "</identification>") = false) (md : MetadataNode) :
    (tlComposerLines md).countP p = 0 := by
  unfold tlComposerLines
  rcases md.composer with _ | c
  · rfl
  · dsimp only
    split
    · simp [List.countP_cons, h1, h2, h3]
    · rfl

lemma countP_tlPartList (p : String → Bool)
    (h1 : p (ind 1 ++ "<part-list>") = false)
    (h2 : p (ind 2 ++ "<part-group type=\"start\" number=\"1\">") = false)
    (h3 : p (ind 3 ++ "<group-symbol>bracket</group-symbol>") = false)
    (h4 : p (ind 2 ++ "</part-group>") = false)
    (h5 : ∀ x, p (ind 2 ++ "<score-part id=\"P" ++ x ++ "\">") = false)
    (h6 : ∀ x, p (ind 3 ++ "<part-name>" ++ x ++ "</part-name>") = false)
    (h7 : p (ind 2 ++ "</score-part>") = false)
    (h8 : p (ind 2 ++ "<part-group type=\"stop\" number=\"1\"/>") = false)
    (h9 : p (ind 1 ++ "</part-list>") = false)
    (staves : List StaffNode) :
    (tlPartListLines staves).countP p = 0 := by
  have hentries : (tlPartEntries staves).countP p = 0 := by
    unfold tlPartEntries
    rw [countP_flatMap]
    have hmap : ∀ idx ∈ List.range staves.length,
        ((match staves[idx]? with
          | some staff =>
            [ind 2 ++ "<score-part id=\"P" ++ toString (idx + 1) ++ "\">",
             ind 3 ++ "<part-name>" ++ escapeXml staff.name ++ "</part-name>",
             ind 2 ++ "</score-part>"]
          | none => []).countP p) = 0 := by
      intro idx _
      rcases staves[idx]? with _ | staff
      · rfl
      · simp [List.countP_cons, h5, h6, h7]
    rw [List.map_congr_left hmap]
    simp
  have hgs : (tlGroupStart staves.length).countP p = 0 := by
    unfold tlGroupStart
    split
    · simp [List.countP_cons, h2, h3, h4]
    · rfl
  have hge : (tlGroupStop staves.length).countP p = 0 := by
    unfold tlGroupStop
    split
    · simp [List.countP_cons, h8]
    · rfl
  unfold tlPartListLines
  simp [List.countP_append, List.countP_cons, hentries, hgs, hge, h1, h9]

lemma countP_tlPartLines (p : String → Bool) (bpart : Bool) (cS : Nat)
    (hpo : ∀ x, p (ind 1 ++ "<part id=\"P" ++ x ++ "\">") = bpart)
    (hpc : p (ind 1 ++ "</part>") = false)
    (staves : List StaffNode) (md : MetadataNode) (maxM : Nat)
    (hstaff : ∀ staff, (transpileStaff staff md maxM).countP p = cS) :
    (tlPartLines staves md maxM).countP p =
      staves.length * ((if bpart then 1 else 0) + cS) := by
  unfold tlPartLines
  rw [countP_flatMap]
  have hmap : ∀ idx ∈ List.range staves.length,
      ((match staves[idx]? with
        | some staff =>
          [ind 1 ++ "<part id=\"P" ++ toString (idx + 1) ++ "\">"] ++
          transpileStaff staff md maxM ++ [ind 1 ++ "</part>"]
        | none => []).countP p) = (if bpart then 1 else 0) + cS := by
    intro idx hidx
    have hlt := List.mem_range.mp hidx
    rw [List.getElem?_eq_getElem hlt]
    dsimp only
    cases bpart <;>
      simp [List.countP_append, List.countP_cons, List.countP_nil,
        hpo, hpc, hstaff, Nat.add_comm]
  rw [List.map_congr_left hmap]
  simp [Nat.mul_comm]

lemma countP_lines_root (ast : ScoreNode) :
    (transpileLines ast).countP isRootOpen = 1 := by
  have ht := countP_tlTitle isRootOpen (by decide)
    (fun x => pref_line2 isRootOpen _ isRootOpen_sp _ "  <work-title>"
      (by decide) x "</work-title>")
    (by decide) ast.metadata
  have hcm := countP_tlComposer isRootOpen (by decide)
    (fun x => pref_line2 isRootOpen _ isRootOpen_sp _
      "  <creator type=\"composer\">" (by decide) x "</creator>")
    (by decide) ast.metadata
  have hpl := countP_tlPartList isRootOpen (by decide) (by decide) (by decide)
    (by decide)
    (fun x => pref_line2 isRootOpen _ isRootOpen_sp _ "  <score-part id=\"P"
      (by decide) x "\">")
    (fun x => pref_line2 isRootOpen _ isRootOpen_sp _ "    <part-name>"
      (by decide) x "</part-name>")
    (by decide) (by decide) (by decide) ast.staves
  have hparts := countP_tlPartLines isRootOpen false 0
    (fun x => pref_line2 isRootOpen _ isRootOpen_sp _ "<part id=\"P"
      (by decide) x "\">")
    (by decide) ast.staves ast.metadata (tlMaxMeasures ast.staves)
    (fun staff => by
      have := countP_staff isRootOpen false isRootOpen_sp6 isRootOpen_header
        isRootOpen_mclose staff ast.metadata (tlMaxMeasures ast.staves)
      simpa using this)
  have e1 : isRootOpen "<?xml version=\"1.0\" encoding=\"UTF-8\"?>" = false := by
    decide
  have e2 : isRootOpen "<!DOCTYPE score-partwise PUBLIC \"-//Recordare//DTD MusicXML 4.0 Partwise//EN\" \"http://www.musicxml.org/dtds/partwise.dtd\">" = false := by
    decide
  have e3 : isRootOpen "<score-partwise version=\"4.0\">" = true := by decide
  have e4 : isRootOpen "</score-partwise>" = false := by decide
  unfold transpileLines
  simp [List.countP_append, List.countP_cons, ht, hcm, hpl, hparts,
    e1, e2, e3, e4]

lemma countP_lines_part (ast : ScoreNode) :
    (transpileLines ast).countP isPartOpen = ast.staves.length := by
  have ht := countP_tlTitle isPartOpen (by decide)
    (fun x => pref_line2 isPartOpen _ isPartOpen_sp _ "<work-title>"
      (by decide) x "</work-title>")
    (by decide) ast.metadata
  have hcm := countP_tlComposer isPartOpen (by decide)
    (fun x => pref_line2 isPartOpen _ isPartOpen_sp _
      "<creator type=\"composer\">" (by decide) x "</creator>")
    (by decide) ast.metadata
  have hpl := countP_tlPartList isPartOpen (by decide) (by decide) (by decide)
    (by decide)
    (fun x => pref_line2 isPartOpen _ isPartOpen_sp _ "<score-part id=\"P"
      (by decide) x "\">")
    (fun x => pref_line2 isPartOpen _ isPartOpen_sp _ "  <part-name>"
      (by decide) x "</part-name>")
    (by decide) (by decide) (by decide) ast.staves
  have hpo : ∀ x, isPartOpen (ind 1 ++ "<part id=\"P" ++ x ++ "\">") = true := by
    intro x
    rw [String.append_assoc,
      isPartOpen_append _ _ (by decide)]
    decide
  have hparts := countP_tlPartLines isPartOpen true 0 hpo
    (by decide) ast.staves ast.metadata (tlMaxMeasures ast.staves)
    (fun staff => by
      have := countP_staff isPartOpen false isPartOpen_sp6 isPartOpen_header
        isPartOpen_mclose staff ast.metadata (tlMaxMeasures ast.staves)
      simpa using this)
  have e1 : isPartOpen "<?xml version=\"1.0\" encoding=\"UTF-8\"?>" = false := by
    decide
  have e2 : isPartOpen "<!DOCTYPE score-partwise PUBLIC \"-//Recordare//DTD MusicXML 4.0 Partwise//EN\" \"http://www.musicxml.org/dtds/partwise.dtd\">" = false := by
    decide
  have e3 : isPartOpen "<score-partwise version=\"4.0\">" = false := by decide
  have e4 : isPartOpen "</score-partwise>" = false := by decide
  unfold transpileLines
  simp [List.countP_append, List.countP_cons, ht, hcm, hpl, hparts,
    e1, e2, e3, e4]


lemma padding_lines (staff : StaffNode) (md : MetadataNode) (i : Nat)
    (h : staff.measures.length ≤ i) :
    (ind 4 ++ "<rest/>") ∈ transpileStaffMeasure staff md i ∧
      (ind 4 ++ "<type>whole</type>") ∈ transpileStaffMeasure staff md i := by
  have hnone : staff.measures[i]? = none := by
    rw [List.getElem?_eq_none h]
  unfold transpileStaffMeasure smBodyLines
  rw [hnone]
  constructor <;> simp

/-- C8: the transpiled document has exactly one `<score-partwise>` root
line and exactly one `<part id="…">` line per staff, and each staff's part
renders exactly `tlMaxMeasures` measures, where `tlMaxMeasures` is the
maximum staff measure count floored at one; staves shorter than the target
are padded with whole-rest measures. -/
theorem C8_amended (ast : ScoreNode) :
    ((transpileLines ast).countP isRootOpen = 1) ∧
    ((transpileLines ast).countP isPartOpen = ast.staves.length) ∧
    (∀ staff, staff ∈ ast.staves →
      (transpileStaff staff ast.metadata (tlMaxMeasures ast.staves)).countP
        isMeasureOpen = tlMaxMeasures ast.staves) ∧
    (∀ staff, staff ∈ ast.staves → ∀ i, staff.measures.length ≤ i →
      (ind 4 ++ "<rest/>") ∈ transpileStaffMeasure staff ast.metadata i ∧
        (ind 4 ++ "<type>whole</type>") ∈
          transpileStaffMeasure staff ast.metadata i) := by
  refine ⟨countP_lines_root ast, countP_lines_part ast, ?_, ?_⟩
  · intro staff _
    have := countP_staff isMeasureOpen true isMeasureOpen_sp
      isMeasureOpen_header isMeasureOpen_close staff ast.metadata
      (tlMaxMeasures ast.staves)
    simpa using this
  · intro staff _ i hi
    exact padding_lines staff ast.metadata i hi

/-- C7: in every measure emitted by the MusicXML transpiler, the beam lines
are the rendering of a tag sequence of the form `begin (continue)* end`
(possibly repeated), or there are no beam lines at all: the tag stream
satisfies the `beamSeqOK` discipline, so no bare `begin` or `end` occurs. -/
theorem C7_beam_discipline (m : MeasureNode) :
    ∃ tags : List String,
      beamSeqOK false tags = true ∧
      (transpileMeasure m).filter isBeamLine =
        tags.map (fun b => ind 4 ++ "<beam number=\"1\">" ++ b ++ "</beam>") := by
  refine ⟨(List.range m.elements.length).filterMap (beamStateAt m.elements),
    ?_, ?_⟩
  · have hb : (List.range m.elements.length).filterMap (beamStateAt m.elements)
        = beamRun none m.elements := beamStates_bridge m.elements none
    rw [hb]
    have h := beamRun_ok m.elements none
    have h0 : isBeamedNote none = false := rfl
    rw [h0] at h
    simpa using h
  · unfold transpileMeasure
    rw [filter_flatMap_eq]
    have hper : ∀ i, ((match m.elements[i]? with
        | some el => transpileElement el (beamStateAt m.elements i)
        | none => []).filter isBeamLine) =
        ((beamStateAt m.elements i).map
          (fun b => ind 4 ++ "<beam number=\"1\">" ++ b ++ "</beam>")).toList := by
      intro i
      rcases hel : m.elements[i]? with _ | el
      · have hbs : beamStateAt m.elements i = none := by
          unfold beamStateAt beamStateAtP
          rw [hel]
        rw [hbs]
        rfl
      · rcases el with n | r | c
        · rw [filter_beam_element]
          rcases beamStateAt m.elements i with _ | b <;> rfl
        · have hbs : beamStateAt m.elements i = none := by
            unfold beamStateAt beamStateAtP
            rw [hel]
          rw [filter_beam_element, hbs]
          rfl
        · have hbs : beamStateAt m.elements i = none := by
            unfold beamStateAt beamStateAtP
            rw [hel]
          rw [filter_beam_element, hbs]
          rfl
    simp only [hper]
    exact flatMap_toList_map (List.range m.elements.length)
      (beamStateAt m.elements)
      (fun b => ind 4 ++ "<beam number=\"1\">" ++ b ++ "</beam>")

/-- Strengthen the consecutive-span chain with per-token well-formedness,
so that the relation becomes transitive. -/
lemma spansT_chain : ∀ (l : List Token),
    List.Chain' (fun a b => a.endPos ≤ b.startPos) l →
    (∀ t ∈ l, t.startPos ≤ t.endPos) →
    List.Chain' (fun a b => a.endPos ≤ b.startPos ∧ a.endPos ≤ b.endPos) l := by
  intro l
  induction l with
  | nil => intro _ _; exact List.chain'_nil
  | cons a rest ih =>
    intro hc hm
    rw [List.chain'_cons'] at hc ⊢
    obtain ⟨hhead, hrest⟩ := hc
    refine ⟨?_, ih hrest (fun t ht => hm t (List.mem_cons_of_mem _ ht))⟩
    intro b hb
    have h1 := hhead b hb
    have h2 : b.startPos ≤ b.endPos :=
      hm b (List.mem_cons_of_mem _ (List.mem_of_mem_head? hb))
    exact ⟨h1, le_trans h1 h2⟩

/-- C9: the lexer is total (a plain function), never records an error, ends
every token stream with an `EOF` token, tokenizes in source order with
non-overlapping spans (`tokens[i].end ≤ tokens[j].start` for `i < j`), and
covers an unrecognized byte such as `$` with an `UNKNOWN` token. -/
theorem C9_lexer_safety (source : String) :
    ((tokenize source).errors = [] ∧ (tokenize source).tokens ≠ []) ∧
    (∃ t, (tokenize source).tokens.getLast? = some t ∧ t.type = TokenType.eof) ∧
    List.Pairwise (fun a b => a.endPos ≤ b.startPos) (tokenize source).tokens ∧
    ((tokenize "$").tokens.map (fun t => (t.type, t.value, t.startPos, t.endPos))
      = [(TokenType.unknown, "$", 0, 1), (TokenType.eof, "", 1, 1)]) := by
  obtain ⟨hchain, hmem, ⟨t0, hlast, hty⟩⟩ :=
    lexGo_spans (source.data.length + 1) LexSt.initial source.data 0
  have htok : (tokenize source).tokens =
      lexGo (source.data.length + 1) LexSt.initial source.data 0 := rfl
  refine ⟨⟨rfl, ?_⟩, ⟨t0, by rw [htok]; exact hlast, hty⟩, ?_, by decide⟩
  · rw [htok]
    intro h
    rw [h] at hlast
    simp at hlast
  · rw [htok]
    have hT := spansT_chain _ hchain (fun t ht => (hmem t ht).2)
    have hp := (@List.chain'_iff_pairwise Token
      (fun a b => a.endPos ≤ b.startPos ∧ a.endPos ≤ b.endPos)
      ⟨fun _ _ _ hab hbc => ⟨le_trans hab.2 hbc.1, le_trans hab.2 hbc.2⟩⟩ _).mp hT
    exact hp.imp (fun hab => hab.1)

/-- C10: `validate` returns `valid = true` exactly when no diagnostic has
severity `error`; warnings and infos never make it false. -/
theorem C10_valid_iff_no_error (ast : ScoreNode) :
    (validateScore ast).valid = true ↔
      ∀ d ∈ (validateScore ast).diagnostics, d.severity ≠ "error" := by
  show ((validateScore ast).diagnostics.filter
      (fun d => d.severity == "error")).isEmpty = true ↔ _
  rw [List.isEmpty_iff, List.filter_eq_nil_iff]
  constructor
  · intro h d hd
    have := h d hd
    simpa using this
  · intro h d hd
    simpa using h d hd

end Scorelang
